import Mathlib

/-! Shallow embedding of the smartfocusBackend natural-language command
pipeline: `services/nl_service.py`, `services/subject_service.py`,
`services/event_service.py` and the execute path of `routers/v1_nl.py`.

Untyped Python values flowing through the tool-call argument bags, planned
actions and serialized results are modelled by `Value`; Python exceptions by
`Except PyErr`.  Database access (SQLAlchemy `Session`) is modelled by an
explicit `DB` state holding the `materia` and `evento` tables with
autoincrement counters. -/

namespace SmartFocus

/-- A Python/JSON value as it appears in the untrusted tool-call argument
bags, in `PlannedAction` fields, and in serialized plans and results:
`None`, `bool`, `int`, `str`, `list`, `dict`.  Python dicts have unique keys,
so an association list is a canonical representation. -/
inductive Value where
  | vnull : Value
  | vbool : Bool → Value
  | vint : Int → Value
  | vstr : String → Value
  | vlist : List Value → Value
  | vdict : List (String × Value) → Value
deriving Repr

mutual

/-- Equality decision for `Value` (the derive handler does not support the
nested recursion through `List`). -/
def Value.decEq : (a b : Value) → Decidable (a = b)
  | .vnull, .vnull => .isTrue rfl
  | .vbool a, .vbool b =>
      if h : a = b then .isTrue (by rw [h]) else .isFalse (by simp [h])
  | .vint a, .vint b =>
      if h : a = b then .isTrue (by rw [h]) else .isFalse (by simp [h])
  | .vstr a, .vstr b =>
      if h : a = b then .isTrue (by rw [h]) else .isFalse (by simp [h])
  | .vlist a, .vlist b =>
      match Value.decEqList a b with
      | .isTrue h => .isTrue (by rw [h])
      | .isFalse h => .isFalse (by simp [h])
  | .vdict a, .vdict b =>
      match Value.decEqDict a b with
      | .isTrue h => .isTrue (by rw [h])
      | .isFalse h => .isFalse (by simp [h])
  | .vnull, .vbool _ => .isFalse (by simp)
  | .vnull, .vint _ => .isFalse (by simp)
  | .vnull, .vstr _ => .isFalse (by simp)
  | .vnull, .vlist _ => .isFalse (by simp)
  | .vnull, .vdict _ => .isFalse (by simp)
  | .vbool _, .vnull => .isFalse (by simp)
  | .vbool _, .vint _ => .isFalse (by simp)
  | .vbool _, .vstr _ => .isFalse (by simp)
  | .vbool _, .vlist _ => .isFalse (by simp)
  | .vbool _, .vdict _ => .isFalse (by simp)
  | .vint _, .vnull => .isFalse (by simp)
  | .vint _, .vbool _ => .isFalse (by simp)
  | .vint _, .vstr _ => .isFalse (by simp)
  | .vint _, .vlist _ => .isFalse (by simp)
  | .vint _, .vdict _ => .isFalse (by simp)
  | .vstr _, .vnull => .isFalse (by simp)
  | .vstr _, .vbool _ => .isFalse (by simp)
  | .vstr _, .vint _ => .isFalse (by simp)
  | .vstr _, .vlist _ => .isFalse (by simp)
  | .vstr _, .vdict _ => .isFalse (by simp)
  | .vlist _, .vnull => .isFalse (by simp)
  | .vlist _, .vbool _ => .isFalse (by simp)
  | .vlist _, .vint _ => .isFalse (by simp)
  | .vlist _, .vstr _ => .isFalse (by simp)
  | .vlist _, .vdict _ => .isFalse (by simp)
  | .vdict _, .vnull => .isFalse (by simp)
  | .vdict _, .vbool _ => .isFalse (by simp)
  | .vdict _, .vint _ => .isFalse (by simp)
  | .vdict _, .vstr _ => .isFalse (by simp)
  | .vdict _, .vlist _ => .isFalse (by simp)

/-- Equality decision for lists of values. -/
def Value.decEqList : (a b : List Value) → Decidable (a = b)
  | [], [] => .isTrue rfl
  | [], _ :: _ => .isFalse (by simp)
  | _ :: _, [] => .isFalse (by simp)
  | x :: xs, y :: ys =>
      match Value.decEq x y with
      | .isFalse h => .isFalse (by simp [h])
      | .isTrue h =>
          match Value.decEqList xs ys with
          | .isTrue h2 => .isTrue (by rw [h, h2])
          | .isFalse h2 => .isFalse (by simp [h2])

/-- Equality decision for dicts (key-value association lists). -/
def Value.decEqDict : (a b : List (String × Value)) → Decidable (a = b)
  | [], [] => .isTrue rfl
  | [], _ :: _ => .isFalse (by simp)
  | _ :: _, [] => .isFalse (by simp)
  | (k1, v1) :: xs, (k2, v2) :: ys =>
      if hk : k1 = k2 then
        match Value.decEq v1 v2 with
        | .isFalse h => .isFalse (by simp [h])
        | .isTrue h =>
            match Value.decEqDict xs ys with
            | .isTrue h2 => .isTrue (by rw [hk, h, h2])
            | .isFalse h2 => .isFalse (by simp [h2])
      else .isFalse (by simp [hk])

end

instance : DecidableEq Value := Value.decEq

/-- The Python exceptions raised by the embedded code.  The domain exception
classes defined at the top of `subject_service.py` and `event_service.py`
(`MateriaNoEncontrada`, `AccesoNoAutorizado`, `MateriaDuplicada`,
`EventoNoEncontrado`) are plain `Exception` subclasses constructed with no
arguments, so `str(e)` is `""` for them. -/
inductive PyErr where
  | valueError : String → PyErr
  | typeError : String → PyErr
  | attributeError : String → PyErr
  | keyError : String → PyErr
  | validationError : String → PyErr
  | multipleResultsFound : PyErr
  | integrityError : String → PyErr
  | materiaNoEncontrada : PyErr
  | accesoNoAutorizado : PyErr
  | materiaDuplicada : PyErr
  | eventoNoEncontrado : PyErr
deriving Repr, DecidableEq

instance {ε α : Type} [DecidableEq ε] [DecidableEq α] : DecidableEq (Except ε α) :=
  fun a b =>
    match a, b with
    | .ok x, .ok y =>
        if h : x = y then .isTrue (by rw [h]) else .isFalse (by simp [h])
    | .error e, .error f =>
        if h : e = f then .isTrue (by rw [h]) else .isFalse (by simp [h])
    | .ok _, .error _ => .isFalse (by simp)
    | .error _, .ok _ => .isFalse (by simp)

/-- Python `str(e)` on an exception. -/
def PyErr.pyStr : PyErr → String
  | .valueError m => m
  | .typeError m => m
  | .attributeError m => m
  | .keyError k => "'" ++ k ++ "'"
  | .validationError m => m
  | .multipleResultsFound => "Multiple rows were found when one or none was required"
  | .integrityError m => m
  | .materiaNoEncontrada => ""
  | .accesoNoAutorizado => ""
  | .materiaDuplicada => ""
  | .eventoNoEncontrado => ""

/-- Whether `except ValueError` catches this exception.  pydantic's
`ValidationError` subclasses `ValueError`. -/
def PyErr.isValueError : PyErr → Bool
  | .valueError _ => true
  | .validationError _ => true
  | _ => false

/-- Python truthiness of a value (`if x:`). -/
def Value.truthy : Value → Bool
  | .vnull => false
  | .vbool b => b
  | .vint n => n != 0
  | .vstr s => s != ""
  | .vlist xs => !xs.isEmpty
  | .vdict d => !d.isEmpty

/-- Python `x is None`. -/
def Value.isNone : Value → Bool
  | .vnull => true
  | _ => false

mutual

/-- Python `repr` of a value. -/
def Value.pyRepr : Value → String
  | .vnull => "None"
  | .vbool true => "True"
  | .vbool false => "False"
  | .vint n => toString n
  | .vstr s => "'" ++ s ++ "'"
  | .vlist xs => "[" ++ pyReprList xs ++ "]"
  | .vdict d => "\x7b" ++ pyReprDict d ++ "\x7d"

/-- Comma-separated `repr`s of the elements of a Python list. -/
def pyReprList : List Value → String
  | [] => ""
  | [x] => Value.pyRepr x
  | x :: xs => Value.pyRepr x ++ ", " ++ pyReprList xs

/-- Comma-separated `'key': repr(value)` entries of a Python dict. -/
def pyReprDict : List (String × Value) → String
  | [] => ""
  | [(k, v)] => "'" ++ k ++ "': " ++ Value.pyRepr v
  | (k, v) :: xs => "'" ++ k ++ "': " ++ Value.pyRepr v ++ ", " ++ pyReprDict xs

end

/-- Python `str` of a value (as used by f-string interpolation). -/
def Value.pyStr : Value → String
  | .vstr s => s
  | v => v.pyRepr

/-- Python `str.strip()`: whitespace removed from both ends. -/
def pyStrip (s : String) : String :=
  String.mk (((s.toList.dropWhile Char.isWhitespace).reverse.dropWhile
    Char.isWhitespace).reverse)

/-- Python `int(s)` on a string: optional surrounding whitespace, optional
sign, decimal digits. -/
def pyParseInt (s : String) : Option Int :=
  let l := (pyStrip s).toList
  let signDigits : Int × List Char :=
    match l with
    | '-' :: rest => (-1, rest)
    | '+' :: rest => (1, rest)
    | _ => (1, l)
  if !signDigits.2.isEmpty && signDigits.2.all Char.isDigit then
    some (signDigits.1 *
      ((signDigits.2.foldl (fun acc c => acc * 10 + (c.toNat - 48)) 0 : Nat) : Int))
  else none

/-- Lower-casing for the case-insensitive `ILIKE` match. -/
def strLower (s : String) : String :=
  String.mk (s.toList.map Char.toLower)

/-- One pass of Python `str.replace` over the character list (non-empty
pattern, non-overlapping, left to right). -/
def replaceAux (pat rep : List Char) : List Char → List Char
  | [] => []
  | c :: rest =>
      if !pat.isEmpty && pat.isPrefixOf (c :: rest) then
        rep ++ replaceAux pat rep ((c :: rest).drop pat.length)
      else c :: replaceAux pat rep rest
termination_by l => l.length
decreasing_by
  · rename_i hp
    simp only [Bool.and_eq_true, Bool.not_eq_true'] at hp
    have hlen : 1 ≤ pat.length := by
      cases pat with
      | nil => simp at hp
      | cons _ _ => simp
    simp only [List.length_drop, List.length_cons]
    omega
  · simp

/-- Python `str.replace(pat, rep)` (the empty-pattern case interleaves `rep`
around every character, as Python does). -/
def strReplace (s pat rep : String) : String :=
  if pat = "" then
    String.mk (rep.toList ++ s.toList.flatMap (fun c => c :: rep.toList))
  else String.mk (replaceAux pat.toList rep.toList s.toList)

/-- `d.get(k)` on a Python dict: the value at `k`, `None` when absent. -/
def dictGet (d : List (String × Value)) (k : String) : Value :=
  match d.find? (fun kv => kv.1 == k) with
  | some kv => kv.2
  | none => Value.vnull

/-- `d.get(k, default)` on a Python dict. -/
def dictGetD (d : List (String × Value)) (k : String) (dflt : Value) : Value :=
  match d.find? (fun kv => kv.1 == k) with
  | some kv => kv.2
  | none => dflt

/-- `k in d` on a Python dict. -/
def dictHas (d : List (String × Value)) (k : String) : Bool :=
  d.any (fun kv => kv.1 == k)

/-- `d[k] = v` on a Python dict: overwrite in place, else append. -/
def dictSet (d : List (String × Value)) (k : String) (v : Value) :
    List (String × Value) :=
  if d.any (fun kv => kv.1 == k) then
    d.map (fun kv => if kv.1 == k then (k, v) else kv)
  else d ++ [(k, v)]

/-- `v.get(k)` where `v` is expected to be a dict; any other value raises
`AttributeError` (no `get` attribute). -/
def Value.get : Value → String → Except PyErr Value
  | .vdict d, k => .ok (dictGet d k)
  | _, _ => .error (.attributeError "object has no attribute 'get'")

/-- `v.get(k, default)` where `v` is expected to be a dict. -/
def Value.getD : Value → String → Value → Except PyErr Value
  | .vdict d, k, dflt => .ok (dictGetD d k dflt)
  | _, _, _ => .error (.attributeError "object has no attribute 'get'")

/-- `v[k]` subscription on a Python value: `KeyError` when the key is absent,
`TypeError` when `v` is not a dict. -/
def Value.subscript : Value → String → Except PyErr Value
  | .vdict d, k =>
      match d.find? (fun kv => kv.1 == k) with
      | some kv => .ok kv.2
      | none => .error (.keyError k)
  | _, _ => .error (.typeError "object is not subscriptable")

/-- `v.strip()`: defined on strings, raises `AttributeError` otherwise. -/
def Value.strip : Value → Except PyErr String
  | .vstr s => .ok (pyStrip s)
  | _ => .error (.attributeError "object has no attribute 'strip'")

/-- Python `int(v)`. -/
def pyToInt : Value → Except PyErr Int
  | .vint n => .ok n
  | .vbool b => .ok (if b then 1 else 0)
  | .vstr s =>
      match pyParseInt s with
      | some n => .ok n
      | none => .error (.valueError ("invalid literal for int() with base 10: '" ++ s ++ "'"))
  | .vnull => .error (.typeError "int() argument cannot be None")
  | .vlist _ => .error (.typeError "int() argument cannot be a list")
  | .vdict _ => .error (.typeError "int() argument cannot be a dict")

/-- SQLAlchemy `Result.scalar_one_or_none()`: `None` for an empty result, the
row for a singleton, `MultipleResultsFound` raised for more than one row. -/
def scalar_one_or_none (l : List α) : Except PyErr (Option α) :=
  match l with
  | [] => .ok none
  | [x] => .ok (some x)
  | _ => .error .multipleResultsFound

/-- Whether `needle` occurs as a contiguous infix of `hay`. -/
def listInfix (needle hay : List Char) : Bool :=
  match hay with
  | [] => needle.isEmpty
  | _ :: t => needle.isPrefixOf hay || listInfix needle t

/-- SQL `column ILIKE '%needle%'`: case-insensitive substring match (the
needle itself is user text and is matched literally). -/
def ilikeContains (hay needle : String) : Bool :=
  listInfix (strLower needle).toList (strLower hay).toList

/-- Python `s.title()`: each cased character is uppercased when it follows a
non-alphabetic character and lowercased otherwise. -/
def pyTitle (s : String) : String :=
  String.mk (s.toList.foldl
    (fun (acc : List Char × Bool) c =>
      (acc.1 ++ [if acc.2 then c.toLower else c.toUpper], c.isAlpha))
    ([], false)).1

/-- Days in a month of the proleptic Gregorian calendar. -/
def daysInMonth (y m : Nat) : Nat :=
  if m == 2 then
    if y % 4 == 0 && (y % 100 != 0 || y % 400 == 0) then 29 else 28
  else if m == 4 || m == 6 || m == 9 || m == 11 then 30
  else 31

/-- Whether `s` is a canonical ISO `YYYY-MM-DD` calendar date, the format
accepted by `datetime.date.fromisoformat` and by pydantic's `date` fields for
the strings this pipeline carries. -/
def isIsoDate (s : String) : Bool :=
  match s.toList with
  | [y1, y2, y3, y4, '-', m1, m2, '-', d1, d2] =>
      if y1.isDigit && y2.isDigit && y3.isDigit && y4.isDigit &&
         m1.isDigit && m2.isDigit && d1.isDigit && d2.isDigit then
        let y := ((y1.toNat - 48) * 1000 + (y2.toNat - 48) * 100 +
                  (y3.toNat - 48) * 10 + (y4.toNat - 48))
        let m := (m1.toNat - 48) * 10 + (m2.toNat - 48)
        let d := (d1.toNat - 48) * 10 + (d2.toNat - 48)
        1 ≤ m && m ≤ 12 && 1 ≤ d && d ≤ daysInMonth y m
      else false
  | _ => false

/-- `datetime.date.fromisoformat(s)`: the parsed date (kept in its canonical
string form, on which date equality is string equality), or `ValueError`. -/
def date_fromisoformat (s : String) : Except PyErr String :=
  if isIsoDate s then .ok s
  else .error (.valueError ("Invalid isoformat string: '" ++ s ++ "'"))

/-- A row of the `materia` table (`models.Materia`).  `materia_created_at` is
set by the database's `now()` server default, abstracted to an opaque
optional timestamp string. -/
structure Materia where
  materia_id : Nat
  materia_usuario_id : Nat
  materia_nombre : String
  materia_descripcion : Option String
  materia_created_at : Option String
deriving Repr, DecidableEq

/-- A row of the `evento` table (`models.Evento`).  `evento_fecha` is a
`Date` column, kept in canonical ISO `YYYY-MM-DD` string form (date equality
is then string equality). -/
structure Evento where
  evento_id : Nat
  evento_materia_id : Nat
  evento_nombre : String
  evento_descripcion : Option String
  evento_fecha : String
  evento_estado : String
  evento_created_at : Option String
deriving Repr, DecidableEq

/-- The relational state seen through the SQLAlchemy `Session`: the two
tables touched by the pipeline plus their autoincrement counters. -/
structure DB where
  materias : List Materia
  eventos : List Evento
  next_materia_id : Nat
  next_evento_id : Nat
deriving Repr, DecidableEq

/-- `db.get(models.Materia, mid)` with an integer key. -/
def DB.getMateria (db : DB) (mid : Nat) : Option Materia :=
  db.materias.find? (fun m => m.materia_id == mid)

/-- `db.get(models.Evento, eid)` with an integer key. -/
def DB.getEvento (db : DB) (eid : Nat) : Option Evento :=
  db.eventos.find? (fun e => e.evento_id == eid)

/-- Whether an untyped primary-key value matches the integer key `id`:
Python bools are ints; values of other types never match a row (the claims
never exercise non-integer keys, which real drivers may instead reject). -/
def valueEqId : Value → Nat → Bool
  | .vint n, i => n == (i : Int)
  | .vbool b, i => (if b then (1 : Int) else 0) == (i : Int)
  | _, _ => false

/-- `db.get(models.Materia, key)` with an untyped key. -/
def DB.getMateriaV (db : DB) (v : Value) : Option Materia :=
  db.materias.find? (fun m => valueEqId v m.materia_id)

/-- `db.get(models.Evento, key)` with an untyped key. -/
def DB.getEventoV (db : DB) (v : Value) : Option Evento :=
  db.eventos.find? (fun e => valueEqId v e.evento_id)

/-- The invariants of the database state that executing actions preserves:
primary keys are positive, unique and below the autoincrement counters, and
every event's subject row exists. -/
structure DB.ExecWF (db : DB) : Prop where
  next_materia_pos : 1 ≤ db.next_materia_id
  next_evento_pos : 1 ≤ db.next_evento_id
  materia_id_pos : ∀ m ∈ db.materias, 1 ≤ m.materia_id
  evento_id_pos : ∀ e ∈ db.eventos, 1 ≤ e.evento_id
  materia_id_lt : ∀ m ∈ db.materias, m.materia_id < db.next_materia_id
  evento_id_lt : ∀ e ∈ db.eventos, e.evento_id < db.next_evento_id
  materia_nodup : (db.materias.map Materia.materia_id).Nodup
  evento_nodup : (db.eventos.map Evento.evento_id).Nodup
  evento_fk : ∀ e ∈ db.eventos, ∃ m ∈ db.materias, m.materia_id = e.evento_materia_id

/-- Full well-formedness, as the planner's `scalar_one_or_none` lookups
assume it: additionally the natural keys (owner, name) of subjects and
(subject, name, date) of events are unique.  The subject natural key is kept
unique by `create_subject`/`update_subject`; the event one is only kept by
the planner's own gating, so it is a hypothesis on planner claims, not an
executor invariant. -/
structure DB.WF (db : DB) extends DB.ExecWF db : Prop where
  materia_natkey : ∀ m1 ∈ db.materias, ∀ m2 ∈ db.materias,
      m1.materia_usuario_id = m2.materia_usuario_id →
      m1.materia_nombre = m2.materia_nombre → m1 = m2
  evento_natkey : ∀ e1 ∈ db.eventos, ∀ e2 ∈ db.eventos,
      e1.evento_materia_id = e2.evento_materia_id →
      e1.evento_nombre = e2.evento_nombre →
      e1.evento_fecha = e2.evento_fecha → e1 = e2

/-- Truthiness of a `str | None` Python value. -/
def optStrTruthy : Option String → Bool
  | none => false
  | some s => s != ""

/-- `schemas.MateriaCreate`: `materia_nombre` (1..100 chars),
`materia_descripcion` optional, `materia_usuario_id` (int ≥ 1). -/
structure MateriaCreate where
  materia_nombre : String
  materia_descripcion : Option String
  materia_usuario_id : Nat
deriving Repr, DecidableEq

/-- `schemas.MateriaUpdate`: both fields optional with `None` default;
the outer `Option` records whether the field was set at all
(`model_dump(exclude_unset=True)` semantics), the inner one an explicit
`None`. -/
structure MateriaUpdate where
  materia_nombre : Option (Option String)
  materia_descripcion : Option (Option String)
deriving Repr, DecidableEq

/-- `schemas.EventoCreate`. -/
structure EventoCreate where
  evento_nombre : String
  evento_descripcion : Option String
  evento_fecha : String
  evento_estado : String
  evento_materia_id : Nat
deriving Repr, DecidableEq

/-- `schemas.EventoUpdate`, with `exclude_unset` encoding as in
`MateriaUpdate`. -/
structure EventoUpdate where
  evento_nombre : Option (Option String)
  evento_descripcion : Option (Option String)
  evento_fecha : Option (Option String)
  evento_estado : Option (Option String)
deriving Repr, DecidableEq

/-- pydantic validation of a required `str` field with length bounds.
pydantic v2 does not coerce non-strings into `str` fields. -/
def validateStr (v : Value) (lo hi : Nat) (field : String) : Except PyErr String :=
  match v with
  | .vstr s =>
      if lo ≤ s.length && s.length ≤ hi then .ok s
      else .error (.validationError ("validation error: " ++ field))
  | _ => .error (.validationError ("validation error: " ++ field))

/-- pydantic validation of an `Optional[str]` field (absent and `None` both
give `None`). -/
def validateOptStr (v : Value) (hi : Nat) (field : String) : Except PyErr (Option String) :=
  match v with
  | .vnull => .ok none
  | .vstr s =>
      if s.length ≤ hi then .ok (some s)
      else .error (.validationError ("validation error: " ++ field))
  | _ => .error (.validationError ("validation error: " ++ field))

/-- pydantic validation of an `int` field with `ge=1`: ints pass, bools are
rejected, numeric strings are coerced in lax mode. -/
def validatePosInt (v : Value) (field : String) : Except PyErr Nat :=
  match v with
  | .vint n => if 1 ≤ n then .ok n.toNat else .error (.validationError ("validation error: " ++ field))
  | .vstr s =>
      match pyParseInt s with
      | some n => if 1 ≤ n then .ok n.toNat else .error (.validationError ("validation error: " ++ field))
      | none => .error (.validationError ("validation error: " ++ field))
  | _ => .error (.validationError ("validation error: " ++ field))

/-- pydantic validation of a `date` field: the canonical ISO strings this
pipeline carries. -/
def validateDate (v : Value) (field : String) : Except PyErr String :=
  match v with
  | .vstr s => if isIsoDate s then .ok s else .error (.validationError ("validation error: " ++ field))
  | _ => .error (.validationError ("validation error: " ++ field))

/-- pydantic validation of the `EventoEstado` literal. -/
def validateEstado (v : Value) (field : String) : Except PyErr String :=
  match v with
  | .vstr s =>
      if s == "pendiente" || s == "aprobado" || s == "desaprobado" then .ok s
      else .error (.validationError ("validation error: " ++ field))
  | _ => .error (.validationError ("validation error: " ++ field))

/-- `schemas.MateriaCreate(**kwargs)`: extra keys are ignored (pydantic
default), missing required keys and ill-typed values raise. -/
def MateriaCreate.validate (kwargs : List (String × Value)) : Except PyErr MateriaCreate := do
  if !dictHas kwargs "materia_nombre" then
    throw (.validationError "validation error: materia_nombre missing")
  let nombre ← validateStr (dictGet kwargs "materia_nombre") 1 100 "materia_nombre"
  let descripcion ← validateOptStr (dictGet kwargs "materia_descripcion") 1000000 "materia_descripcion"
  if !dictHas kwargs "materia_usuario_id" then
    throw (.validationError "validation error: materia_usuario_id missing")
  let uid ← validatePosInt (dictGet kwargs "materia_usuario_id") "materia_usuario_id"
  pure { materia_nombre := nombre, materia_descripcion := descripcion, materia_usuario_id := uid }

/-- `schemas.MateriaUpdate(**kwargs)`. -/
def MateriaUpdate.validate (kwargs : List (String × Value)) : Except PyErr MateriaUpdate := do
  let nombre ←
    if dictHas kwargs "materia_nombre" then
      match dictGet kwargs "materia_nombre" with
      | .vnull => pure (some none)
      | v => do pure (some (some (← validateStr v 1 100 "materia_nombre")))
    else pure none
  let descripcion ←
    if dictHas kwargs "materia_descripcion" then do
      pure (some (← validateOptStr (dictGet kwargs "materia_descripcion") 1000000 "materia_descripcion"))
    else pure none
  pure { materia_nombre := nombre, materia_descripcion := descripcion }

/-- `schemas.EventoCreate(**kwargs)`. -/
def EventoCreate.validate (kwargs : List (String × Value)) : Except PyErr EventoCreate := do
  if !dictHas kwargs "evento_nombre" then
    throw (.validationError "validation error: evento_nombre missing")
  let nombre ← validateStr (dictGet kwargs "evento_nombre") 1 150 "evento_nombre"
  let descripcion ← validateOptStr (dictGet kwargs "evento_descripcion") 255 "evento_descripcion"
  if !dictHas kwargs "evento_fecha" then
    throw (.validationError "validation error: evento_fecha missing")
  let fecha ← validateDate (dictGet kwargs "evento_fecha") "evento_fecha"
  let estado ←
    if dictHas kwargs "evento_estado" then validateEstado (dictGet kwargs "evento_estado") "evento_estado"
    else pure "pendiente"
  if !dictHas kwargs "evento_materia_id" then
    throw (.validationError "validation error: evento_materia_id missing")
  let mid ← validatePosInt (dictGet kwargs "evento_materia_id") "evento_materia_id"
  pure { evento_nombre := nombre, evento_descripcion := descripcion, evento_fecha := fecha,
         evento_estado := estado, evento_materia_id := mid }

/-- `schemas.EventoUpdate(**kwargs)`. -/
def EventoUpdate.validate (kwargs : List (String × Value)) : Except PyErr EventoUpdate := do
  let nombre ←
    if dictHas kwargs "evento_nombre" then
      match dictGet kwargs "evento_nombre" with
      | .vnull => pure (some none)
      | v => do pure (some (some (← validateStr v 1 150 "evento_nombre")))
    else pure none
  let descripcion ←
    if dictHas kwargs "evento_descripcion" then do
      pure (some (← validateOptStr (dictGet kwargs "evento_descripcion") 255 "evento_descripcion"))
    else pure none
  let fecha ←
    if dictHas kwargs "evento_fecha" then
      match dictGet kwargs "evento_fecha" with
      | .vnull => pure (some none)
      | v => do pure (some (some (← validateDate v "evento_fecha")))
    else pure none
  let estado ←
    if dictHas kwargs "evento_estado" then
      match dictGet kwargs "evento_estado" with
      | .vnull => pure (some none)
      | v => do pure (some (some (← validateEstado v "evento_estado")))
    else pure none
  pure { evento_nombre := nombre, evento_descripcion := descripcion,
         evento_fecha := fecha, evento_estado := estado }

/-! ## services/subject_service.py -/

/-- `subject_service._get_materia_autorizada`: `MateriaNoEncontrada` when the
row is absent, `AccesoNoAutorizado` when it belongs to another user. -/
def _get_materia_autorizada (db : DB) (materia_id : Value) (usuario_id : Nat) :
    Except PyErr Materia :=
  match db.getMateriaV materia_id with
  | none => .error .materiaNoEncontrada
  | some materia =>
      if materia.materia_usuario_id != usuario_id then .error .accesoNoAutorizado
      else .ok materia

/-- `subject_service.create_subject`: forces the owner to the authenticated
user, refuses a duplicate (owner, stripped name), inserts with a fresh id. -/
def create_subject (db : DB) (usuario_id : Nat) (payload : MateriaCreate) :
    Except PyErr (DB × Materia) := do
  let nombre := pyStrip payload.materia_nombre
  match ← scalar_one_or_none (db.materias.filter (fun m =>
      m.materia_usuario_id == usuario_id && m.materia_nombre == nombre)) with
  | some _ => throw .materiaDuplicada
  | none =>
    let materia : Materia :=
      { materia_id := db.next_materia_id
        materia_usuario_id := usuario_id
        materia_nombre := nombre
        materia_descripcion := payload.materia_descripcion
        materia_created_at := none }
    pure ({ db with materias := db.materias ++ [materia],
                    next_materia_id := db.next_materia_id + 1 }, materia)

/-- The optional-rename step of `update_subject` (the `if data.materia_nombre`
block with its duplicate check excluding the row at the given key). -/
def subjectNombreStep (db : DB) (usuario_id : Nat) (materia_id : Value)
    (materia : Materia) (nombre : Option (Option String)) :
    Except PyErr Materia :=
  match nombre with
  | none => pure materia
  | some nv =>
    if optStrTruthy nv then do
      let nuevo_nombre := pyStrip (nv.getD "")
      match ← scalar_one_or_none (db.materias.filter (fun m =>
          m.materia_usuario_id == usuario_id && m.materia_nombre == nuevo_nombre &&
          !valueEqId materia_id m.materia_id)) with
      | some _ => throw .materiaDuplicada
      | none => pure { materia with materia_nombre := nuevo_nombre }
    else pure materia

/-- `subject_service.update_subject`: authorizes, optionally renames (with a
duplicate check excluding the row at the given key), optionally rewrites the
description, commits. -/
def update_subject (db : DB) (usuario_id : Nat) (materia_id : Value)
    (payload : MateriaUpdate) : Except PyErr (DB × Materia) := do
  let materia ← _get_materia_autorizada db materia_id usuario_id
  let materia ← subjectNombreStep db usuario_id materia_id materia payload.materia_nombre
  let materia :=
    match payload.materia_descripcion with
    | none => materia
    | some dv => { materia with materia_descripcion := dv }
  pure ({ db with materias := db.materias.map (fun m =>
          if m.materia_id == materia.materia_id then materia else m) }, materia)

/-- `subject_service.delete_subject`: authorizes then deletes; the ORM
relationship cascade (`all, delete-orphan`) also deletes the subject's
events. -/
def delete_subject (db : DB) (usuario_id : Nat) (materia_id : Value) :
    Except PyErr DB := do
  let materia ← _get_materia_autorizada db materia_id usuario_id
  pure { db with
         materias := db.materias.filter (fun m => m.materia_id != materia.materia_id),
         eventos := db.eventos.filter (fun e => e.evento_materia_id != materia.materia_id) }

/-! ## services/event_service.py -/

/-- `event_service._assert_materia_propia`. -/
def _assert_materia_propia (db : DB) (materia_id : Value) (usuario_id : Nat) :
    Except PyErr Materia :=
  match db.getMateriaV materia_id with
  | none => .error .materiaNoEncontrada
  | some materia =>
      if materia.materia_usuario_id != usuario_id then .error .accesoNoAutorizado
      else .ok materia

/-- `event_service._get_evento_autorizado`: `EventoNoEncontrado` when the
event is absent, `AccesoNoAutorizado` when its subject is missing or belongs
to another user. -/
def _get_evento_autorizado (db : DB) (evento_id : Value) (usuario_id : Nat) :
    Except PyErr Evento :=
  match db.getEventoV evento_id with
  | none => .error .eventoNoEncontrado
  | some ev =>
      match db.getMateria ev.evento_materia_id with
      | none => .error .accesoNoAutorizado
      | some mat =>
          if mat.materia_usuario_id != usuario_id then .error .accesoNoAutorizado
          else .ok ev

/-- `event_service.create_event`. -/
def create_event (db : DB) (usuario_id : Nat) (payload : EventoCreate) :
    Except PyErr (DB × Evento) := do
  let _ ← _assert_materia_propia db (Value.vint payload.evento_materia_id) usuario_id
  let ev : Evento :=
    { evento_id := db.next_evento_id
      evento_materia_id := payload.evento_materia_id
      evento_nombre := payload.evento_nombre
      evento_descripcion := payload.evento_descripcion
      evento_fecha := payload.evento_fecha
      evento_estado := payload.evento_estado
      evento_created_at := none }
  pure ({ db with eventos := db.eventos ++ [ev], next_evento_id := db.next_evento_id + 1 }, ev)

/-- `event_service.update_event`: authorizes, then `setattr`s every field of
the `exclude_unset` dump.  An explicit `None` on a non-nullable column
(`evento_nombre`, `evento_fecha`, `evento_estado`) violates NOT NULL at
commit, modelled as `IntegrityError`. -/
def eventoNombreStep (nombre : Option (Option String)) (ev : Evento) :
    Except PyErr Evento :=
  match nombre with
  | none => pure ev
  | some none => throw (.integrityError "null value in column evento_nombre")
  | some (some s) => pure { ev with evento_nombre := s }

def eventoFechaStep (fecha : Option (Option String)) (ev : Evento) :
    Except PyErr Evento :=
  match fecha with
  | none => pure ev
  | some none => throw (.integrityError "null value in column evento_fecha")
  | some (some f) => pure { ev with evento_fecha := f }

def eventoEstadoStep (estado : Option (Option String)) (ev : Evento) :
    Except PyErr Evento :=
  match estado with
  | none => pure ev
  | some none => throw (.integrityError "null value in column evento_estado")
  | some (some st) => pure { ev with evento_estado := st }

def update_event (db : DB) (usuario_id : Nat) (evento_id : Value)
    (payload : EventoUpdate) : Except PyErr (DB × Evento) := do
  let ev ← _get_evento_autorizado db evento_id usuario_id
  let ev ← eventoNombreStep payload.evento_nombre ev
  let ev :=
    match payload.evento_descripcion with
    | none => ev
    | some dv => { ev with evento_descripcion := dv }
  let ev ← eventoFechaStep payload.evento_fecha ev
  let ev ← eventoEstadoStep payload.evento_estado ev
  pure ({ db with eventos := db.eventos.map (fun e =>
          if e.evento_id == ev.evento_id then ev else e) }, ev)

/-- `event_service.delete_event`. -/
def delete_event (db : DB) (usuario_id : Nat) (evento_id : Value) :
    Except PyErr DB := do
  let ev ← _get_evento_autorizado db evento_id usuario_id
  pure { db with eventos := db.eventos.filter (fun e => e.evento_id != ev.evento_id) }

/-! ## services/nl_service.py -/

/-- `nl_service.PlannedAction`: a Python dataclass with fields `kind`,
`args`, `description`; `allow`, `resolved` and `conflict` are attributes set
dynamically later (by the checker, or by `deserialize_actions`), so they are
`Option Value` with `none` meaning "attribute not set" and `getattr`
defaults applied at each read site. -/
structure PlannedAction where
  kind : Value
  args : Value
  description : Value
  allow : Option Value := none
  resolved : Option Value := none
  conflict : Option Value := none
deriving Repr, DecidableEq

/-- Build a `PlannedAction` as the Normalizer does. -/
def PlannedAction.build (kind : String) (args : List (String × Value))
    (description : String) : PlannedAction :=
  { kind := .vstr kind, args := .vdict args, description := .vstr description }

/-- `nl_service.PlanResult`. -/
structure PlanResult where
  actions : List PlannedAction
  summary : String
deriving Repr, DecidableEq

/-- `nl_service._get_materia_by_name`: exact match on (owner, stripped
name), `scalar_one_or_none`.  (`plan_actions`'s inner `_find_materia_by_name`
is the same query.) -/
def _get_materia_by_name (db : DB) (usuario_id : Nat) (nombre : Value) :
    Except PyErr (Option Materia) := do
  let stripped ← nombre.strip
  scalar_one_or_none (db.materias.filter (fun m =>
    m.materia_usuario_id == usuario_id && m.materia_nombre == stripped))

/-- `select(Evento).join(Materia)`: the inner join on the foreign key
`Evento.evento_materia_id == Materia.materia_id`. -/
def eventosJoinMateria (db : DB) : List (Evento × Materia) :=
  db.eventos.flatMap (fun e => db.materias.filterMap (fun m =>
    if m.materia_id == e.evento_materia_id then some (e, m) else none))

/-- The decision rule at the end of `_find_evento_by_references`, over the
computed candidate list `eventos`. -/
def decideEvento (eventos : List Evento) (evento_ref materia_ref : Value)
    (materia : Option Materia) : Except PyErr (Option Evento) :=
  if eventos.length == 1 then
    pure eventos.head?
  else if eventos.length > 1 && !evento_ref.truthy && materia_ref.truthy then
    match materia with
    | none => throw (.attributeError "NoneType has no attribute 'materia_id'")
    | some m =>
      let materia_eventos := eventos.filter (fun e =>
        e.evento_materia_id == m.materia_id)
      if materia_eventos.length == 1 then pure materia_eventos.head?
      else pure none
  else
    pure none

/-- The body of `_find_evento_by_references` after the subject lookup:
candidate query (join scoped to the owner, optional subject filter,
optional case-insensitive name filter), then the decision rule. -/
def findEventoWith (db : DB) (usuario_id : Nat) (evento_ref materia_ref : Value)
    (materia : Option Materia) : Except PyErr (Option Evento) := do
  let query : List (Evento × Materia) := (eventosJoinMateria db).filter (fun em =>
    em.2.materia_usuario_id == usuario_id)
  let query : List (Evento × Materia) :=
    match materia with
    | some m => query.filter (fun em => em.1.evento_materia_id == m.materia_id)
    | none => query
  let query : List (Evento × Materia) ←
    if evento_ref.truthy then do
      let s ← evento_ref.strip
      pure (query.filter (fun em => ilikeContains em.1.evento_nombre s))
    else pure query
  decideEvento (query.map (fun em => em.1)) evento_ref materia_ref materia

/-- `nl_service._find_evento_by_references`: when `materia_ref` is given, a
failed subject lookup returns `None` for the whole call (the Python early
`return None`). -/
def _find_evento_by_references (db : DB) (usuario_id : Nat)
    (evento_ref materia_ref : Value) : Except PyErr (Option Evento) :=
  if materia_ref.truthy then
    match _get_materia_by_name db usuario_id materia_ref with
    | .error e => .error e
    | .ok none => .ok none
    | .ok (some m) => findEventoWith db usuario_id evento_ref materia_ref (some m)
  else findEventoWith db usuario_id evento_ref materia_ref none

/-- `nl_service._ensure_ownership_materia`: raises the same
`ValueError("Materia no encontrada")` both when the subject is absent and
when it belongs to another user. -/
def _ensure_ownership_materia (db : DB) (usuario_id : Nat) (materia_id : Value) :
    Except PyErr Materia :=
  match db.getMateriaV materia_id with
  | none => .error (.valueError "Materia no encontrada")
  | some mat =>
      if mat.materia_usuario_id != usuario_id then .error (.valueError "Materia no encontrada")
      else .ok mat

/-- `nl_service._ensure_ownership_evento` (called with `int(evento_id)`). -/
def _ensure_ownership_evento (db : DB) (usuario_id : Nat) (evento_id : Int) :
    Except PyErr Evento := do
  match db.eventos.find? (fun e => ((e.evento_id : Int)) == evento_id) with
  | none => throw (.valueError "Evento no encontrado")
  | some ev => do
      let _ ← _ensure_ownership_materia db usuario_id (Value.vint ev.evento_materia_id)
      pure ev

/-- The `materia_ref_to_id` helper inside `_normalize_tool_call`. -/
def materia_ref_to_id (db : DB) (usuario_id : Nat) (mref : Value) :
    Except PyErr (Option Nat) :=
  if mref.isNone then .ok none
  else do
    let found ← _get_materia_by_name db usuario_id mref
    pure (found.map Materia.materia_id)

/-- `materia_ref_to_id`'s result as the Python variable it is assigned to
(an `int` id or `None`). -/
def refIdToValue : Option Nat → Value
  | some i => Value.vint i
  | none => Value.vnull

/-- The `create_materia` branch of `_normalize_tool_call`. -/
def normCreateMateria (usuario_id : Nat) (args : Value) :
    Except PyErr (List PlannedAction × List String) := do
  let materia_nombre ← args.get "materia_nombre"
  let materia_descripcion ← args.get "materia_descripcion"
  if !materia_nombre.truthy then
    pure ([], ["Crear materia: falta el nombre de la materia"])
  else do
    let stripped ← materia_nombre.strip
    pure ([PlannedAction.build "create_materia"
            [("materia_usuario_id", .vint usuario_id),
             ("materia_nombre", .vstr stripped),
             ("materia_descripcion", materia_descripcion)]
            ("Crear materia '" ++ materia_nombre.pyStr ++ "'")], [])

/-- The per-branch `try: ... except ValueError as e: errors.append(prefix +
str(e))` wrapper of `_normalize_tool_call` (`errs1` are the errors the
branch accumulated before the `try`; the materia branches have none). -/
def tryValueError (pfx : String) (errs1 : List String)
    (body : Except PyErr (List PlannedAction × List String)) :
    Except PyErr (List PlannedAction × List String) :=
  match body with
  | .ok (acts, es) => pure (acts, errs1 ++ es)
  | .error e =>
      if e.isValueError then pure ([], errs1 ++ [pfx ++ e.pyStr])
      else throw e

/-- The `materia_id`-or-`materia_ref` resolution shared by the
`update_materia`, `delete_materia` and `create_evento` branches:
`if <id> is None: <id> = materia_ref_to_id(args.get("materia_ref"))`. -/
def resolveMateriaId (db : DB) (usuario_id : Nat) (args : Value) (materia_id0 : Value) :
    Except PyErr Value :=
  if materia_id0.isNone then do
    let materia_ref ← args.get "materia_ref"
    pure (refIdToValue (← materia_ref_to_id db usuario_id materia_ref))
  else pure materia_id0

/-- The conditional `materia_nombre.strip()` update-argument of the
`update_materia` branch. -/
def nombreUpdateArg (materia_nombre : Value) :
    Except PyErr (List (String × Value)) :=
  if !materia_nombre.isNone then do
    let s ← materia_nombre.strip
    pure [("materia_nombre", Value.vstr s)]
  else pure []

/-- The reference-resolution block shared by the `update_evento` and
`delete_evento` branches (its own `try/except Exception`): returns the
possibly-resolved `evento_id` and the errors appended so far; `accion` is
the message prefix ("Actualizar evento" / "Eliminar evento"). -/
def resolveEventoByRefs (db : DB) (usuario_id : Nat) (args : Value)
    (evento_id0 : Value) (accion : String) : Except PyErr (Value × List String) :=
  if !evento_id0.truthy then do
    let evento_ref ← args.get "evento_ref"
    let materia_ref ← args.get "materia_ref"
    if evento_ref.truthy || materia_ref.truthy then
      match _find_evento_by_references db usuario_id evento_ref materia_ref with
      | .ok (some evento) => pure (Value.vint evento.evento_id, ([] : List String))
      | .ok none => pure (evento_id0,
          [accion ++ ": no se encontró evento con referencias evento_ref='" ++
           evento_ref.pyStr ++ "', materia_ref='" ++ materia_ref.pyStr ++ "'"])
      | .error e => pure (evento_id0,
          [accion ++ ": error buscando por referencias - " ++ e.pyStr])
    else pure (evento_id0, [])
  else pure (evento_id0, [])

/-- The `update_materia` branch of `_normalize_tool_call`; the inner
`try/except ValueError` around the ownership check is part of the branch. -/
def normUpdateMateria (db : DB) (usuario_id : Nat) (args : Value) :
    Except PyErr (List PlannedAction × List String) := do
  let materia_id0 ← args.get "materia_id"
  let materia_nombre ← args.get "materia_nombre"
  let materia_descripcion ← args.get "materia_descripcion"
  let materia_id ← resolveMateriaId db usuario_id args materia_id0
  if !materia_id.truthy then
    pure ([], ["Actualizar materia: no se pudo identificar la materia (falta materia_id o materia_ref válido)"])
  else
    let body : Except PyErr (List PlannedAction × List String) := do
      let _ ← _ensure_ownership_materia db usuario_id materia_id
      let upd1 ← nombreUpdateArg materia_nombre
      let upd2 :=
        if !materia_descripcion.isNone then [("materia_descripcion", materia_descripcion)]
        else []
      pure ([PlannedAction.build "update_materia"
              ([("materia_id", materia_id)] ++ upd1 ++ upd2)
              ("Actualizar materia #" ++ materia_id.pyStr)], [])
    tryValueError "Actualizar materia: " [] body

/-- The `delete_materia` branch of `_normalize_tool_call`. -/
def normDeleteMateria (db : DB) (usuario_id : Nat) (args : Value) :
    Except PyErr (List PlannedAction × List String) := do
  let materia_id0 ← args.get "materia_id"
  let materia_id ← resolveMateriaId db usuario_id args materia_id0
  if !materia_id.truthy then
    pure ([], ["Eliminar materia: no se pudo identificar la materia (falta materia_id o materia_ref válido)"])
  else
    let body : Except PyErr (List PlannedAction × List String) := do
      let _ ← _ensure_ownership_materia db usuario_id materia_id
      pure ([PlannedAction.build "delete_materia"
              [("materia_id", materia_id)]
              ("Eliminar materia #" ++ materia_id.pyStr)], [])
    tryValueError "Eliminar materia: " [] body

/-- The required-field validation of the `create_evento` branch. -/
def createEventoValidationErrors (materia_id evento_nombre evento_fecha : Value) :
    List String :=
  (if !materia_id.truthy then ["falta referencia a la materia"] else []) ++
  (if !evento_nombre.truthy then ["falta nombre del evento"] else []) ++
  (if !evento_fecha.truthy then ["falta fecha del evento"] else [])

/-- The `create_evento` branch of `_normalize_tool_call`. -/
def normCreateEvento (db : DB) (usuario_id : Nat) (args : Value) :
    Except PyErr (List PlannedAction × List String) := do
  let materia_id0 ← args.get "evento_materia_id"
  let materia_id ← resolveMateriaId db usuario_id args materia_id0
  let evento_nombre ← args.get "evento_nombre"
  let evento_fecha ← args.get "evento_fecha"
  let evento_estado ← args.getD "evento_estado" (Value.vstr "pendiente")
  let validation_errors := createEventoValidationErrors materia_id evento_nombre evento_fecha
  if !validation_errors.isEmpty then
    pure ([], ["Crear evento: " ++ String.intercalate ", " validation_errors])
  else
    let body : Except PyErr (List PlannedAction × List String) := do
      let _ ← _ensure_ownership_materia db usuario_id materia_id
      let stripped ← evento_nombre.strip
      pure ([PlannedAction.build "create_evento"
              [("evento_materia_id", materia_id),
               ("evento_nombre", .vstr stripped),
               ("evento_fecha", evento_fecha),
               ("evento_estado", evento_estado)]
              ("Crear evento '" ++ evento_nombre.pyStr ++ "' (" ++ evento_fecha.pyStr ++
               ") en materia #" ++ materia_id.pyStr)], [])
    tryValueError "Crear evento: " [] body

/-- `update_args` collection for the event branches:
`for k in (...): if k in args and args[k] is not None`. -/
def updateArgsFor (args : Value) (keys : List String) :
    Except PyErr (List (String × Value)) :=
  match args with
  | .vdict d => .ok (keys.filterMap (fun k =>
      if dictHas d k && !(dictGet d k).isNone then some (k, dictGet d k) else none))
  | _ => .error (.typeError "argument is not iterable")

/-- The `update_evento` branch of `_normalize_tool_call`: tries the
reference resolver (its own `try/except Exception`), then the ownership
check (`try/except ValueError`). -/
def normUpdateEvento (db : DB) (usuario_id : Nat) (args : Value) :
    Except PyErr (List PlannedAction × List String) := do
  let evento_id0 ← args.get "evento_id"
  let (evento_id, errs1) ← resolveEventoByRefs db usuario_id args evento_id0 "Actualizar evento"
  if !evento_id.truthy then do
    let er ← args.get "evento_ref"
    let mr ← args.get "materia_ref"
    if !er.truthy && !mr.truthy then
      pure ([], errs1 ++ ["Actualizar evento: proporciona evento_id, evento_ref, o materia_ref"])
    else pure ([], errs1)
  else
    let body : Except PyErr (List PlannedAction × List String) := do
      let evid ← pyToInt evento_id
      let _ ← _ensure_ownership_evento db usuario_id evid
      let update_args ← updateArgsFor args ["evento_nombre", "evento_fecha", "evento_estado"]
      pure ([PlannedAction.build "update_evento"
              ([("evento_id", Value.vint evid)] ++ update_args)
              ("Actualizar evento #" ++ evento_id.pyStr)], [])
    tryValueError "Actualizar evento: " errs1 body

/-- The `delete_evento` branch of `_normalize_tool_call`. -/
def normDeleteEvento (db : DB) (usuario_id : Nat) (args : Value) :
    Except PyErr (List PlannedAction × List String) := do
  let evento_id0 ← args.get "evento_id"
  let (evento_id, errs1) ← resolveEventoByRefs db usuario_id args evento_id0 "Eliminar evento"
  if !evento_id.truthy then do
    let er ← args.get "evento_ref"
    let mr ← args.get "materia_ref"
    if !er.truthy && !mr.truthy then
      pure ([], errs1 ++ ["Eliminar evento: proporciona evento_id, evento_ref, o materia_ref"])
    else pure ([], errs1)
  else
    let body : Except PyErr (List PlannedAction × List String) := do
      let evid ← pyToInt evento_id
      let _ ← _ensure_ownership_evento db usuario_id evid
      pure ([PlannedAction.build "delete_evento"
              [("evento_id", Value.vint evid)]
              ("Eliminar evento #" ++ evento_id.pyStr)], [])
    tryValueError "Eliminar evento: " errs1 body

/-- `nl_service._normalize_tool_call`.  The `name`/`args` reads happen
before the function's catch-all `try`, so a non-dict `raw` raises out of the
function.  Past them, on every path on which a branch raises out to the
catch-all handler nothing has yet been appended to `out`/`errors` (the inner
`try`s are part of the branch functions above, and each escaping operation
precedes every append on its path), so modelling the handler as starting
from empty lists is exact.  `normDispatch` is the function's if/elif chain
on the tool name. -/
def normDispatch (db : DB) (usuario_id : Nat) (name args : Value) :
    Except PyErr (List PlannedAction × List String) :=
  if name == Value.vstr "create_materia" then normCreateMateria usuario_id args
  else if name == Value.vstr "update_materia" then normUpdateMateria db usuario_id args
  else if name == Value.vstr "delete_materia" then normDeleteMateria db usuario_id args
  else if name == Value.vstr "create_evento" then normCreateEvento db usuario_id args
  else if name == Value.vstr "update_evento" then normUpdateEvento db usuario_id args
  else if name == Value.vstr "delete_evento" then normDeleteEvento db usuario_id args
  else if name.truthy then .ok ([], ["Acción desconocida: " ++ name.pyStr])
  else .ok ([], ["Tool call sin nombre válido"])

def _normalize_tool_call (raw : Value) (db : DB) (usuario_id : Nat) :
    Except PyErr (List PlannedAction × List String) := do
  let name ← raw.get "name"
  let args0 ← raw.get "args"
  let args := if args0.truthy then args0 else Value.vdict []
  match normDispatch db usuario_id name args with
  | .ok r => pure r
  | .error e => pure ([], ["Error procesando acción '" ++ name.pyStr ++ "': " ++ e.pyStr])

/-- Step-1 loop of `plan_actions`: normalize each tool call independently,
accumulating actions and processing errors; the per-call `try/except` only
fires for a non-dict call, whose handler then itself raises at
`call.get('name', 'unknown')`. -/
def planNormalize (db : DB) (usuario_id : Nat) :
    List Value → Nat → Except PyErr (List PlannedAction × List String)
  | [], _ => .ok ([], [])
  | call :: rest, i => do
      let (acts, errs) ←
        match _normalize_tool_call call db usuario_id with
        | .ok r => pure r
        | .error e => do
            let nv ← call.getD "name" (Value.vstr "unknown")
            pure (([] : List PlannedAction),
              ["Error procesando instrucción " ++ toString (i + 1) ++ " ('" ++
               nv.pyStr ++ "'): " ++ e.pyStr])
      let (ra, re) ← planNormalize db usuario_id rest (i + 1)
      pure (acts ++ ra, errs ++ re)

/-- `k in v` for a Python dict value (`in` on a non-dict raises, but every
call site below runs after `v.get(...)` has already succeeded on `v`). -/
def Value.hasKey : Value → String → Bool
  | .vdict d, k => dictHas d k
  | _, _ => false

/-- `kind.replace('_', ' ').title()` in the checker's summary lines. -/
def Value.replaceTitle : Value → Except PyErr String
  | .vstr s => .ok (pyTitle (strReplace s "_" " "))
  | _ => .error (.attributeError "object has no attribute 'replace'")

/-- The inner `_find_evento_by_natural_key` of `plan_actions`: events by
(subject id, stripped name, date).  A string date that fails
`date.fromisoformat` returns `None`; the query's literals are type-checked
by the database regardless of matching rows (a non-integer / non-date
literal raises, a `None` literal compares as SQL NULL, matching nothing on
these non-null columns). -/
def _find_evento_by_natural_key (db : DB) (mid nombre fecha_val : Value) :
    Except PyErr (Option Evento) := do
  let fecha_parsed : Value ←
    match fecha_val with
    | .vstr s =>
        match date_fromisoformat s with
        | .ok d => pure (Value.vstr d)
        | .error _ => return none
    | v => pure v
  let stripped ← nombre.strip
  let midLit : Option Int ←
    match mid with
    | .vint n => pure (some n)
    | .vbool b => pure (some (if b then 1 else 0))
    | .vnull => pure none
    | .vstr s =>
        match pyParseInt s with
        | some n => pure (some n)
        | none => throw (.typeError "invalid input syntax for type integer")
    | _ => throw (.typeError "can not compare integer column")
  let fechaLit : Option String ←
    match fecha_parsed with
    | .vstr s => pure (some s)
    | .vnull => pure none
    | _ => throw (.typeError "can not compare date column")
  scalar_one_or_none (db.eventos.filter (fun e =>
    (match midLit with
     | some n => ((e.evento_materia_id : Int)) == n
     | none => false) &&
    e.evento_nombre == stripped &&
    (match fechaLit with
     | some f => e.evento_fecha == f
     | none => false)))

/-- The existing-subject lookup of the checker's `create_materia` rule
(`None` when no name was given). -/
def checkCreateMateriaLookup (db : DB) (usuario_id : Nat) (nombre : Value) :
    Except PyErr (Option Materia) :=
  if nombre.truthy then _get_materia_by_name db usuario_id nombre else pure none

/-- The checker's late id re-resolution for `update_materia` /
`delete_materia`: when no id was resolved but a name is present, look the
subject up by name again. -/
def checkMateriaResolve (db : DB) (usuario_id : Nat) (args mid0 : Value) :
    Except PyErr Value :=
  if !mid0.truthy && args.hasKey "materia_nombre" then do
    let m2 ← _get_materia_by_name db usuario_id (← args.subscript "materia_nombre")
    pure (refIdToValue (m2.map Materia.materia_id))
  else pure mid0

/-- One iteration of the verification loop in `plan_actions` (the
Idempotency Checker): presets `allow=True, resolved={}, conflict=None`, then
the per-kind existence rule; returns the annotated action and its summary
lines.  This loop runs under no `try`, so an exception aborts
`plan_actions`. -/
def checkAction (db : DB) (usuario_id : Nat) (a : PlannedAction) :
    Except PyErr (PlannedAction × List String) := do
  let kind := a.kind
  let args := a.args
  if kind == Value.vstr "create_materia" then do
    let nombre ← args.getD "materia_nombre" (Value.vstr "")
    let m ← checkCreateMateriaLookup db usuario_id nombre
    let resolved := [("materia_id", refIdToValue (m.map Materia.materia_id))]
    match m with
    | some m =>
        pure ({ a with allow := some (Value.vbool false),
                       resolved := some (Value.vdict resolved),
                       conflict := some (Value.vstr "Materia ya existe; solo se permite update/delete.") },
              ["   ✖ Crear materia '" ++ nombre.pyStr ++ "': ya existe (id=" ++
               toString m.materia_id ++ ")."])
    | none =>
        pure ({ a with allow := some (Value.vbool true),
                       resolved := some (Value.vdict resolved),
                       conflict := some Value.vnull },
              ["   ✔ Crear materia '" ++ nombre.pyStr ++ "': permitido (no existe)."])
  else if kind == Value.vstr "update_materia" || kind == Value.vstr "delete_materia" then do
    let mid0 ← args.get "materia_id"
    let mid ← checkMateriaResolve db usuario_id args mid0
    let resolved := [("materia_id", mid)]
    let title ← kind.replaceTitle
    if !mid.truthy || (db.getMateriaV mid).isNone then
      pure ({ a with allow := some (Value.vbool false),
                     resolved := some (Value.vdict resolved),
                     conflict := some (Value.vstr "Materia no existe; no se permite update/delete.") },
            ["   ✖ " ++ title ++ " materia: no existe."])
    else
      pure ({ a with allow := some (Value.vbool true),
                     resolved := some (Value.vdict resolved),
                     conflict := some Value.vnull },
            ["   ✔ " ++ title ++ " materia #" ++ mid.pyStr ++ ": permitido."])
  else if kind == Value.vstr "create_evento" then do
    let mid ← args.get "evento_materia_id"
    let nombre ← args.getD "evento_nombre" (Value.vstr "")
    let fecha_val ← args.get "evento_fecha"
    let resolved := [("materia_id", mid)]
    let m_ok := mid.truthy && !(db.getMateriaV mid).isNone
    if !m_ok then
      pure ({ a with allow := some (Value.vbool false),
                     resolved := some (Value.vdict resolved),
                     conflict := some (Value.vstr "Materia no existe; no se puede crear el evento.") },
            ["   ✖ Crear evento '" ++ nombre.pyStr ++ "': materia #" ++ mid.pyStr ++ " no existe."])
    else do
      let ev ← _find_evento_by_natural_key db mid nombre fecha_val
      let resolved := dictSet resolved "evento_id" (refIdToValue (ev.map Evento.evento_id))
      match ev with
      | some ev =>
          pure ({ a with allow := some (Value.vbool false),
                         resolved := some (Value.vdict resolved),
                         conflict := some (Value.vstr "Evento ya existe; solo se permite update/delete.") },
                ["   ✖ Crear evento '" ++ nombre.pyStr ++ "' (" ++ fecha_val.pyStr ++
                 ") en materia #" ++ mid.pyStr ++ ": ya existe (id=" ++ toString ev.evento_id ++ ")."])
      | none =>
          pure ({ a with allow := some (Value.vbool true),
                         resolved := some (Value.vdict resolved),
                         conflict := some Value.vnull },
                ["   ✔ Crear evento '" ++ nombre.pyStr ++ "' (" ++ fecha_val.pyStr ++
                 ") en materia #" ++ mid.pyStr ++ ": permitido (no existe)."])
  else if kind == Value.vstr "update_evento" || kind == Value.vstr "delete_evento" then do
    let evid ← args.get "evento_id"
    let resolved := [("evento_id", evid)]
    let ev := if evid.truthy then db.getEventoV evid else none
    let title ← kind.replaceTitle
    match ev with
    | none =>
        pure ({ a with allow := some (Value.vbool false),
                       resolved := some (Value.vdict resolved),
                       conflict := some (Value.vstr "Evento no existe; no se permite update/delete.") },
              ["   ✖ " ++ title ++ " evento: no existe."])
    | some ev =>
        let resolved := dictSet resolved "materia_id" (Value.vint ev.evento_materia_id)
        pure ({ a with allow := some (Value.vbool true),
                       resolved := some (Value.vdict resolved),
                       conflict := some Value.vnull },
              ["   ✔ " ++ title ++ " evento #" ++ evid.pyStr ++ ": permitido."])
  else
    pure ({ a with allow := some (Value.vbool false),
                   resolved := some (Value.vdict []),
                   conflict := some (Value.vstr "Acción desconocida.") },
          ["   ✖ Acción desconocida: " ++ kind.pyStr ++ "."])

/-- The step-2 loop of `plan_actions` over every normalized action. -/
def checkActions (db : DB) (usuario_id : Nat) :
    List PlannedAction → Except PyErr (List PlannedAction × List String)
  | [] => .ok ([], [])
  | a :: rest => do
      let (a', lines) ← checkAction db usuario_id a
      let (ras, rlines) ← checkActions db usuario_id rest
      pure (a' :: ras, lines ++ rlines)

/-- `getattr(a, 'allow', True)` under Python truthiness, as the planner's
`valid_actions` filter, the router's `allowed_actions` filter and the
executor's gate all read it. -/
def PlannedAction.allowTruthy (a : PlannedAction) : Bool :=
  (a.allow.getD (Value.vbool true)).truthy

/-- The `if actions:` verification block of `plan_actions`: run the
Idempotency Checker when any action was normalized, prefixing its summary
lines with the section header. -/
def planCheckPhase (db : DB) (usuario_id : Nat) (actions : List PlannedAction) :
    Except PyErr (List PlannedAction × List String) :=
  if !actions.isEmpty then do
    let (c, l) ← checkActions db usuario_id actions
    pure (c, ["📋 ACCIONES PLANIFICADAS:"] ++ l)
  else pure ([], [])

/-- `nl_service.plan_actions` with the LLM adapter abstracted to the
tool-call list it returned, exposing the internal
(checked actions, processing_errors, summary_lines) triple before the final
`"\n".join` (the Python builds exactly this `summary_lines` list). -/
def plan_actions_core (db : DB) (usuario_id : Nat) (tool_calls : List Value) :
    Except PyErr (List PlannedAction × List String × List String) := do
  let (actions, processing_errors) ← planNormalize db usuario_id tool_calls 0
  let errorLines : List String :=
    if !processing_errors.isEmpty then
      ["❌ ERRORES ENCONTRADOS:"] ++ processing_errors.map (fun e => "   • " ++ e) ++ [""]
    else []
  if actions.isEmpty && processing_errors.isEmpty then
    pure ([], [], [])
  else do
    let (checked, actionLines) ← planCheckPhase db usuario_id actions
    let valid_actions := checked.filter PlannedAction.allowTruthy
    let total_requested := tool_calls.length
    let total_valid := valid_actions.length
    let total_errors := processing_errors.length
    let tailLines : List String :=
      if total_requested > 1 then
        [""] ++
        (if total_errors > 0 && total_valid > 0 then
          ["📊 RESUMEN: Se detectaron " ++ toString total_requested ++ " instrucciones. " ++
           toString total_valid ++ " se pueden ejecutar, " ++ toString total_errors ++
           " tuvieron errores."]
        else if total_errors > 0 then
          ["📊 RESUMEN: Se detectaron " ++ toString total_requested ++
           " instrucciones. Ninguna se pudo interpretar correctamente."]
        else if total_valid == total_requested then
          ["📊 RESUMEN: Se detectaron " ++ toString total_requested ++
           " instrucciones. Todas se pueden ejecutar."]
        else
          ["📊 RESUMEN: Se detectaron " ++ toString total_requested ++ " instrucciones. " ++
           toString total_valid ++ " se pueden ejecutar."])
      else []
    pure (checked, processing_errors, errorLines ++ actionLines ++ tailLines)

/-- `nl_service.plan_actions`: the `PlanResult` the caller sees. -/
def plan_actions (db : DB) (usuario_id : Nat) (tool_calls : List Value) :
    Except PyErr PlanResult := do
  let (checked, processing_errors, lines) ← plan_actions_core db usuario_id tool_calls
  if checked.isEmpty && processing_errors.isEmpty then
    pure { actions := [],
           summary := "No se detectaron acciones válidas. Podés reformular o ser más específico." }
  else
    pure { actions := checked, summary := String.intercalate "\n" lines }

/-- The serializable dict built from a `models.Materia` row in
`execute_actions`. -/
def materiaToDict (m : Materia) : Value :=
  Value.vdict
    [("materia_id", Value.vint m.materia_id),
     ("materia_nombre", Value.vstr m.materia_nombre),
     ("materia_descripcion", match m.materia_descripcion with
        | some s => Value.vstr s
        | none => Value.vnull),
     ("materia_usuario_id", Value.vint m.materia_usuario_id),
     ("materia_created_at", match m.materia_created_at with
        | some t => Value.vstr t
        | none => Value.vnull)]

/-- The serializable dict built from a `models.Evento` row in
`execute_actions` (`evento_descripcion` is not included there; a `date`
object is always truthy, so `evento_fecha.isoformat()` is always taken). -/
def eventoToDict (e : Evento) : Value :=
  Value.vdict
    [("evento_id", Value.vint e.evento_id),
     ("evento_nombre", Value.vstr e.evento_nombre),
     ("evento_fecha", Value.vstr e.evento_fecha),
     ("evento_estado", Value.vstr e.evento_estado),
     ("evento_materia_id", Value.vint e.evento_materia_id),
     ("evento_created_at", match e.evento_created_at with
        | some t => Value.vstr t
        | none => Value.vnull)]

/-- `**a.args`: keyword expansion requires a mapping. -/
def asKwargs : Value → Except PyErr (List (String × Value))
  | .vdict d => .ok d
  | _ => .error (.typeError "argument after ** must be a mapping")

/-- The `kwargs[key]`-style required-field read of the executor's update
branches: `KeyError` when absent. -/
def requireKey (kwargs : List (String × Value)) (k : String) :
    Except PyErr Value :=
  if !dictHas kwargs k then throw (.keyError k)
  else pure (dictGet kwargs k)

/-- The dispatch block inside `execute_actions`'s per-action `try`: build
the pydantic payload, call the domain service, shape the success result.
The unknown-kind `else` produces an error result (and an
`execution_errors` entry) without raising. -/
def execDispatch (db : DB) (usuario_id : Nat) (i : Nat) (a : PlannedAction) :
    Except PyErr (DB × Value × List String) :=
  if a.kind == Value.vstr "create_materia" then do
    let kwargs ← asKwargs a.args
    let payload ← MateriaCreate.validate kwargs
    let (db', m) ← create_subject db usuario_id payload
    pure (db', Value.vdict [("kind", a.kind), ("status", Value.vstr "success"),
                            ("materia", materiaToDict m)], [])
  else if a.kind == Value.vstr "update_materia" then do
    let kwargs ← asKwargs a.args
    let mid ← requireKey kwargs "materia_id"
    let payload ← MateriaUpdate.validate (kwargs.filter (fun kv => kv.1 != "materia_id"))
    let (db', m) ← update_subject db usuario_id mid payload
    pure (db', Value.vdict [("kind", a.kind), ("status", Value.vstr "success"),
                            ("materia", materiaToDict m)], [])
  else if a.kind == Value.vstr "delete_materia" then do
    let mid ← a.args.subscript "materia_id"
    let db' ← delete_subject db usuario_id mid
    pure (db', Value.vdict [("kind", a.kind), ("status", Value.vstr "success"),
                            ("deleted", Value.vdict [("materia_id", mid)])], [])
  else if a.kind == Value.vstr "create_evento" then do
    let kwargs ← asKwargs a.args
    let payload ← EventoCreate.validate kwargs
    let (db', e) ← create_event db usuario_id payload
    pure (db', Value.vdict [("kind", a.kind), ("status", Value.vstr "success"),
                            ("evento", eventoToDict e)], [])
  else if a.kind == Value.vstr "update_evento" then do
    let kwargs ← asKwargs a.args
    let evid ← requireKey kwargs "evento_id"
    let payload ← EventoUpdate.validate (kwargs.filter (fun kv => kv.1 != "evento_id"))
    let (db', e) ← update_event db usuario_id evid payload
    pure (db', Value.vdict [("kind", a.kind), ("status", Value.vstr "success"),
                            ("evento", eventoToDict e)], [])
  else if a.kind == Value.vstr "delete_evento" then do
    let evid ← a.args.subscript "evento_id"
    let db' ← delete_event db usuario_id evid
    pure (db', Value.vdict [("kind", a.kind), ("status", Value.vstr "success"),
                            ("deleted", Value.vdict [("evento_id", evid)])], [])
  else
    .ok (db, Value.vdict [("kind", a.kind), ("status", Value.vstr "error"),
                          ("error", Value.vstr "Tipo de acción desconocido"),
                          ("description", a.description)],
         ["Acción " ++ toString (i + 1) ++ ": tipo desconocido '" ++ a.kind.pyStr ++ "'"])

/-- One iteration of the `execute_actions` loop: the `allow` gate, then the
dispatch under its catch-all `try/except`, yielding the next database state,
the appended result dict, and the `execution_errors` entries. -/
def execStep (db : DB) (usuario_id : Nat) (i : Nat) (a : PlannedAction) :
    DB × Value × List String :=
  if !a.allowTruthy then
    (db,
     Value.vdict [("kind", a.kind), ("status", Value.vstr "skipped"),
                  ("reason", a.conflict.getD (Value.vstr "no permitida")),
                  ("description", a.description)],
     ["Acción " ++ toString (i + 1) ++ " (" ++ a.kind.pyStr ++ "): no permitida - " ++
      (a.conflict.getD (Value.vstr "sin razón específica")).pyStr])
  else
    match execDispatch db usuario_id i a with
    | .ok (db', res, es) => (db', res, es)
    | .error e =>
        (db,
         Value.vdict [("kind", a.kind), ("status", Value.vstr "error"),
                      ("error", Value.vstr e.pyStr), ("description", a.description)],
         ["Acción " ++ toString (i + 1) ++ " (" ++ a.kind.pyStr ++ "): " ++ e.pyStr])

/-- The full `execute_actions` loop. -/
def execute_core (usuario_id : Nat) :
    DB → List PlannedAction → Nat → DB × List Value × List String
  | db, [], _ => (db, [], [])
  | db, a :: rest, i =>
      let (db1, r, es) := execStep db usuario_id i a
      let (db2, rs, es2) := execute_core usuario_id db1 rest (i + 1)
      (db2, r :: rs, es ++ es2)

/-- `r.get("status")` on a result dict. -/
def resultStatus (r : Value) : Value :=
  match r with
  | .vdict d => dictGet d "status"
  | _ => Value.vnull

/-- `nl_service.execute_actions`: one result per action in order, plus the
trailing `execution_summary` record when more than one action was
submitted. -/
def execute_actions (db : DB) (usuario_id : Nat) (actions : List PlannedAction) :
    DB × List Value :=
  let (db', results, execution_errors) := execute_core usuario_id db actions 0
  if actions.length > 1 then
    let successful := (results.filter (fun r => resultStatus r == Value.vstr "success")).length
    let failed := (results.filter (fun r => resultStatus r == Value.vstr "error")).length
    let skipped := (results.filter (fun r => resultStatus r == Value.vstr "skipped")).length
    (db', results ++
      [Value.vdict [("kind", Value.vstr "execution_summary"), ("status", Value.vstr "summary"),
                    ("total_actions", Value.vint actions.length),
                    ("successful", Value.vint successful),
                    ("failed", Value.vint failed),
                    ("skipped", Value.vint skipped),
                    ("errors", if execution_errors.isEmpty then Value.vnull
                               else Value.vlist (execution_errors.map Value.vstr))]])
  else (db', results)

/-- `nl_service.serialize_plan`'s per-action dict: the `getattr` defaults
are applied at serialization time. -/
def serializeAction (a : PlannedAction) : Value :=
  Value.vdict [("kind", a.kind), ("args", a.args), ("description", a.description),
               ("allow", a.allow.getD (Value.vbool true)),
               ("resolved", a.resolved.getD (Value.vdict [])),
               ("conflict", a.conflict.getD Value.vnull)]

/-- `nl_service.serialize_plan`. -/
def serialize_plan (plan : PlanResult) : Value :=
  Value.vdict [("summary", Value.vstr plan.summary),
               ("actions", Value.vlist (plan.actions.map serializeAction))]

/-- The `PlannedAction` rebuilt from one serialized dict: field-by-field
reads, with the three optional attributes set only when their keys are
present. -/
def deserializeItem (d : List (String × Value)) : PlannedAction :=
  { kind := dictGet d "kind", args := dictGet d "args",
    description := dictGetD d "description" (Value.vstr ""),
    allow := if dictHas d "allow" then some (dictGet d "allow") else none,
    resolved := if dictHas d "resolved" then some (dictGet d "resolved") else none,
    conflict := if dictHas d "conflict" then some (dictGet d "conflict") else none }

/-- `nl_service.deserialize_actions`: per item, require `kind` and `args`,
then rebuild via `deserializeItem`; any failure is re-raised as a
`ValueError` naming the index. -/
def deserialize_actions : List Value → Nat → Except PyErr (List PlannedAction)
  | [], _ => .ok []
  | item :: rest, i => do
      let attempt : Except PyErr PlannedAction := do
        let d ←
          match item with
          | Value.vdict d => pure d
          | _ => throw (.typeError "argument of type is not iterable")
        if !dictHas d "kind" then
          throw (.valueError ("Acción " ++ toString i ++ " falta campo 'kind'. Campos disponibles: " ++
            (Value.vlist (d.map (fun kv => Value.vstr kv.1))).pyRepr))
        else if !dictHas d "args" then
          throw (.valueError ("Acción " ++ toString i ++ " falta campo 'args'. Campos disponibles: " ++
            (Value.vlist (d.map (fun kv => Value.vstr kv.1))).pyRepr))
        else
          pure (deserializeItem d)
      match attempt with
      | .error e =>
          throw (.valueError ("Error en acción " ++ toString i ++ ": " ++ e.pyStr ++
            ". Formato esperado: \x7b\"kind\": \"create_materia\", \"args\": \x7b...\x7d, \"description\": \"...\", \"allow\": true\x7d"))
      | .ok a => do
          let rest' ← deserialize_actions rest (i + 1)
          pure (a :: rest')

/-- The execute path of `routers/v1_nl.py::nl_command` when the client
replays a serialized action list: deserialize, keep the
`getattr(a, 'allow', True)`-truthy actions, return empty results when none
remain, else run `execute_actions`.  (The response's `summary` string is
derived from the results and is not modelled.) -/
def nl_command_execute (db : DB) (usuario_id : Nat) (items : List Value) :
    Except PyErr (DB × List Value) := do
  let actions ← deserialize_actions items 0
  let allowed_actions := actions.filter PlannedAction.allowTruthy
  if allowed_actions.isEmpty then
    pure (db, [])
  else
    pure (execute_actions db usuario_id allowed_actions)

/-- The same path when `mode="execute"` runs directly on a freshly planned
`PlanResult` (no serialization round trip). -/
def nl_command_execute_plan (db : DB) (usuario_id : Nat) (plan : PlanResult) :
    DB × List Value :=
  let allowed_actions := plan.actions.filter PlannedAction.allowTruthy
  if allowed_actions.isEmpty then (db, [])
  else execute_actions db usuario_id allowed_actions

/-! ## Helper lemmas -/

theorem except_bind_ok {α β ε : Type} {x : Except ε α} {f : α → Except ε β} {b : β}
    (h : (x >>= f) = .ok b) : ∃ a, x = .ok a ∧ f a = .ok b := by
  cases x with
  | ok a => exact ⟨a, rfl, h⟩
  | error e => exact Except.noConfusion h

theorem scalar_one_or_none_eq_head {α : Type} (l : List α) (h : l.length ≤ 1) :
    scalar_one_or_none l = .ok l.head? := by
  match l with
  | [] => rfl
  | [x] => rfl
  | x :: y :: t => simp at h

theorem len_le_one_of_nodup_allEq {α β : Type} (l : List α) (f : α → β)
    (hnd : (l.map f).Nodup) (hall : ∀ x ∈ l, ∀ y ∈ l, x = y) : l.length ≤ 1 := by
  match l with
  | [] => simp
  | [x] => simp
  | x :: y :: t =>
      exfalso
      have hxy : x = y := hall x (by simp) y (by simp)
      simp [hxy] at hnd

theorem find?_eq_some_of_unique {α : Type} {l : List α} {p : α → Bool} {m : α}
    (hm : m ∈ l) (hp : p m = true) (huniq : ∀ x ∈ l, p x = true → x = m) :
    l.find? p = some m := by
  induction l with
  | nil => simp at hm
  | cons a t ih =>
      rcases List.mem_cons.mp hm with h | h
      · subst h; simp [List.find?, hp]
      · by_cases ha : p a = true
        · have : a = m := huniq a (by simp) ha
          subst this; simp [List.find?, hp]
        · simp only [List.find?]
          rw [Bool.not_eq_true] at ha
          rw [ha]
          exact ih h (fun x hx hpx => huniq x (List.mem_cons_of_mem a hx) hpx)

theorem scalar_one_or_none_ok_some {α : Type} {l : List α} {m : α}
    (h : scalar_one_or_none l = .ok (some m)) : l = [m] := by
  cases l with
  | nil => simp [scalar_one_or_none] at h
  | cons x t =>
      cases t with
      | nil =>
          simp [scalar_one_or_none] at h
          simp [h]
      | cons y t2 => simp [scalar_one_or_none] at h

theorem filterMap_if_eq_map_filter {α β : Type} (l : List α) (p : α → Bool) (f : α → β) :
    l.filterMap (fun x => if p x then some (f x) else none) = (l.filter p).map f := by
  induction l with
  | nil => rfl
  | cons a t ih =>
      by_cases h : p a <;> simp [List.filterMap_cons, List.filter_cons, h, ih]

theorem filter_key_eq_singleton (ms : List Materia) (m : Materia)
    (hnd : (ms.map Materia.materia_id).Nodup) (hm : m ∈ ms) :
    ms.filter (fun mm => mm.materia_id == m.materia_id) = [m] := by
  induction ms with
  | nil => simp at hm
  | cons a t ih =>
      rw [List.map_cons, List.nodup_cons] at hnd
      rcases List.mem_cons.mp hm with h | h
      · subst h
        have hnil : t.filter (fun mm => mm.materia_id == m.materia_id) = [] := by
          rw [List.filter_eq_nil_iff]
          intro x hx
          simp only [beq_iff_eq]
          intro heq
          exact hnd.1 (heq ▸ List.mem_map_of_mem Materia.materia_id hx)
        simp [List.filter_cons, hnil]
      · have hane : (a.materia_id == m.materia_id) = false := by
          simp only [beq_eq_false_iff_ne, ne_eq]
          intro heq
          exact hnd.1 (heq ▸ List.mem_map_of_mem Materia.materia_id h)
        simp [List.filter_cons, hane, ih hnd.2 h]

/-- The owner-scoped join, further filtered to subject `m`, is exactly the
event rows of `m` paired with `m` (given unique subject ids and `m` owned by
the requesting user). -/
theorem join_filter_eq (db : DB) (uid : Nat) (m : Materia)
    (hnd : (db.materias.map Materia.materia_id).Nodup)
    (hm : m ∈ db.materias) (howner : m.materia_usuario_id = uid) :
    (((eventosJoinMateria db).filter (fun em => em.2.materia_usuario_id == uid)).filter
        (fun em => em.1.evento_materia_id == m.materia_id)) =
      (db.eventos.filter (fun e => e.evento_materia_id == m.materia_id)).map
        (fun e => (e, m)) := by
  unfold eventosJoinMateria
  induction db.eventos with
  | nil => rfl
  | cons e t ih =>
      have hhead : ((db.materias.filterMap (fun mm =>
            if mm.materia_id == e.evento_materia_id then some (e, mm) else none)).filter
              (fun em => em.2.materia_usuario_id == uid)).filter
              (fun em => em.1.evento_materia_id == m.materia_id) =
          if (e.evento_materia_id == m.materia_id) = true then [(e, m)] else [] := by
        by_cases hme : e.evento_materia_id = m.materia_id
        · rw [if_pos (by simpa using hme)]
          rw [filterMap_if_eq_map_filter]
          have hk : db.materias.filter (fun mm => mm.materia_id == e.evento_materia_id) = [m] := by
            rw [hme]
            exact filter_key_eq_singleton db.materias m hnd hm
          rw [hk]
          simp [howner, hme]
        · rw [if_neg (by simpa using hme)]
          rw [List.filter_eq_nil_iff]
          intro x hx
          have hx1 : x ∈ db.materias.filterMap (fun mm =>
              if mm.materia_id == e.evento_materia_id then some (e, mm) else none) :=
            List.mem_of_mem_filter hx
          rw [List.mem_filterMap] at hx1
          obtain ⟨mm, _, hmm⟩ := hx1
          by_cases hc : mm.materia_id == e.evento_materia_id
          · rw [if_pos hc] at hmm
            cases hmm
            simpa using hme
          · rw [if_neg hc] at hmm
            cases hmm
      rw [List.flatMap_cons, List.filter_append, List.filter_append, hhead, ih,
          List.filter_cons]
      by_cases hc : (e.evento_materia_id == m.materia_id) = true
      · simp [hc]
      · rw [Bool.not_eq_true] at hc
        simp [hc]

/-! ## Normalizer facts (used by C4, C6 and C9) -/

/-- What the Normalizer guarantees about every `update_materia` /
`delete_materia` action it emits: the action's `materia_id` argument
resolves to a subject row that exists and belongs to the requesting user
(the `_ensure_ownership_materia` check ran before the action was built). -/
def MateriaTargetOwned (db : DB) (uid : Nat) (a : PlannedAction) : Prop :=
  ∃ d m, a.args = Value.vdict d ∧
    db.getMateriaV (dictGet d "materia_id") = some m ∧ m.materia_usuario_id = uid

/-- The invariant over all Normalizer-produced actions that C4 needs. -/
def NormActionInv (db : DB) (uid : Nat) (a : PlannedAction) : Prop :=
  (a.kind = Value.vstr "update_materia" ∨ a.kind = Value.vstr "delete_materia") →
    MateriaTargetOwned db uid a

theorem ensure_ownership_materia_ok (db : DB) (uid : Nat) (v : Value) (m : Materia)
    (h : _ensure_ownership_materia db uid v = .ok m) :
    db.getMateriaV v = some m ∧ m.materia_usuario_id = uid := by
  unfold _ensure_ownership_materia at h
  rcases hg : db.getMateriaV v with _ | m0
  · rw [hg] at h
    exact Except.noConfusion h
  · rw [hg] at h
    dsimp only at h
    by_cases ho : (m0.materia_usuario_id != uid) = true
    · rw [if_pos ho] at h
      exact Except.noConfusion h
    · rw [if_neg ho] at h
      have hm : m0 = m := by injection h
      subst hm
      rw [Bool.not_eq_true, bne_eq_false_iff_eq] at ho
      exact ⟨rfl, ho⟩

theorem mem_eventosJoinMateria {db : DB} {em : Evento × Materia}
    (h : em ∈ eventosJoinMateria db) : em.1 ∈ db.eventos := by
  unfold eventosJoinMateria at h
  rw [List.mem_flatMap] at h
  obtain ⟨e, he, hem⟩ := h
  rw [List.mem_filterMap] at hem
  obtain ⟨mm, _, hmm⟩ := hem
  by_cases hc : mm.materia_id == e.evento_materia_id
  · rw [if_pos hc] at hmm
    cases hmm
    exact he
  · rw [if_neg hc] at hmm
    cases hmm

theorem mem_of_head?_eq_some {α : Type} {l : List α} {a : α}
    (h : l.head? = some a) : a ∈ l := by
  cases l with
  | nil => cases h
  | cons x t =>
      rw [List.head?_cons] at h
      injection h with h
      subst h
      simp

theorem decideEvento_mem {eventos : List Evento} {er mr : Value}
    {materia : Option Materia} {ev : Evento}
    (h : decideEvento eventos er mr materia = .ok (some ev)) : ev ∈ eventos := by
  unfold decideEvento at h
  split at h
  · simp only [pure, Except.pure, Except.ok.injEq] at h
    exact mem_of_head?_eq_some h
  · split at h
    · split at h
      · exact Except.noConfusion h
      · dsimp only at h
        split at h
        · simp only [pure, Except.pure, Except.ok.injEq] at h
          exact List.mem_of_mem_filter (mem_of_head?_eq_some h)
        · simp only [pure, Except.pure] at h
          cases h
    · simp only [pure, Except.pure] at h
      cases h

theorem findEventoWith_mem {db : DB} {uid : Nat} {er mr : Value}
    {materia : Option Materia} {ev : Evento}
    (h : findEventoWith db uid er mr materia = .ok (some ev)) : ev ∈ db.eventos := by
  cases materia with
  | none =>
      unfold findEventoWith at h
      dsimp only at h
      split at h
      · obtain ⟨s, hs, h⟩ := except_bind_ok h
        obtain ⟨q, hq, h⟩ := except_bind_ok h
        simp only [pure, Except.pure, Except.ok.injEq] at hq
        subst hq
        have hev := decideEvento_mem h
        rw [List.mem_map] at hev
        obtain ⟨em, hem, heq⟩ := hev
        subst heq
        exact mem_eventosJoinMateria
          (List.mem_of_mem_filter (List.mem_of_mem_filter hem))
      · obtain ⟨q, hq, h⟩ := except_bind_ok h
        simp only [pure, Except.pure, Except.ok.injEq] at hq
        subst hq
        have hev := decideEvento_mem h
        rw [List.mem_map] at hev
        obtain ⟨em, hem, heq⟩ := hev
        subst heq
        exact mem_eventosJoinMateria (List.mem_of_mem_filter hem)
  | some mm =>
      unfold findEventoWith at h
      dsimp only at h
      split at h
      · obtain ⟨s, hs, h⟩ := except_bind_ok h
        obtain ⟨q, hq, h⟩ := except_bind_ok h
        simp only [pure, Except.pure, Except.ok.injEq] at hq
        subst hq
        have hev := decideEvento_mem h
        rw [List.mem_map] at hev
        obtain ⟨em, hem, heq⟩ := hev
        subst heq
        exact mem_eventosJoinMateria (List.mem_of_mem_filter
          (List.mem_of_mem_filter (List.mem_of_mem_filter hem)))
      · obtain ⟨q, hq, h⟩ := except_bind_ok h
        simp only [pure, Except.pure, Except.ok.injEq] at hq
        subst hq
        have hev := decideEvento_mem h
        rw [List.mem_map] at hev
        obtain ⟨em, hem, heq⟩ := hev
        subst heq
        exact mem_eventosJoinMateria
          (List.mem_of_mem_filter (List.mem_of_mem_filter hem))

theorem find_evento_mem {db : DB} {uid : Nat} {er mr : Value} {ev : Evento}
    (h : _find_evento_by_references db uid er mr = .ok (some ev)) : ev ∈ db.eventos := by
  unfold _find_evento_by_references at h
  split at h
  · split at h
    · cases h
    · cases h
    · exact findEventoWith_mem h
  · exact findEventoWith_mem h

theorem normCreateMateria_spec (uid : Nat) (args : Value)
    (acts : List PlannedAction) (errs : List String)
    (h : normCreateMateria uid args = .ok (acts, errs)) :
    (acts ≠ [] ∨ errs ≠ []) ∧ ∀ a ∈ acts, a.kind = Value.vstr "create_materia" := by
  unfold normCreateMateria at h
  obtain ⟨mn, hmn, h⟩ := except_bind_ok h
  obtain ⟨md, hmd, h⟩ := except_bind_ok h
  split at h
  · simp only [pure, Except.pure, Except.ok.injEq, Prod.mk.injEq] at h
    refine ⟨Or.inr (by simp [← h.2]), ?_⟩
    intro a ha
    rw [← h.1] at ha
    simp at ha
  · obtain ⟨s, hs, h⟩ := except_bind_ok h
    simp only [pure, Except.pure, Except.ok.injEq, Prod.mk.injEq] at h
    refine ⟨Or.inl (by simp [← h.1]), ?_⟩
    intro a ha
    rw [← h.1] at ha
    simp only [List.mem_singleton] at ha
    subst ha
    rfl

theorem tryValueError_ok (pfx : String) (errs1 : List String)
    (body : Except PyErr (List PlannedAction × List String))
    (acts : List PlannedAction) (errs : List String)
    (h : tryValueError pfx errs1 body = .ok (acts, errs)) :
    (∃ es, body = .ok (acts, es) ∧ errs = errs1 ++ es) ∨
    (∃ e, body = .error e ∧ e.isValueError = true ∧ acts = [] ∧
      errs = errs1 ++ [pfx ++ e.pyStr]) := by
  unfold tryValueError at h
  cases body with
  | ok r =>
      obtain ⟨a0, e0⟩ := r
      simp only [pure, Except.pure, Except.ok.injEq, Prod.mk.injEq] at h
      exact Or.inl ⟨e0, by rw [h.1], h.2.symm⟩
  | error e =>
      dsimp only at h
      by_cases hval : e.isValueError = true
      · rw [if_pos hval] at h
        simp only [pure, Except.pure, Except.ok.injEq, Prod.mk.injEq] at h
        exact Or.inr ⟨e, rfl, hval, h.1.symm, h.2.symm⟩
      · rw [if_neg hval] at h
        exact Except.noConfusion h

theorem normUpdateMateria_spec (db : DB) (uid : Nat) (args : Value)
    (acts : List PlannedAction) (errs : List String)
    (h : normUpdateMateria db uid args = .ok (acts, errs)) :
    (acts ≠ [] ∨ errs ≠ []) ∧
    ∀ a ∈ acts, a.kind = Value.vstr "update_materia" ∧ MateriaTargetOwned db uid a := by
  unfold normUpdateMateria at h
  obtain ⟨mid0, hmid0, h⟩ := except_bind_ok h
  obtain ⟨mn, hmn, h⟩ := except_bind_ok h
  obtain ⟨md, hmd, h⟩ := except_bind_ok h
  obtain ⟨mid, hmid, h⟩ := except_bind_ok h
  split at h
  · simp only [pure, Except.pure, Except.ok.injEq, Prod.mk.injEq] at h
    exact ⟨Or.inr (by simp [← h.2]), fun a ha => by rw [← h.1] at ha; simp at ha⟩
  · rcases tryValueError_ok _ _ _ _ _ h with ⟨es, hbody, herrs⟩ | ⟨e, hbody, hval, hacts, herrs⟩
    · obtain ⟨m, hens, hbody⟩ := except_bind_ok hbody
      obtain ⟨upd1, hupd1, hbody⟩ := except_bind_ok hbody
      simp only [pure, Except.pure, Except.ok.injEq, Prod.mk.injEq] at hbody
      obtain ⟨hacts, hes⟩ := hbody
      refine ⟨Or.inl (by simp [← hacts]), ?_⟩
      intro a ha
      rw [← hacts] at ha
      simp only [List.mem_singleton] at ha
      subst ha
      refine ⟨rfl, ?_⟩
      obtain ⟨hget, howner⟩ := ensure_ownership_materia_ok db uid mid m hens
      refine ⟨_, m, rfl, ?_, howner⟩
      simpa [dictGet] using hget
    · subst hacts
      exact ⟨Or.inr (by simp [herrs]), fun a ha => by simp at ha⟩

theorem normDeleteMateria_spec (db : DB) (uid : Nat) (args : Value)
    (acts : List PlannedAction) (errs : List String)
    (h : normDeleteMateria db uid args = .ok (acts, errs)) :
    (acts ≠ [] ∨ errs ≠ []) ∧
    ∀ a ∈ acts, a.kind = Value.vstr "delete_materia" ∧ MateriaTargetOwned db uid a := by
  unfold normDeleteMateria at h
  obtain ⟨mid0, hmid0, h⟩ := except_bind_ok h
  obtain ⟨mid, hmid, h⟩ := except_bind_ok h
  split at h
  · simp only [pure, Except.pure, Except.ok.injEq, Prod.mk.injEq] at h
    exact ⟨Or.inr (by simp [← h.2]), fun a ha => by rw [← h.1] at ha; simp at ha⟩
  · rcases tryValueError_ok _ _ _ _ _ h with ⟨es, hbody, herrs⟩ | ⟨e, hbody, hval, hacts, herrs⟩
    · obtain ⟨m, hens, hbody⟩ := except_bind_ok hbody
      simp only [pure, Except.pure, Except.ok.injEq, Prod.mk.injEq] at hbody
      obtain ⟨hacts, hes⟩ := hbody
      refine ⟨Or.inl (by simp [← hacts]), ?_⟩
      intro a ha
      rw [← hacts] at ha
      simp only [List.mem_singleton] at ha
      subst ha
      refine ⟨rfl, ?_⟩
      obtain ⟨hget, howner⟩ := ensure_ownership_materia_ok db uid mid m hens
      refine ⟨_, m, rfl, ?_, howner⟩
      simpa [dictGet] using hget
    · subst hacts
      exact ⟨Or.inr (by simp [herrs]), fun a ha => by simp at ha⟩

/-- If the resolver block left the event id untruthy although references
were given, it recorded an error (needs positive event ids, which the
database's autoincrement guarantees). -/
theorem resolveEventoByRefs_ok (db : DB) (uid : Nat) (args : Value) (eid0 : Value)
    (accion : String) (p : Value × List String)
    (hpos : ∀ e ∈ db.eventos, 1 ≤ e.evento_id)
    (h : resolveEventoByRefs db uid args eid0 accion = .ok p)
    (hfalsy : p.1.truthy = false) :
    ∀ er mr, args.get "evento_ref" = .ok er → args.get "materia_ref" = .ok mr →
      (er.truthy || mr.truthy) = true → p.2 ≠ [] := by
  intro er mr her hmr htr
  unfold resolveEventoByRefs at h
  by_cases hguard : (!eid0.truthy) = true
  · rw [if_pos hguard] at h
    obtain ⟨er1, her1, h⟩ := except_bind_ok h
    obtain ⟨mr1, hmr1, h⟩ := except_bind_ok h
    rw [her] at her1
    rw [hmr] at hmr1
    have hereq : er1 = er := by injection her1 with hx; exact hx.symm
    have hmreq : mr1 = mr := by injection hmr1 with hx; exact hx.symm
    have htr1 : (er1.truthy || mr1.truthy) = true := by
      rw [hereq, hmreq]; exact htr
    rw [if_pos htr1] at h
    rcases hfind : _find_evento_by_references db uid er1 mr1 with e | oev
    · rw [hfind] at h
      dsimp only at h
      simp only [pure, Except.pure, Except.ok.injEq] at h
      subst h
      simp
    · rw [hfind] at h
      cases oev with
      | none =>
          dsimp only at h
          simp only [pure, Except.pure, Except.ok.injEq] at h
          subst h
          simp
      | some evento =>
          dsimp only at h
          simp only [pure, Except.pure, Except.ok.injEq] at h
          subst h
          exfalso
          have hmem := find_evento_mem hfind
          have hid := hpos evento hmem
          simp only [Value.truthy, bne_eq_false_iff_eq] at hfalsy
          omega
  · rw [if_neg hguard] at h
    simp only [pure, Except.pure, Except.ok.injEq] at h
    subst h
    dsimp only at hfalsy
    cases hb : eid0.truthy
    · rw [hb] at hguard
      simp at hguard
    · rw [hb] at hfalsy
      exact Bool.noConfusion hfalsy

theorem normCreateEvento_spec (db : DB) (uid : Nat) (args : Value)
    (acts : List PlannedAction) (errs : List String)
    (h : normCreateEvento db uid args = .ok (acts, errs)) :
    (acts ≠ [] ∨ errs ≠ []) ∧ ∀ a ∈ acts, a.kind = Value.vstr "create_evento" := by
  unfold normCreateEvento at h
  obtain ⟨mid0, hmid0, h⟩ := except_bind_ok h
  obtain ⟨mid, hmid, h⟩ := except_bind_ok h
  obtain ⟨nom, hnom, h⟩ := except_bind_ok h
  obtain ⟨fec, hfec, h⟩ := except_bind_ok h
  obtain ⟨est, hest, h⟩ := except_bind_ok h
  dsimp only at h
  by_cases hval0 : (!(createEventoValidationErrors mid nom fec).isEmpty) = true
  · rw [if_pos hval0] at h
    simp only [pure, Except.pure, Except.ok.injEq, Prod.mk.injEq] at h
    exact ⟨Or.inr (by simp [← h.2]), fun a ha => by rw [← h.1] at ha; simp at ha⟩
  · rw [if_neg hval0] at h
    rcases tryValueError_ok _ _ _ _ _ h with ⟨es, hbody, herrs⟩ | ⟨e, hbody, hval, hacts, herrs⟩
    · obtain ⟨m, hens, hbody⟩ := except_bind_ok hbody
      obtain ⟨s, hs, hbody⟩ := except_bind_ok hbody
      simp only [pure, Except.pure, Except.ok.injEq, Prod.mk.injEq] at hbody
      obtain ⟨hacts, hes⟩ := hbody
      refine ⟨Or.inl (by simp [← hacts]), ?_⟩
      intro a ha
      rw [← hacts] at ha
      simp only [List.mem_singleton] at ha
      subst ha
      rfl
    · subst hacts
      exact ⟨Or.inr (by simp [herrs]), fun a ha => by simp at ha⟩

theorem normUpdateEvento_spec (db : DB) (uid : Nat) (args : Value)
    (hpos : ∀ e ∈ db.eventos, 1 ≤ e.evento_id)
    (acts : List PlannedAction) (errs : List String)
    (h : normUpdateEvento db uid args = .ok (acts, errs)) :
    (acts ≠ [] ∨ errs ≠ []) ∧ ∀ a ∈ acts, a.kind = Value.vstr "update_evento" := by
  unfold normUpdateEvento at h
  obtain ⟨eid0, heid0, h⟩ := except_bind_ok h
  obtain ⟨p, hp, h⟩ := except_bind_ok h
  obtain ⟨eid, errs1⟩ := p
  dsimp only at h
  by_cases hguard : (!eid.truthy) = true
  · rw [if_pos hguard] at h
    obtain ⟨er, her, h⟩ := except_bind_ok h
    obtain ⟨mr, hmr, h⟩ := except_bind_ok h
    by_cases hrefs : (!er.truthy && !mr.truthy) = true
    · rw [if_pos hrefs] at h
      simp only [pure, Except.pure, Except.ok.injEq, Prod.mk.injEq] at h
      exact ⟨Or.inr (by simp [← h.2]), fun a ha => by rw [← h.1] at ha; simp at ha⟩
    · rw [if_neg hrefs] at h
      simp only [pure, Except.pure, Except.ok.injEq, Prod.mk.injEq] at h
      have htr2 : (er.truthy || mr.truthy) = true := by
        cases he1 : er.truthy <;> cases hm1 : mr.truthy <;> simp_all
      have hfalsy : eid.truthy = false := by
        rw [Bool.not_eq_true'] at hguard
        exact hguard
      have hne := resolveEventoByRefs_ok db uid args eid0 "Actualizar evento"
        (eid, errs1) hpos hp hfalsy er mr her hmr htr2
      refine ⟨Or.inr ?_, fun a ha => by rw [← h.1] at ha; simp at ha⟩
      rw [← h.2]
      exact hne
  · rw [if_neg hguard] at h
    rcases tryValueError_ok _ _ _ _ _ h with ⟨es, hbody, herrs⟩ | ⟨e, hbody, hval, hacts, herrs⟩
    · obtain ⟨evid, hevid, hbody⟩ := except_bind_ok hbody
      obtain ⟨ev, hev, hbody⟩ := except_bind_ok hbody
      obtain ⟨ua, hua, hbody⟩ := except_bind_ok hbody
      simp only [pure, Except.pure, Except.ok.injEq, Prod.mk.injEq] at hbody
      obtain ⟨hacts, hes⟩ := hbody
      refine ⟨Or.inl (by simp [← hacts]), ?_⟩
      intro a ha
      rw [← hacts] at ha
      simp only [List.mem_singleton] at ha
      subst ha
      rfl
    · subst hacts
      exact ⟨Or.inr (by simp [herrs]), fun a ha => by simp at ha⟩

theorem normDeleteEvento_spec (db : DB) (uid : Nat) (args : Value)
    (hpos : ∀ e ∈ db.eventos, 1 ≤ e.evento_id)
    (acts : List PlannedAction) (errs : List String)
    (h : normDeleteEvento db uid args = .ok (acts, errs)) :
    (acts ≠ [] ∨ errs ≠ []) ∧ ∀ a ∈ acts, a.kind = Value.vstr "delete_evento" := by
  unfold normDeleteEvento at h
  obtain ⟨eid0, heid0, h⟩ := except_bind_ok h
  obtain ⟨p, hp, h⟩ := except_bind_ok h
  obtain ⟨eid, errs1⟩ := p
  dsimp only at h
  by_cases hguard : (!eid.truthy) = true
  · rw [if_pos hguard] at h
    obtain ⟨er, her, h⟩ := except_bind_ok h
    obtain ⟨mr, hmr, h⟩ := except_bind_ok h
    by_cases hrefs : (!er.truthy && !mr.truthy) = true
    · rw [if_pos hrefs] at h
      simp only [pure, Except.pure, Except.ok.injEq, Prod.mk.injEq] at h
      exact ⟨Or.inr (by simp [← h.2]), fun a ha => by rw [← h.1] at ha; simp at ha⟩
    · rw [if_neg hrefs] at h
      simp only [pure, Except.pure, Except.ok.injEq, Prod.mk.injEq] at h
      have htr2 : (er.truthy || mr.truthy) = true := by
        cases he1 : er.truthy <;> cases hm1 : mr.truthy <;> simp_all
      have hfalsy : eid.truthy = false := by
        rw [Bool.not_eq_true'] at hguard
        exact hguard
      have hne := resolveEventoByRefs_ok db uid args eid0 "Eliminar evento"
        (eid, errs1) hpos hp hfalsy er mr her hmr htr2
      refine ⟨Or.inr ?_, fun a ha => by rw [← h.1] at ha; simp at ha⟩
      rw [← h.2]
      exact hne
  · rw [if_neg hguard] at h
    rcases tryValueError_ok _ _ _ _ _ h with ⟨es, hbody, herrs⟩ | ⟨e, hbody, hval, hacts, herrs⟩
    · obtain ⟨evid, hevid, hbody⟩ := except_bind_ok hbody
      obtain ⟨ev, hev, hbody⟩ := except_bind_ok hbody
      simp only [pure, Except.pure, Except.ok.injEq, Prod.mk.injEq] at hbody
      obtain ⟨hacts, hes⟩ := hbody
      refine ⟨Or.inl (by simp [← hacts]), ?_⟩
      intro a ha
      rw [← hacts] at ha
      simp only [List.mem_singleton] at ha
      subst ha
      rfl
    · subst hacts
      exact ⟨Or.inr (by simp [herrs]), fun a ha => by simp at ha⟩

/-! ## The dispatch on the tool name, and the per-call loop. -/

theorem normDispatch_spec (db : DB) (uid : Nat) (name args : Value)
    (hpos : ∀ e ∈ db.eventos, 1 ≤ e.evento_id)
    (acts : List PlannedAction) (errs : List String)
    (h : normDispatch db uid name args = .ok (acts, errs)) :
    (acts ≠ [] ∨ errs ≠ []) ∧ ∀ a ∈ acts, NormActionInv db uid a := by
  unfold normDispatch at h
  by_cases h1 : (name == Value.vstr "create_materia") = true
  · rw [if_pos h1] at h
    obtain ⟨hne, hk⟩ := normCreateMateria_spec uid args acts errs h
    refine ⟨hne, fun a ha hbad => ?_⟩
    rcases hbad with hbad | hbad <;> rw [hk a ha] at hbad <;>
      exact absurd hbad (by decide)
  · rw [if_neg h1] at h
    by_cases h2 : (name == Value.vstr "update_materia") = true
    · rw [if_pos h2] at h
      obtain ⟨hne, hk⟩ := normUpdateMateria_spec db uid args acts errs h
      exact ⟨hne, fun a ha _ => (hk a ha).2⟩
    · rw [if_neg h2] at h
      by_cases h3 : (name == Value.vstr "delete_materia") = true
      · rw [if_pos h3] at h
        obtain ⟨hne, hk⟩ := normDeleteMateria_spec db uid args acts errs h
        exact ⟨hne, fun a ha _ => (hk a ha).2⟩
      · rw [if_neg h3] at h
        by_cases h4 : (name == Value.vstr "create_evento") = true
        · rw [if_pos h4] at h
          obtain ⟨hne, hk⟩ := normCreateEvento_spec db uid args acts errs h
          refine ⟨hne, fun a ha hbad => ?_⟩
          rcases hbad with hbad | hbad <;> rw [hk a ha] at hbad <;>
            exact absurd hbad (by decide)
        · rw [if_neg h4] at h
          by_cases h5 : (name == Value.vstr "update_evento") = true
          · rw [if_pos h5] at h
            obtain ⟨hne, hk⟩ := normUpdateEvento_spec db uid args hpos acts errs h
            refine ⟨hne, fun a ha hbad => ?_⟩
            rcases hbad with hbad | hbad <;> rw [hk a ha] at hbad <;>
              exact absurd hbad (by decide)
          · rw [if_neg h5] at h
            by_cases h6 : (name == Value.vstr "delete_evento") = true
            · rw [if_pos h6] at h
              obtain ⟨hne, hk⟩ := normDeleteEvento_spec db uid args hpos acts errs h
              refine ⟨hne, fun a ha hbad => ?_⟩
              rcases hbad with hbad | hbad <;> rw [hk a ha] at hbad <;>
                exact absurd hbad (by decide)
            · rw [if_neg h6] at h
              by_cases h7 : name.truthy = true
              · rw [if_pos h7] at h
                simp only [Except.ok.injEq, Prod.mk.injEq] at h
                exact ⟨Or.inr (by simp [← h.2]),
                  fun a ha => by rw [← h.1] at ha; simp at ha⟩
              · rw [if_neg h7] at h
                simp only [Except.ok.injEq, Prod.mk.injEq] at h
                exact ⟨Or.inr (by simp [← h.2]),
                  fun a ha => by rw [← h.1] at ha; simp at ha⟩

/-- On a dict tool call the `name`/`args` reads succeed and the catch-all
turns any branch exception into an error entry, so normalization never
raises. -/
theorem normalize_tool_call_total (db : DB) (uid : Nat) (d : List (String × Value)) :
    ∃ r, _normalize_tool_call (Value.vdict d) db uid = .ok r := by
  unfold _normalize_tool_call
  rcases hd : normDispatch db uid (dictGet d "name")
      (if (dictGet d "args").truthy then dictGet d "args" else Value.vdict []) with e | r
  · refine ⟨([], ["Error procesando acción '" ++ (dictGet d "name").pyStr ++ "': " ++
      e.pyStr]), ?_⟩
    simp only [Value.get, bind, Except.bind, hd, pure, Except.pure]
  · refine ⟨r, ?_⟩
    simp only [Value.get, bind, Except.bind, hd, pure, Except.pure]

/-- The per-call contribution the loop of step 1 accumulates; on a dict
call this is exactly the `.ok` payload of `_normalize_tool_call` (the
`.error` fallback is unreachable there, by `normalize_tool_call_total`). -/
def normalizeCall (db : DB) (uid : Nat) (c : Value) :
    List PlannedAction × List String :=
  match _normalize_tool_call c db uid with
  | .ok r => r
  | .error _ => ([], [])

theorem normalizeCall_eq (db : DB) (uid : Nat) (c : Value)
    (r : List PlannedAction × List String)
    (h : _normalize_tool_call c db uid = .ok r) :
    normalizeCall db uid c = r := by
  unfold normalizeCall
  rw [h]

theorem normalize_tool_call_spec (db : DB) (uid : Nat) (raw : Value)
    (hpos : ∀ e ∈ db.eventos, 1 ≤ e.evento_id)
    (acts : List PlannedAction) (errs : List String)
    (h : _normalize_tool_call raw db uid = .ok (acts, errs)) :
    (acts ≠ [] ∨ errs ≠ []) ∧ ∀ a ∈ acts, NormActionInv db uid a := by
  unfold _normalize_tool_call at h
  obtain ⟨name, hname, h⟩ := except_bind_ok h
  obtain ⟨args0, hargs0, h⟩ := except_bind_ok h
  dsimp only at h
  rcases hd : normDispatch db uid name
      (if args0.truthy then args0 else Value.vdict []) with e | r
  · rw [hd] at h
    simp only [pure, Except.pure, Except.ok.injEq, Prod.mk.injEq] at h
    exact ⟨Or.inr (by simp [← h.2]), fun a ha => by rw [← h.1] at ha; simp at ha⟩
  · rw [hd] at h
    simp only [pure, Except.pure, Except.ok.injEq] at h
    rw [h] at hd
    exact normDispatch_spec db uid name _ hpos acts errs hd

/-- The Planner's normalize loop over a batch of dict tool calls is the
concatenation of the independent per-call results. -/
theorem planNormalize_join (db : DB) (uid : Nat) (calls : List Value) (i : Nat)
    (hdict : ∀ c ∈ calls, ∃ d, c = Value.vdict d) :
    planNormalize db uid calls i =
      .ok ((calls.map (fun c => (normalizeCall db uid c).1)).flatten,
           (calls.map (fun c => (normalizeCall db uid c).2)).flatten) := by
  induction calls generalizing i with
  | nil => rfl
  | cons c rest ih =>
      obtain ⟨d, hd⟩ := hdict c (List.mem_cons_self c rest)
      subst hd
      obtain ⟨r, hr⟩ := normalize_tool_call_total db uid d
      have hnc := normalizeCall_eq db uid (Value.vdict d) r hr
      have hrest := ih (i + 1) (fun x hx => hdict x (List.mem_cons_of_mem _ hx))
      obtain ⟨ra1, re1⟩ := r
      simp only [planNormalize, hr, hrest, bind, Except.bind, pure, Except.pure,
        List.map_cons, List.flatten_cons, hnc]

/-! ## The Idempotency Checker loop. -/

/-- A key on which `db.get(models.Materia, ...)` finds a row is truthy once
primary keys are positive. -/
theorem truthy_of_getMateriaV (db : DB) (v : Value) (m : Materia)
    (h : db.getMateriaV v = some m)
    (hpos : ∀ m0 ∈ db.materias, 1 ≤ m0.materia_id) :
    v.truthy = true := by
  unfold DB.getMateriaV at h
  have hmem := List.mem_of_find?_eq_some h
  have heq := List.find?_some h
  have hid := hpos m hmem
  cases v with
  | vint n =>
      simp only [valueEqId, beq_iff_eq] at heq
      simp only [Value.truthy, bne_iff_ne, ne_eq]
      omega
  | vbool b =>
      cases b
      · simp only [valueEqId, Bool.false_eq_true, if_false, beq_iff_eq] at heq
        omega
      · rfl
  | vnull => exact Bool.noConfusion heq
  | vstr s => exact Bool.noConfusion heq
  | vlist xs => exact Bool.noConfusion heq
  | vdict d => exact Bool.noConfusion heq

/-- The checker only annotates: every branch returns `{a with ...}`, so
kind, args and description pass through unchanged. -/
theorem checkAction_preserves (db : DB) (uid : Nat) (a a' : PlannedAction)
    (ls : List String) (h : checkAction db uid a = .ok (a', ls)) :
    a'.kind = a.kind ∧ a'.args = a.args ∧ a'.description = a.description := by
  unfold checkAction at h
  dsimp only at h
  by_cases hc1 : (a.kind == Value.vstr "create_materia") = true
  · rw [if_pos hc1] at h
    obtain ⟨nombre, hn, h⟩ := except_bind_ok h
    obtain ⟨m, hm, h⟩ := except_bind_ok h
    rcases m with _ | m
    · dsimp only at h
      simp only [pure, Except.pure, Except.ok.injEq, Prod.mk.injEq] at h
      refine ⟨?_, ?_, ?_⟩ <;> rw [← h.1]
    · dsimp only at h
      simp only [pure, Except.pure, Except.ok.injEq, Prod.mk.injEq] at h
      refine ⟨?_, ?_, ?_⟩ <;> rw [← h.1]
  · rw [if_neg hc1] at h
    by_cases hc2 : (a.kind == Value.vstr "update_materia" ||
        a.kind == Value.vstr "delete_materia") = true
    · rw [if_pos hc2] at h
      obtain ⟨mid0, hmid0, h⟩ := except_bind_ok h
      obtain ⟨mid, hmid, h⟩ := except_bind_ok h
      obtain ⟨title, htitle, h⟩ := except_bind_ok h
      by_cases hg : (!mid.truthy || (db.getMateriaV mid).isNone) = true
      · rw [if_pos hg] at h
        simp only [pure, Except.pure, Except.ok.injEq, Prod.mk.injEq] at h
        refine ⟨?_, ?_, ?_⟩ <;> rw [← h.1]
      · rw [if_neg hg] at h
        simp only [pure, Except.pure, Except.ok.injEq, Prod.mk.injEq] at h
        refine ⟨?_, ?_, ?_⟩ <;> rw [← h.1]
    · rw [if_neg hc2] at h
      by_cases hc3 : (a.kind == Value.vstr "create_evento") = true
      · rw [if_pos hc3] at h
        obtain ⟨mid, hmid, h⟩ := except_bind_ok h
        obtain ⟨nombre, hn, h⟩ := except_bind_ok h
        obtain ⟨fv, hfv, h⟩ := except_bind_ok h
        by_cases hg : (!(mid.truthy && !(db.getMateriaV mid).isNone)) = true
        · rw [if_pos hg] at h
          simp only [pure, Except.pure, Except.ok.injEq, Prod.mk.injEq] at h
          refine ⟨?_, ?_, ?_⟩ <;> rw [← h.1]
        · rw [if_neg hg] at h
          obtain ⟨ev, hev, h⟩ := except_bind_ok h
          rcases ev with _ | ev
          · dsimp only at h
            simp only [pure, Except.pure, Except.ok.injEq, Prod.mk.injEq] at h
            refine ⟨?_, ?_, ?_⟩ <;> rw [← h.1]
          · dsimp only at h
            simp only [pure, Except.pure, Except.ok.injEq, Prod.mk.injEq] at h
            refine ⟨?_, ?_, ?_⟩ <;> rw [← h.1]
      · rw [if_neg hc3] at h
        by_cases hc4 : (a.kind == Value.vstr "update_evento" ||
            a.kind == Value.vstr "delete_evento") = true
        · rw [if_pos hc4] at h
          obtain ⟨evid, hevid, h⟩ := except_bind_ok h
          obtain ⟨title, htitle, h⟩ := except_bind_ok h
          rcases hev : (if evid.truthy = true then db.getEventoV evid else none)
              with _ | ev
          · rw [hev] at h
            dsimp only at h
            simp only [pure, Except.pure, Except.ok.injEq, Prod.mk.injEq] at h
            refine ⟨?_, ?_, ?_⟩ <;> rw [← h.1]
          · rw [hev] at h
            dsimp only at h
            simp only [pure, Except.pure, Except.ok.injEq, Prod.mk.injEq] at h
            refine ⟨?_, ?_, ?_⟩ <;> rw [← h.1]
        · rw [if_neg hc4] at h
          simp only [pure, Except.pure, Except.ok.injEq, Prod.mk.injEq] at h
          refine ⟨?_, ?_, ?_⟩ <;> rw [← h.1]

/-- The checker's `update_materia`/`delete_materia` rule on an action whose
`materia_id` argument references an existing subject of the requesting user
(as every Normalizer-produced one does) allows it, and its resolved id
references that owned subject. -/
theorem checkAction_materia_gate (db : DB) (uid : Nat) (a a' : PlannedAction)
    (ls : List String)
    (hpos : ∀ m0 ∈ db.materias, 1 ≤ m0.materia_id)
    (hk : a.kind = Value.vstr "update_materia" ∨ a.kind = Value.vstr "delete_materia")
    (ht : MateriaTargetOwned db uid a)
    (h : checkAction db uid a = .ok (a', ls)) :
    a'.allow = some (Value.vbool true) ∧ a'.conflict = some Value.vnull ∧
    ∃ d m, a'.resolved = some (Value.vdict d) ∧
      db.getMateriaV (dictGet d "materia_id") = some m ∧
      m.materia_usuario_id = uid := by
  obtain ⟨d, m, hargs, hget, howner⟩ := ht
  have htruthy := truthy_of_getMateriaV db _ m hget hpos
  unfold checkAction at h
  rw [if_neg (by rcases hk with hk | hk <;> rw [hk] <;> decide)] at h
  rw [if_pos (by rcases hk with hk | hk <;> rw [hk] <;> decide)] at h
  obtain ⟨mid0, hmid0, h⟩ := except_bind_ok h
  rw [hargs] at hmid0
  have hmid0eq : mid0 = dictGet d "materia_id" := by
    simp only [Value.get, Except.ok.injEq] at hmid0
    exact hmid0.symm
  subst hmid0eq
  obtain ⟨mid, hmid, h⟩ := except_bind_ok h
  unfold checkMateriaResolve at hmid
  rw [if_neg (by simp [htruthy])] at hmid
  have hmideq : mid = dictGet d "materia_id" := by
    simp only [pure, Except.pure, Except.ok.injEq] at hmid
    exact hmid.symm
  subst hmideq
  obtain ⟨title, htitle, h⟩ := except_bind_ok h
  rw [if_neg (by simp [htruthy, hget])] at h
  simp only [pure, Except.pure, Except.ok.injEq, Prod.mk.injEq] at h
  refine ⟨by rw [← h.1], by rw [← h.1], [("materia_id", dictGet d "materia_id")], m,
    by rw [← h.1], ?_, howner⟩
  have hkey : dictGet [("materia_id", dictGet d "materia_id")] "materia_id" =
      dictGet d "materia_id" := by
    simp [dictGet]
  rw [hkey]
  exact hget

/-- Every checked action of the step-2 loop comes from checking one of the
input actions. -/
theorem checkActions_mem_rev (db : DB) (uid : Nat) (l : List PlannedAction)
    (checked : List PlannedAction) (ls : List String)
    (h : checkActions db uid l = .ok (checked, ls)) :
    ∀ a' ∈ checked, ∃ a ∈ l, ∃ ls', checkAction db uid a = .ok (a', ls') := by
  induction l generalizing checked ls with
  | nil =>
      simp only [checkActions, Except.ok.injEq, Prod.mk.injEq] at h
      intro a' ha'
      rw [← h.1] at ha'
      simp at ha'
  | cons b rest ih =>
      simp only [checkActions] at h
      obtain ⟨p, hp, h⟩ := except_bind_ok h
      obtain ⟨b1, lines1⟩ := p
      obtain ⟨q, hq, h⟩ := except_bind_ok h
      obtain ⟨ras, rlines⟩ := q
      simp only [pure, Except.pure, Except.ok.injEq, Prod.mk.injEq] at h
      intro a' ha'
      rw [← h.1] at ha'
      rcases List.mem_cons.mp ha' with rfl | ha'
      · exact ⟨b, List.mem_cons_self b rest, lines1, hp⟩
      · obtain ⟨a, hal, ls', hca⟩ := ih ras rlines hq a' ha'
        exact ⟨a, List.mem_cons_of_mem _ hal, ls', hca⟩

/-- Every input action of the step-2 loop yields exactly one checked action
in the output. -/
theorem checkActions_mem_fwd (db : DB) (uid : Nat) (l : List PlannedAction)
    (checked : List PlannedAction) (ls : List String)
    (h : checkActions db uid l = .ok (checked, ls)) :
    ∀ a ∈ l, ∃ a' ls', checkAction db uid a = .ok (a', ls') ∧ a' ∈ checked := by
  induction l generalizing checked ls with
  | nil => intro a ha; simp at ha
  | cons b rest ih =>
      simp only [checkActions] at h
      obtain ⟨p, hp, h⟩ := except_bind_ok h
      obtain ⟨b1, lines1⟩ := p
      obtain ⟨q, hq, h⟩ := except_bind_ok h
      obtain ⟨ras, rlines⟩ := q
      simp only [pure, Except.pure, Except.ok.injEq, Prod.mk.injEq] at h
      obtain ⟨hch, hls⟩ := h
      intro a ha
      rcases List.mem_cons.mp ha with rfl | ha
      · exact ⟨b1, lines1, hp, by rw [← hch]; exact List.mem_cons_self _ _⟩
      · obtain ⟨a', ls', hca, hmem⟩ := ih ras rlines hq a ha
        exact ⟨a', ls', hca, by rw [← hch]; exact List.mem_cons_of_mem _ hmem⟩

/-- Decomposition of a successful `plan_actions` run: the processing errors
are exactly the normalize loop's, the checked actions are the checker's
output on the normalized actions (empty when none were normalized), and
every processing error reappears as a bullet line of the summary. -/
theorem plan_actions_core_ok (db : DB) (uid : Nat) (calls : List Value)
    (checked : List PlannedAction) (perrs lines : List String)
    (h : plan_actions_core db uid calls = .ok (checked, perrs, lines)) :
    ∃ actions, planNormalize db uid calls 0 = .ok (actions, perrs) ∧
      ((actions = [] ∧ checked = []) ∨
       ∃ ls, checkActions db uid actions = .ok (checked, ls)) ∧
      ∀ e ∈ perrs, ("   • " ++ e) ∈ lines := by
  unfold plan_actions_core at h
  obtain ⟨p, hpn, h⟩ := except_bind_ok h
  obtain ⟨actions, perrs0⟩ := p
  dsimp only at h
  by_cases hemp : (actions.isEmpty && perrs0.isEmpty) = true
  · rw [if_pos hemp] at h
    simp only [pure, Except.pure, Except.ok.injEq, Prod.mk.injEq] at h
    obtain ⟨h1, h2, h3⟩ := h
    simp only [Bool.and_eq_true, List.isEmpty_iff] at hemp
    refine ⟨actions, ?_, Or.inl ⟨hemp.1, h1.symm⟩, ?_⟩
    · rw [hemp.2] at hpn
      rw [← h2]
      exact hpn
    · intro e he
      rw [← h2] at he
      simp at he
  · rw [if_neg hemp] at h
    obtain ⟨q, hcp, h⟩ := except_bind_ok h
    obtain ⟨checked0, actionLines⟩ := q
    dsimp only at h
    simp only [pure, Except.pure, Except.ok.injEq, Prod.mk.injEq] at h
    obtain ⟨h1, h2, h3⟩ := h
    subst h2
    refine ⟨actions, hpn, ?_, ?_⟩
    · unfold planCheckPhase at hcp
      by_cases hane : (!actions.isEmpty) = true
      · rw [if_pos hane] at hcp
        obtain ⟨r, hca, hcp⟩ := except_bind_ok hcp
        obtain ⟨c, l⟩ := r
        simp only [pure, Except.pure, Except.ok.injEq, Prod.mk.injEq] at hcp
        refine Or.inr ⟨l, ?_⟩
        rw [← h1, ← hcp.1]
        exact hca
      · rw [if_neg hane] at hcp
        simp only [pure, Except.pure, Except.ok.injEq, Prod.mk.injEq] at hcp
        have ha0 : actions.isEmpty = true := by
          revert hane
          cases actions.isEmpty <;> simp
        exact Or.inl ⟨List.isEmpty_iff.mp ha0, by rw [← h1, ← hcp.1]⟩
    · intro e he
      have hpne : (!perrs0.isEmpty) = true := by
        cases perrs0
        · simp at he
        · rfl
      rw [← h3, if_pos hpne]
      simp only [List.mem_append, List.mem_map]
      exact Or.inl (Or.inl (Or.inl (Or.inr ⟨e, he, rfl⟩)))

/-! ## The Executor loop. -/

/-- One result per action: the loop's result list has the input's length. -/
theorem execute_core_length (usuario_id : Nat) (actions : List PlannedAction)
    (db : DB) (i : Nat) :
    (execute_core usuario_id db actions i).2.1.length = actions.length := by
  induction actions generalizing db i with
  | nil => rfl
  | cons a rest ih =>
      simp only [execute_core]
      rcases hstep : execStep db usuario_id i a with ⟨db1, r, es⟩
      rcases hcore : execute_core usuario_id db1 rest (i + 1) with ⟨db2, rs, es2⟩
      have ihh := ih db1 (i + 1)
      rw [hcore] at ihh
      simp only [List.length_cons]
      rw [ihh]

/-- The loop processes a batch as the first part followed by the second on
the state the first left behind — no abort, no rollback. -/
theorem execute_core_append (usuario_id : Nat) (l1 l2 : List PlannedAction)
    (db db1 db2 : DB) (i : Nat) (rs1 rs2 : List Value) (es1 es2 : List String)
    (h1 : execute_core usuario_id db l1 i = (db1, rs1, es1))
    (h2 : execute_core usuario_id db1 l2 (i + l1.length) = (db2, rs2, es2)) :
    execute_core usuario_id db (l1 ++ l2) i = (db2, rs1 ++ rs2, es1 ++ es2) := by
  induction l1 generalizing db i rs1 es1 with
  | nil =>
      simp only [execute_core, Prod.mk.injEq] at h1
      obtain ⟨hdb, hrs, hes⟩ := h1
      subst hdb
      rw [← hrs, ← hes]
      simp only [List.nil_append, List.length_nil, Nat.add_zero] at h2 ⊢
      exact h2
  | cons a rest ih =>
      simp only [execute_core] at h1 ⊢
      rcases hstep : execStep db usuario_id i a with ⟨dbs, r, es⟩
      rw [hstep] at h1
      rcases hcore : execute_core usuario_id dbs rest (i + 1) with ⟨dbr, rr, er⟩
      rw [hcore] at h1
      simp only [Prod.mk.injEq] at h1
      obtain ⟨hdb, hrs, hes⟩ := h1
      subst hdb
      have h2' : execute_core usuario_id dbr l2 (i + 1 + rest.length) = (db2, rs2, es2) := by
        rw [show i + 1 + rest.length = i + (a :: rest).length by
          simp [List.length_cons]; omega]
        exact h2
      have hrec : execute_core usuario_id dbs (rest.append l2) (i + 1) =
          (db2, rr ++ rs2, er ++ es2) := ih dbs (i + 1) rr er hcore h2'
      dsimp only
      rw [hrec]
      rw [← hrs, ← hes]
      simp

/-- An action the plan did not allow is skipped: the database is untouched
and the result records the stored conflict reason. -/
theorem execStep_skipped (db : DB) (usuario_id i : Nat) (a : PlannedAction)
    (h : a.allowTruthy = false) :
    execStep db usuario_id i a =
      (db, Value.vdict [("kind", a.kind), ("status", Value.vstr "skipped"),
                        ("reason", a.conflict.getD (Value.vstr "no permitida")),
                        ("description", a.description)],
       ["Acción " ++ toString (i + 1) ++ " (" ++ a.kind.pyStr ++ "): no permitida - " ++
        (a.conflict.getD (Value.vstr "sin razón específica")).pyStr]) := by
  unfold execStep
  rw [if_pos (by rw [h]; rfl)]

/-- An allowed action whose dispatch raises yields an error result carrying
the exception message and the action's description; the database is the one
from before the action. -/
theorem execStep_error (db : DB) (usuario_id i : Nat) (a : PlannedAction) (e : PyErr)
    (h : a.allowTruthy = true) (hd : execDispatch db usuario_id i a = .error e) :
    execStep db usuario_id i a =
      (db, Value.vdict [("kind", a.kind), ("status", Value.vstr "error"),
                        ("error", Value.vstr e.pyStr), ("description", a.description)],
       ["Acción " ++ toString (i + 1) ++ " (" ++ a.kind.pyStr ++ "): " ++ e.pyStr]) := by
  unfold execStep
  rw [if_neg (by rw [h]; simp), hd]

/-- `execute_actions` returns exactly the loop's per-action results, plus
one trailing summary record when more than one action was submitted. -/
theorem execute_actions_results (db : DB) (usuario_id : Nat)
    (actions : List PlannedAction) :
    (actions.length ≤ 1 →
      (execute_actions db usuario_id actions).2 =
        (execute_core usuario_id db actions 0).2.1) ∧
    (actions.length > 1 →
      ∃ s, (execute_actions db usuario_id actions).2 =
          (execute_core usuario_id db actions 0).2.1 ++ [s] ∧
        resultStatus s = Value.vstr "summary") := by
  unfold execute_actions
  rcases hcore : execute_core usuario_id db actions 0 with ⟨db1, rs, es⟩
  dsimp only
  constructor
  · intro hle
    rw [if_neg (by omega)]
  · intro hgt
    rw [if_pos hgt]
    exact ⟨_, rfl, by rfl⟩

/-! ## Ownership isolation: how each domain-service operation moves the
database. -/

theorem getMateriaV_some (db : DB) (v : Value) (m : Materia)
    (h : db.getMateriaV v = some m) : m ∈ db.materias :=
  List.mem_of_find?_eq_some h

theorem getEventoV_some (db : DB) (v : Value) (e : Evento)
    (h : db.getEventoV v = some e) : e ∈ db.eventos :=
  List.mem_of_find?_eq_some h

theorem getMateria_some (db : DB) (n : Nat) (m : Materia)
    (h : db.getMateria n = some m) : m ∈ db.materias ∧ m.materia_id = n := by
  refine ⟨List.mem_of_find?_eq_some h, ?_⟩
  have := List.find?_some h
  simpa using this

theorem subscript_ok_dictGet (d : List (String × Value)) (k : String) (v : Value)
    (h : Value.subscript (Value.vdict d) k = .ok v) : dictGet d k = v := by
  unfold Value.subscript at h
  dsimp only at h
  unfold dictGet
  rcases hf : List.find? (fun kv => kv.1 == k) d with _ | kv
  · rw [hf] at h
    exact Except.noConfusion h
  · rw [hf] at h
    injection h with h
    rw [hf]
    exact h

theorem get_materia_autorizada_ok (db : DB) (v : Value) (uid : Nat) (m : Materia)
    (h : _get_materia_autorizada db v uid = .ok m) :
    db.getMateriaV v = some m ∧ m.materia_usuario_id = uid := by
  unfold _get_materia_autorizada at h
  rcases hg : db.getMateriaV v with _ | m0
  · rw [hg] at h
    exact Except.noConfusion h
  · rw [hg] at h
    dsimp only at h
    by_cases ho : (m0.materia_usuario_id != uid) = true
    · rw [if_pos ho] at h
      exact Except.noConfusion h
    · rw [if_neg ho] at h
      have hm : m0 = m := by injection h
      subst hm
      rw [Bool.not_eq_true, bne_eq_false_iff_eq] at ho
      exact ⟨rfl, ho⟩

theorem assert_materia_propia_ok (db : DB) (v : Value) (uid : Nat) (m : Materia)
    (h : _assert_materia_propia db v uid = .ok m) :
    db.getMateriaV v = some m ∧ m.materia_usuario_id = uid := by
  unfold _assert_materia_propia at h
  rcases hg : db.getMateriaV v with _ | m0
  · rw [hg] at h
    exact Except.noConfusion h
  · rw [hg] at h
    dsimp only at h
    by_cases ho : (m0.materia_usuario_id != uid) = true
    · rw [if_pos ho] at h
      exact Except.noConfusion h
    · rw [if_neg ho] at h
      have hm : m0 = m := by injection h
      subst hm
      rw [Bool.not_eq_true, bne_eq_false_iff_eq] at ho
      exact ⟨rfl, ho⟩

theorem get_evento_autorizado_ok (db : DB) (v : Value) (uid : Nat) (ev : Evento)
    (h : _get_evento_autorizado db v uid = .ok ev) :
    db.getEventoV v = some ev ∧
    ∃ mp, db.getMateria ev.evento_materia_id = some mp ∧
      mp.materia_usuario_id = uid := by
  unfold _get_evento_autorizado at h
  rcases hg : db.getEventoV v with _ | e0
  · rw [hg] at h
    exact Except.noConfusion h
  · rw [hg] at h
    dsimp only at h
    rcases hm : db.getMateria e0.evento_materia_id with _ | mp
    · rw [hm] at h
      exact Except.noConfusion h
    · rw [hm] at h
      dsimp only at h
      by_cases ho : (mp.materia_usuario_id != uid) = true
      · rw [if_pos ho] at h
        exact Except.noConfusion h
      · rw [if_neg ho] at h
        have he : e0 = ev := by injection h
        subst he
        rw [Bool.not_eq_true, bne_eq_false_iff_eq] at ho
        exact ⟨rfl, mp, hm, ho⟩

/-- What a successful `create_subject` does: appends one subject owned by
the caller under the fresh id, touching nothing else. -/
theorem create_subject_ok (db : DB) (uid : Nat) (p : MateriaCreate)
    (db' : DB) (m : Materia)
    (h : create_subject db uid p = .ok (db', m)) :
    db'.materias = db.materias ++ [m] ∧ db'.eventos = db.eventos ∧
    db'.next_materia_id = db.next_materia_id + 1 ∧
    db'.next_evento_id = db.next_evento_id ∧
    m.materia_id = db.next_materia_id ∧ m.materia_usuario_id = uid := by
  unfold create_subject at h
  obtain ⟨r, hr, h⟩ := except_bind_ok h
  rcases r with _ | m0
  · dsimp only at h
    simp only [pure, Except.pure, Except.ok.injEq, Prod.mk.injEq] at h
    obtain ⟨hdb, hm⟩ := h
    subst hm
    rw [← hdb]
    exact ⟨rfl, rfl, rfl, rfl, rfl, rfl⟩
  · dsimp only at h
    exact Except.noConfusion h

/-- What a successful `update_subject` does: rewrites the caller's own
subject in place (same id, same owner), touching nothing else. -/
theorem update_subject_ok (db : DB) (uid : Nat) (mid : Value) (p : MateriaUpdate)
    (db' : DB) (m : Materia)
    (h : update_subject db uid mid p = .ok (db', m)) :
    ∃ m0, db.getMateriaV mid = some m0 ∧ m0.materia_usuario_id = uid ∧
      m.materia_id = m0.materia_id ∧ m.materia_usuario_id = uid ∧
      db'.materias = db.materias.map (fun x =>
        if x.materia_id == m.materia_id then m else x) ∧
      db'.eventos = db.eventos ∧
      db'.next_materia_id = db.next_materia_id ∧
      db'.next_evento_id = db.next_evento_id := by
  unfold update_subject at h
  obtain ⟨m0, hm0, h⟩ := except_bind_ok h
  obtain ⟨hget, howner⟩ := get_materia_autorizada_ok db mid uid m0 hm0
  obtain ⟨m1, hm1, h⟩ := except_bind_ok h
  have hfields : m1.materia_id = m0.materia_id ∧ m1.materia_usuario_id = uid := by
    unfold subjectNombreStep at hm1
    rcases hn : p.materia_nombre with _ | nv <;> rw [hn] at hm1
    · simp only [pure, Except.pure, Except.ok.injEq] at hm1
      rw [← hm1]
      exact ⟨rfl, howner⟩
    · dsimp only at hm1
      by_cases ht : optStrTruthy nv = true
      · rw [if_pos ht] at hm1
        obtain ⟨r, hrr, hm1⟩ := except_bind_ok hm1
        rcases r with _ | mdup
        · dsimp only at hm1
          simp only [pure, Except.pure, Except.ok.injEq] at hm1
          rw [← hm1]
          exact ⟨rfl, howner⟩
        · dsimp only at hm1
          exact Except.noConfusion hm1
      · rw [if_neg ht] at hm1
        simp only [pure, Except.pure, Except.ok.injEq] at hm1
        rw [← hm1]
        exact ⟨rfl, howner⟩
  rcases hdv : p.materia_descripcion with _ | dv <;> rw [hdv] at h <;> dsimp only at h
  · simp only [pure, Except.pure, Except.ok.injEq, Prod.mk.injEq] at h
    obtain ⟨hdb, hm2⟩ := h
    subst hm2
    refine ⟨m0, hget, howner, hfields.1, hfields.2, ?_, ?_, ?_, ?_⟩ <;> rw [← hdb]
  · simp only [pure, Except.pure, Except.ok.injEq, Prod.mk.injEq] at h
    obtain ⟨hdb, hm2⟩ := h
    subst hm2
    refine ⟨m0, hget, howner, hfields.1, hfields.2, ?_, ?_, ?_, ?_⟩ <;> rw [← hdb]

/-- What a successful `delete_subject` does: removes the caller's own
subject and (cascade) exactly its events, touching nothing else. -/
theorem delete_subject_ok (db : DB) (uid : Nat) (mid : Value) (db' : DB)
    (h : delete_subject db uid mid = .ok db') :
    ∃ m0, db.getMateriaV mid = some m0 ∧ m0.materia_usuario_id = uid ∧
      db'.materias = db.materias.filter (fun x => x.materia_id != m0.materia_id) ∧
      db'.eventos = db.eventos.filter (fun e => e.evento_materia_id != m0.materia_id) ∧
      db'.next_materia_id = db.next_materia_id ∧
      db'.next_evento_id = db.next_evento_id := by
  unfold delete_subject at h
  obtain ⟨m0, hm0, h⟩ := except_bind_ok h
  obtain ⟨hget, howner⟩ := get_materia_autorizada_ok db mid uid m0 hm0
  simp only [pure, Except.pure, Except.ok.injEq] at h
  refine ⟨m0, hget, howner, ?_, ?_, ?_, ?_⟩ <;> rw [← h]

/-- What a successful `create_event` does: appends one event under the
fresh id to a subject the caller owns, touching nothing else. -/
theorem create_event_ok (db : DB) (uid : Nat) (p : EventoCreate)
    (db' : DB) (ev : Evento)
    (h : create_event db uid p = .ok (db', ev)) :
    (∃ mp, db.getMateriaV (Value.vint p.evento_materia_id) = some mp ∧
      mp.materia_usuario_id = uid) ∧
    db'.materias = db.materias ∧ db'.eventos = db.eventos ++ [ev] ∧
    db'.next_materia_id = db.next_materia_id ∧
    db'.next_evento_id = db.next_evento_id + 1 ∧
    ev.evento_id = db.next_evento_id ∧ ev.evento_materia_id = p.evento_materia_id := by
  unfold create_event at h
  obtain ⟨mp, hmp, h⟩ := except_bind_ok h
  obtain ⟨hget, howner⟩ := assert_materia_propia_ok db _ uid mp hmp
  dsimp only at h
  simp only [pure, Except.pure, Except.ok.injEq, Prod.mk.injEq] at h
  obtain ⟨hdb, hev⟩ := h
  subst hev
  rw [← hdb]
  exact ⟨⟨mp, hget, howner⟩, rfl, rfl, rfl, rfl, rfl, rfl⟩

/-- What a successful `update_event` does: rewrites one event of a subject
the caller owns in place (same id, same subject), touching nothing else. -/
theorem update_event_ok (db : DB) (uid : Nat) (evid : Value) (p : EventoUpdate)
    (db' : DB) (ev : Evento)
    (h : update_event db uid evid p = .ok (db', ev)) :
    ∃ e0, db.getEventoV evid = some e0 ∧
      (∃ mp, db.getMateria e0.evento_materia_id = some mp ∧
        mp.materia_usuario_id = uid) ∧
      ev.evento_id = e0.evento_id ∧ ev.evento_materia_id = e0.evento_materia_id ∧
      db'.eventos = db.eventos.map (fun x =>
        if x.evento_id == ev.evento_id then ev else x) ∧
      db'.materias = db.materias ∧
      db'.next_materia_id = db.next_materia_id ∧
      db'.next_evento_id = db.next_evento_id := by
  unfold update_event at h
  obtain ⟨e0, he0, h⟩ := except_bind_ok h
  obtain ⟨hget, hmp⟩ := get_evento_autorizado_ok db evid uid e0 he0
  obtain ⟨e1, he1, h⟩ := except_bind_ok h
  have hf1 : e1.evento_id = e0.evento_id ∧ e1.evento_materia_id = e0.evento_materia_id := by
    unfold eventoNombreStep at he1
    rcases hn : p.evento_nombre with _ | (_ | s) <;> rw [hn] at he1
    · simp only [pure, Except.pure, Except.ok.injEq] at he1
      rw [← he1]
      exact ⟨rfl, rfl⟩
    · exact Except.noConfusion he1
    · simp only [pure, Except.pure, Except.ok.injEq] at he1
      rw [← he1]
      exact ⟨rfl, rfl⟩
  dsimp only at h
  obtain ⟨e3, he3, h⟩ := except_bind_ok h
  have hf2 : e3.evento_id = e1.evento_id ∧ e3.evento_materia_id = e1.evento_materia_id := by
    unfold eventoFechaStep at he3
    rcases hdd : p.evento_descripcion with _ | dv <;> rw [hdd] at he3 <;>
      dsimp only at he3 <;>
      rcases hfc : p.evento_fecha with _ | (_ | f) <;> rw [hfc] at he3
    · simp only [pure, Except.pure, Except.ok.injEq] at he3
      rw [← he3]
      exact ⟨rfl, rfl⟩
    · exact Except.noConfusion he3
    · simp only [pure, Except.pure, Except.ok.injEq] at he3
      rw [← he3]
      exact ⟨rfl, rfl⟩
    · simp only [pure, Except.pure, Except.ok.injEq] at he3
      rw [← he3]
      exact ⟨rfl, rfl⟩
    · exact Except.noConfusion he3
    · simp only [pure, Except.pure, Except.ok.injEq] at he3
      rw [← he3]
      exact ⟨rfl, rfl⟩
  obtain ⟨e4, he4, h⟩ := except_bind_ok h
  have hf3 : e4.evento_id = e3.evento_id ∧ e4.evento_materia_id = e3.evento_materia_id := by
    unfold eventoEstadoStep at he4
    rcases hst : p.evento_estado with _ | (_ | st) <;> rw [hst] at he4
    · simp only [pure, Except.pure, Except.ok.injEq] at he4
      rw [← he4]
      exact ⟨rfl, rfl⟩
    · exact Except.noConfusion he4
    · simp only [pure, Except.pure, Except.ok.injEq] at he4
      rw [← he4]
      exact ⟨rfl, rfl⟩
  simp only [pure, Except.pure, Except.ok.injEq, Prod.mk.injEq] at h
  obtain ⟨hdb, hev⟩ := h
  subst hev
  refine ⟨e0, hget, hmp, hf3.1.trans (hf2.1.trans hf1.1),
    hf3.2.trans (hf2.2.trans hf1.2), ?_, ?_, ?_, ?_⟩ <;> rw [← hdb]

/-- What a successful `delete_event` does: removes one event of a subject
the caller owns, touching nothing else. -/
theorem delete_event_ok (db : DB) (uid : Nat) (evid : Value) (db' : DB)
    (h : delete_event db uid evid = .ok db') :
    ∃ e0, db.getEventoV evid = some e0 ∧
      (∃ mp, db.getMateria e0.evento_materia_id = some mp ∧
        mp.materia_usuario_id = uid) ∧
      db'.eventos = db.eventos.filter (fun e => e.evento_id != e0.evento_id) ∧
      db'.materias = db.materias ∧
      db'.next_materia_id = db.next_materia_id ∧
      db'.next_evento_id = db.next_evento_id := by
  unfold delete_event at h
  obtain ⟨e0, he0, h⟩ := except_bind_ok h
  obtain ⟨hget, hmp⟩ := get_evento_autorizado_ok db evid uid e0 he0
  simp only [pure, Except.pure, Except.ok.injEq] at h
  refine ⟨e0, hget, hmp, ?_, ?_, ?_, ?_⟩ <;> rw [← h]

/-- The isolation invariant between two database states, for a requesting
user: well-formedness holds at the target, every subject row of another
user survives exactly, and every event row all of whose subjects belong to
another user survives exactly — with its subjects still foreign. -/
def ForeignUntouched (uid : Nat) (db db' : DB) : Prop :=
  db'.ExecWF ∧
  (∀ m ∈ db.materias, m.materia_usuario_id ≠ uid → m ∈ db'.materias) ∧
  (∀ e ∈ db.eventos,
    (∀ mp ∈ db.materias, mp.materia_id = e.evento_materia_id →
      mp.materia_usuario_id ≠ uid) →
    e ∈ db'.eventos ∧
    ∀ mp ∈ db'.materias, mp.materia_id = e.evento_materia_id →
      mp.materia_usuario_id ≠ uid)

theorem ForeignUntouched.rfl (uid : Nat) (db : DB) (hwf : db.ExecWF) :
    ForeignUntouched uid db db :=
  ⟨hwf, fun m hm _ => hm, fun e he hpar => ⟨he, hpar⟩⟩

theorem ForeignUntouched.trans (uid : Nat) (db1 db2 db3 : DB)
    (h1 : ForeignUntouched uid db1 db2) (h2 : ForeignUntouched uid db2 db3) :
    ForeignUntouched uid db1 db3 := by
  refine ⟨h2.1, fun m hm hf => h2.2.1 m (h1.2.1 m hm hf) hf, fun e he hpar => ?_⟩
  obtain ⟨he2, hpar2⟩ := h1.2.2 e he hpar
  exact h2.2.2 e he2 hpar2

/-- Injectivity on members of a list whose image under a field is nodup. -/
theorem nodup_field_inj {α β : Type} (f : α → β) (l : List α)
    (h : (l.map f).Nodup) : ∀ x ∈ l, ∀ y ∈ l, f x = f y → x = y := by
  induction l with
  | nil => intro x hx; simp at hx
  | cons a t ih =>
      simp only [List.map_cons, List.nodup_cons] at h
      intro x hx y hy hf
      rcases List.mem_cons.mp hx with rfl | hx' <;>
        rcases List.mem_cons.mp hy with rfl | hy'
      · rfl
      · exact absurd (show f x ∈ t.map f by
          rw [hf]; exact List.mem_map_of_mem f hy') h.1
      · exact absurd (show f y ∈ t.map f by
          rw [← hf]; exact List.mem_map_of_mem f hx') h.1
      · exact ih h.2 x hx' y hy' hf

/-- `ExecWF` only looks at the four components. -/
theorem execWF_congr (db1 db2 : DB) (hm : db2.materias = db1.materias)
    (he : db2.eventos = db1.eventos)
    (hnm : db2.next_materia_id = db1.next_materia_id)
    (hne : db2.next_evento_id = db1.next_evento_id)
    (h : db1.ExecWF) : db2.ExecWF := by
  cases db1
  cases db2
  dsimp only at hm he hnm hne
  subst hm he hnm hne
  exact h

/-- Inserting a subject under the autoincrement id keeps the invariants. -/
theorem execWF_create_materia (db : DB) (hwf : db.ExecWF) (m : Materia)
    (hid : m.materia_id = db.next_materia_id) :
    DB.ExecWF { db with materias := db.materias ++ [m],
                        next_materia_id := db.next_materia_id + 1 } := by
  refine ⟨by show 1 ≤ db.next_materia_id + 1; omega, hwf.next_evento_pos, ?_,
    hwf.evento_id_pos, ?_, ?_, ?_, hwf.evento_nodup, ?_⟩
  · intro m' hm'
    rcases List.mem_append.mp hm' with hm' | hm'
    · exact hwf.materia_id_pos m' hm'
    · rw [List.mem_singleton.mp hm', hid]
      exact hwf.next_materia_pos
  · intro m' hm'
    show m'.materia_id < db.next_materia_id + 1
    rcases List.mem_append.mp hm' with hm' | hm'
    · have := hwf.materia_id_lt m' hm'
      omega
    · rw [List.mem_singleton.mp hm', hid]
      omega
  · intro e he
    exact hwf.evento_id_lt e he
  · rw [List.map_append]
    rw [List.nodup_append]
    refine ⟨hwf.materia_nodup, List.nodup_singleton _, ?_⟩
    intro x hx hx1
    obtain ⟨m1, hm1, hm1x⟩ := List.mem_map.mp hx
    simp only [List.map_cons, List.map_nil, List.mem_singleton] at hx1
    have := hwf.materia_id_lt m1 hm1
    omega
  · intro e he
    obtain ⟨mp, hmp, hmpid⟩ := hwf.evento_fk e he
    exact ⟨mp, List.mem_append_left _ hmp, hmpid⟩

/-- Inserting an event under the autoincrement id, with its subject
present, keeps the invariants. -/
theorem execWF_create_evento (db : DB) (hwf : db.ExecWF) (ev : Evento)
    (hid : ev.evento_id = db.next_evento_id)
    (hpar : ∃ mp ∈ db.materias, mp.materia_id = ev.evento_materia_id) :
    DB.ExecWF { db with eventos := db.eventos ++ [ev],
                        next_evento_id := db.next_evento_id + 1 } := by
  refine ⟨hwf.next_materia_pos, by show 1 ≤ db.next_evento_id + 1; omega,
    hwf.materia_id_pos, ?_, hwf.materia_id_lt, ?_, hwf.materia_nodup, ?_, ?_⟩
  · intro e' he'
    rcases List.mem_append.mp he' with he' | he'
    · exact hwf.evento_id_pos e' he'
    · rw [List.mem_singleton.mp he', hid]
      exact hwf.next_evento_pos
  · intro e' he'
    show e'.evento_id < db.next_evento_id + 1
    rcases List.mem_append.mp he' with he' | he'
    · have := hwf.evento_id_lt e' he'
      omega
    · rw [List.mem_singleton.mp he', hid]
      omega
  · rw [List.map_append]
    rw [List.nodup_append]
    refine ⟨hwf.evento_nodup, List.nodup_singleton _, ?_⟩
    intro x hx hx1
    obtain ⟨e1, he1, he1x⟩ := List.mem_map.mp hx
    simp only [List.map_cons, List.map_nil, List.mem_singleton] at hx1
    have := hwf.evento_id_lt e1 he1
    omega
  · intro e' he'
    rcases List.mem_append.mp he' with he' | he'
    · exact hwf.evento_fk e' he'
    · rw [List.mem_singleton.mp he']
      exact hpar

/-- Replacing one subject row by another with the same id keeps the
invariants. -/
theorem execWF_materias_map_replace (db : DB) (hwf : db.ExecWF) (m : Materia) :
    DB.ExecWF { db with materias := db.materias.map (fun x =>
      if x.materia_id == m.materia_id then m else x) } := by
  have hid : ∀ x : Materia,
      ((fun x => if x.materia_id == m.materia_id then m else x) x).materia_id =
        x.materia_id := by
    intro x
    show (if x.materia_id == m.materia_id then m else x).materia_id = x.materia_id
    by_cases hx : (x.materia_id == m.materia_id) = true
    · rw [if_pos hx]
      exact (beq_iff_eq.mp hx).symm
    · rw [if_neg hx]
  have hmapid : (db.materias.map (fun x =>
      if x.materia_id == m.materia_id then m else x)).map Materia.materia_id =
      db.materias.map Materia.materia_id := by
    rw [List.map_map]
    exact List.map_congr_left (fun x _ => hid x)
  refine ⟨hwf.next_materia_pos, hwf.next_evento_pos, ?_, hwf.evento_id_pos, ?_,
    hwf.evento_id_lt, ?_, hwf.evento_nodup, ?_⟩
  · intro m' hm'
    obtain ⟨x, hx, hfx⟩ := List.mem_map.mp hm'
    rw [← hfx, hid x]
    exact hwf.materia_id_pos x hx
  · intro m' hm'
    obtain ⟨x, hx, hfx⟩ := List.mem_map.mp hm'
    rw [← hfx, hid x]
    exact hwf.materia_id_lt x hx
  · rw [hmapid]
    exact hwf.materia_nodup
  · intro e he
    obtain ⟨mp, hmp, hmpid⟩ := hwf.evento_fk e he
    refine ⟨_, List.mem_map_of_mem _ hmp, ?_⟩
    rw [hid mp]
    exact hmpid

/-- Replacing one event row by another with the same id and subject keeps
the invariants. -/
theorem execWF_eventos_map_replace (db : DB) (hwf : db.ExecWF) (ev : Evento)
    (hpar : ∃ mp ∈ db.materias, mp.materia_id = ev.evento_materia_id) :
    DB.ExecWF { db with eventos := db.eventos.map (fun x =>
      if x.evento_id == ev.evento_id then ev else x) } := by
  have hid : ∀ x : Evento,
      ((fun x => if x.evento_id == ev.evento_id then ev else x) x).evento_id =
        x.evento_id := by
    intro x
    show (if x.evento_id == ev.evento_id then ev else x).evento_id = x.evento_id
    by_cases hx : (x.evento_id == ev.evento_id) = true
    · rw [if_pos hx]
      exact (beq_iff_eq.mp hx).symm
    · rw [if_neg hx]
  have hmapid : (db.eventos.map (fun x =>
      if x.evento_id == ev.evento_id then ev else x)).map Evento.evento_id =
      db.eventos.map Evento.evento_id := by
    rw [List.map_map]
    exact List.map_congr_left (fun x _ => hid x)
  refine ⟨hwf.next_materia_pos, hwf.next_evento_pos, hwf.materia_id_pos, ?_,
    hwf.materia_id_lt, ?_, hwf.materia_nodup, ?_, ?_⟩
  · intro e' he'
    obtain ⟨x, hx, hfx⟩ := List.mem_map.mp he'
    rw [← hfx, hid x]
    exact hwf.evento_id_pos x hx
  · intro e' he'
    obtain ⟨x, hx, hfx⟩ := List.mem_map.mp he'
    rw [← hfx, hid x]
    exact hwf.evento_id_lt x hx
  · rw [hmapid]
    exact hwf.evento_nodup
  · intro e' he'
    obtain ⟨x, hx, hfx⟩ := List.mem_map.mp he'
    rw [← hfx]
    by_cases hc : (x.evento_id == ev.evento_id) = true
    · rw [if_pos hc]
      exact hpar
    · rw [if_neg hc]
      exact hwf.evento_fk x hx

/-- Deleting one subject together with exactly its events keeps the
invariants. -/
theorem execWF_delete_materia (db : DB) (hwf : db.ExecWF) (mid : Nat) :
    DB.ExecWF { db with
      materias := db.materias.filter (fun x => x.materia_id != mid),
      eventos := db.eventos.filter (fun e => e.evento_materia_id != mid) } := by
  refine ⟨hwf.next_materia_pos, hwf.next_evento_pos, ?_, ?_, ?_, ?_, ?_, ?_, ?_⟩
  · intro m' hm'
    exact hwf.materia_id_pos m' (List.mem_of_mem_filter hm')
  · intro e' he'
    exact hwf.evento_id_pos e' (List.mem_of_mem_filter he')
  · intro m' hm'
    exact hwf.materia_id_lt m' (List.mem_of_mem_filter hm')
  · intro e' he'
    exact hwf.evento_id_lt e' (List.mem_of_mem_filter he')
  · exact List.Nodup.sublist ((List.filter_sublist _).map _) hwf.materia_nodup
  · exact List.Nodup.sublist ((List.filter_sublist _).map _) hwf.evento_nodup
  · intro e he
    have hmem := List.mem_of_mem_filter he
    have hpe := List.of_mem_filter he
    obtain ⟨mp, hmp, hmpid⟩ := hwf.evento_fk e hmem
    refine ⟨mp, List.mem_filter.mpr ⟨hmp, ?_⟩, hmpid⟩
    rw [bne_iff_ne] at hpe ⊢
    rw [hmpid]
    exact hpe

/-- Deleting one event keeps the invariants. -/
theorem execWF_delete_evento (db : DB) (hwf : db.ExecWF) (eid : Nat) :
    DB.ExecWF { db with
      eventos := db.eventos.filter (fun e => e.evento_id != eid) } := by
  refine ⟨hwf.next_materia_pos, hwf.next_evento_pos, hwf.materia_id_pos, ?_,
    hwf.materia_id_lt, ?_, hwf.materia_nodup, ?_, ?_⟩
  · intro e' he'
    exact hwf.evento_id_pos e' (List.mem_of_mem_filter he')
  · intro e' he'
    exact hwf.evento_id_lt e' (List.mem_of_mem_filter he')
  · exact List.Nodup.sublist ((List.filter_sublist _).map _) hwf.evento_nodup
  · intro e he
    exact hwf.evento_fk e (List.mem_of_mem_filter he)

theorem create_subject_foreign (db : DB) (uid : Nat) (p : MateriaCreate)
    (db' : DB) (m : Materia) (hwf : db.ExecWF)
    (h : create_subject db uid p = .ok (db', m)) :
    ForeignUntouched uid db db' := by
  obtain ⟨hM, hE, hNM, hNE, hid, howner⟩ := create_subject_ok db uid p db' m h
  have hwf2 : db'.ExecWF :=
    execWF_congr
      { db with materias := db.materias ++ [m],
                next_materia_id := db.next_materia_id + 1 }
      db' hM hE hNM hNE (execWF_create_materia db hwf m hid)
  refine ⟨hwf2, ?_, ?_⟩
  · intro m' hm' hf
    rw [hM]
    exact List.mem_append_left _ hm'
  · intro e he hpar
    refine ⟨by rw [hE]; exact he, ?_⟩
    intro mp hmp hmpid
    rw [hM] at hmp
    rcases List.mem_append.mp hmp with hmp | hmp
    · exact hpar mp hmp hmpid
    · exfalso
      rw [List.mem_singleton.mp hmp, hid] at hmpid
      obtain ⟨mp0, hmp0, hmp0id⟩ := hwf.evento_fk e he
      have hlt := hwf.materia_id_lt mp0 hmp0
      omega

theorem update_subject_foreign (db : DB) (uid : Nat) (mid : Value)
    (p : MateriaUpdate) (db' : DB) (m : Materia) (hwf : db.ExecWF)
    (h : update_subject db uid mid p = .ok (db', m)) :
    ForeignUntouched uid db db' := by
  obtain ⟨m0, hget, howner0, hidm, howner, hM, hE, hNM, hNE⟩ :=
    update_subject_ok db uid mid p db' m h
  have hm0mem := getMateriaV_some db mid m0 hget
  refine ⟨execWF_congr { db with materias := db.materias.map (fun x =>
      if x.materia_id == m.materia_id then m else x) } db' hM hE hNM hNE
      (execWF_materias_map_replace db hwf m), ?_, ?_⟩
  · intro m' hm' hf
    rw [hM]
    have hne : (m'.materia_id == m.materia_id) = false := by
      rw [beq_eq_false_iff_ne]
      intro hcon
      have heq : m' = m0 := nodup_field_inj Materia.materia_id db.materias
        hwf.materia_nodup m' hm' m0 hm0mem (by rw [hcon, hidm])
      rw [heq] at hf
      exact hf howner0
    have hfm : (fun x => if x.materia_id == m.materia_id then m else x) m' = m' := by
      show (if m'.materia_id == m.materia_id then m else m') = m'
      rw [hne]
      simp
    rw [← hfm]
    exact List.mem_map_of_mem _ hm'
  · intro e he hpar
    refine ⟨by rw [hE]; exact he, ?_⟩
    intro mp hmp hmpid
    rw [hM] at hmp
    obtain ⟨x, hx, hfx⟩ := List.mem_map.mp hmp
    have hfx' : (if x.materia_id == m.materia_id then m else x) = mp := hfx
    by_cases hc : (x.materia_id == m.materia_id) = true
    · exfalso
      rw [if_pos hc] at hfx'
      rw [← hfx', hidm] at hmpid
      exact hpar m0 hm0mem hmpid howner0
    · rw [if_neg hc] at hfx'
      rw [← hfx'] at hmpid ⊢
      exact hpar x hx hmpid

theorem delete_subject_foreign (db : DB) (uid : Nat) (mid : Value) (db' : DB)
    (hwf : db.ExecWF) (h : delete_subject db uid mid = .ok db') :
    ForeignUntouched uid db db' := by
  obtain ⟨m0, hget, howner0, hM, hE, hNM, hNE⟩ := delete_subject_ok db uid mid db' h
  have hm0mem := getMateriaV_some db mid m0 hget
  have hwf2 : db'.ExecWF :=
    execWF_congr
      { db with materias := db.materias.filter (fun x => x.materia_id != m0.materia_id),
                eventos := db.eventos.filter (fun e => e.evento_materia_id != m0.materia_id) }
      db' hM hE hNM hNE (execWF_delete_materia db hwf m0.materia_id)
  refine ⟨hwf2, ?_, ?_⟩
  · intro m' hm' hf
    rw [hM]
    refine List.mem_filter.mpr ⟨hm', ?_⟩
    show (m'.materia_id != m0.materia_id) = true
    rw [bne_iff_ne]
    intro hcon
    have heq : m' = m0 := nodup_field_inj Materia.materia_id db.materias
      hwf.materia_nodup m' hm' m0 hm0mem hcon
    rw [heq] at hf
    exact hf howner0
  · intro e he hpar
    constructor
    · rw [hE]
      refine List.mem_filter.mpr ⟨he, ?_⟩
      show (e.evento_materia_id != m0.materia_id) = true
      rw [bne_iff_ne]
      intro hcon
      exact hpar m0 hm0mem hcon.symm howner0
    · intro mp hmp hmpid
      rw [hM] at hmp
      exact hpar mp (List.mem_of_mem_filter hmp) hmpid

theorem create_event_foreign (db : DB) (uid : Nat) (p : EventoCreate)
    (db' : DB) (ev : Evento) (hwf : db.ExecWF)
    (h : create_event db uid p = .ok (db', ev)) :
    ForeignUntouched uid db db' := by
  obtain ⟨⟨mp, hmp, howner⟩, hM, hE, hNM, hNE, hid, hmid⟩ :=
    create_event_ok db uid p db' ev h
  have hfind := hmp
  unfold DB.getMateriaV at hfind
  have hval := List.find?_some hfind
  have hmem := List.mem_of_find?_eq_some hfind
  have hmpid : mp.materia_id = p.evento_materia_id := by
    simp only [valueEqId, beq_iff_eq] at hval
    exact_mod_cast hval.symm
  have hwf2 : db'.ExecWF :=
    execWF_congr
      { db with eventos := db.eventos ++ [ev],
                next_evento_id := db.next_evento_id + 1 }
      db' hM hE hNM hNE
      (execWF_create_evento db hwf ev hid ⟨mp, hmem, by rw [hmpid, hmid]⟩)
  refine ⟨hwf2, ?_, ?_⟩
  · intro m' hm' hf
    rw [hM]
    exact hm'
  · intro e he hpar
    refine ⟨by rw [hE]; exact List.mem_append_left _ he, ?_⟩
    intro mq hmq hmqid
    rw [hM] at hmq
    exact hpar mq hmq hmqid

theorem update_event_foreign (db : DB) (uid : Nat) (evid : Value)
    (p : EventoUpdate) (db' : DB) (ev : Evento) (hwf : db.ExecWF)
    (h : update_event db uid evid p = .ok (db', ev)) :
    ForeignUntouched uid db db' := by
  obtain ⟨e0, hget, ⟨mp, hmp, howner⟩, hid, hmid, hE, hM, hNM, hNE⟩ :=
    update_event_ok db uid evid p db' ev h
  have he0mem := getEventoV_some db evid e0 hget
  obtain ⟨hmpmem, hmpid⟩ := getMateria_some db _ mp hmp
  refine ⟨execWF_congr { db with eventos := db.eventos.map (fun x =>
      if x.evento_id == ev.evento_id then ev else x) } db' hM hE hNM hNE
      (execWF_eventos_map_replace db hwf ev ⟨mp, hmpmem, by rw [hmpid, hmid]⟩),
    ?_, ?_⟩
  · intro m' hm' hf
    rw [hM]
    exact hm'
  · intro e he hpar
    constructor
    · rw [hE]
      have hne : (e.evento_id == ev.evento_id) = false := by
        rw [beq_eq_false_iff_ne]
        intro hcon
        have heq : e = e0 := nodup_field_inj Evento.evento_id db.eventos
          hwf.evento_nodup e he e0 he0mem (by rw [hcon, hid])
        exact hpar mp hmpmem (by rw [hmpid, heq]) howner
      have hfe : (fun x => if x.evento_id == ev.evento_id then ev else x) e = e := by
        show (if e.evento_id == ev.evento_id then ev else e) = e
        rw [hne]
        simp
      rw [← hfe]
      exact List.mem_map_of_mem _ he
    · intro mq hmq hmqid
      rw [hM] at hmq
      exact hpar mq hmq hmqid

theorem delete_event_foreign (db : DB) (uid : Nat) (evid : Value) (db' : DB)
    (hwf : db.ExecWF) (h : delete_event db uid evid = .ok db') :
    ForeignUntouched uid db db' := by
  obtain ⟨e0, hget, ⟨mp, hmp, howner⟩, hE, hM, hNM, hNE⟩ :=
    delete_event_ok db uid evid db' h
  have he0mem := getEventoV_some db evid e0 hget
  obtain ⟨hmpmem, hmpid⟩ := getMateria_some db _ mp hmp
  refine ⟨execWF_congr { db with
      eventos := db.eventos.filter (fun e => e.evento_id != e0.evento_id) }
      db' hM hE hNM hNE (execWF_delete_evento db hwf e0.evento_id), ?_, ?_⟩
  · intro m' hm' hf
    rw [hM]
    exact hm'
  · intro e he hpar
    refine ⟨?_, ?_⟩
    · rw [hE]
      refine List.mem_filter.mpr ⟨he, ?_⟩
      show (e.evento_id != e0.evento_id) = true
      rw [bne_iff_ne]
      intro hcon
      have heq : e = e0 := nodup_field_inj Evento.evento_id db.eventos
        hwf.evento_nodup e he e0 he0mem hcon
      exact hpar mp hmpmem (by rw [hmpid, heq]) howner
    · intro mq hmq hmqid
      rw [hM] at hmq
      exact hpar mq hmq hmqid

/-- Whatever a successfully dispatched action did, it touched no foreign
rows: each branch goes through its domain service, and the unknown-kind
fallback changes nothing. -/
theorem execDispatch_preserves (db : DB) (uid i : Nat) (a : PlannedAction)
    (db' : DB) (res : Value) (es : List String) (hwf : db.ExecWF)
    (h : execDispatch db uid i a = .ok (db', res, es)) :
    ForeignUntouched uid db db' := by
  unfold execDispatch at h
  by_cases h1 : (a.kind == Value.vstr "create_materia") = true
  · rw [if_pos h1] at h
    obtain ⟨kwargs, hkw, h⟩ := except_bind_ok h
    obtain ⟨payload, hp, h⟩ := except_bind_ok h
    obtain ⟨r, hcs, h⟩ := except_bind_ok h
    obtain ⟨db1, m⟩ := r
    simp only [pure, Except.pure, Except.ok.injEq, Prod.mk.injEq] at h
    rw [← h.1]
    exact create_subject_foreign db uid payload db1 m hwf hcs
  · rw [if_neg h1] at h
    by_cases h2 : (a.kind == Value.vstr "update_materia") = true
    · rw [if_pos h2] at h
      obtain ⟨kwargs, hkw, h⟩ := except_bind_ok h
      obtain ⟨mid, hmid, h⟩ := except_bind_ok h
      obtain ⟨payload, hp, h⟩ := except_bind_ok h
      obtain ⟨r, hup, h⟩ := except_bind_ok h
      obtain ⟨db1, m⟩ := r
      simp only [pure, Except.pure, Except.ok.injEq, Prod.mk.injEq] at h
      rw [← h.1]
      exact update_subject_foreign db uid mid payload db1 m hwf hup
    · rw [if_neg h2] at h
      by_cases h3 : (a.kind == Value.vstr "delete_materia") = true
      · rw [if_pos h3] at h
        obtain ⟨mid, hmid, h⟩ := except_bind_ok h
        obtain ⟨db1, hds, h⟩ := except_bind_ok h
        simp only [pure, Except.pure, Except.ok.injEq, Prod.mk.injEq] at h
        rw [← h.1]
        exact delete_subject_foreign db uid mid db1 hwf hds
      · rw [if_neg h3] at h
        by_cases h4 : (a.kind == Value.vstr "create_evento") = true
        · rw [if_pos h4] at h
          obtain ⟨kwargs, hkw, h⟩ := except_bind_ok h
          obtain ⟨payload, hp, h⟩ := except_bind_ok h
          obtain ⟨r, hce, h⟩ := except_bind_ok h
          obtain ⟨db1, ev⟩ := r
          simp only [pure, Except.pure, Except.ok.injEq, Prod.mk.injEq] at h
          rw [← h.1]
          exact create_event_foreign db uid payload db1 ev hwf hce
        · rw [if_neg h4] at h
          by_cases h5 : (a.kind == Value.vstr "update_evento") = true
          · rw [if_pos h5] at h
            obtain ⟨kwargs, hkw, h⟩ := except_bind_ok h
            obtain ⟨evid, hevid, h⟩ := except_bind_ok h
            obtain ⟨payload, hp, h⟩ := except_bind_ok h
            obtain ⟨r, hue, h⟩ := except_bind_ok h
            obtain ⟨db1, ev⟩ := r
            simp only [pure, Except.pure, Except.ok.injEq, Prod.mk.injEq] at h
            rw [← h.1]
            exact update_event_foreign db uid evid payload db1 ev hwf hue
          · rw [if_neg h5] at h
            by_cases h6 : (a.kind == Value.vstr "delete_evento") = true
            · rw [if_pos h6] at h
              obtain ⟨evid, hevid, h⟩ := except_bind_ok h
              obtain ⟨db1, hde, h⟩ := except_bind_ok h
              simp only [pure, Except.pure, Except.ok.injEq, Prod.mk.injEq] at h
              rw [← h.1]
              exact delete_event_foreign db uid evid db1 hwf hde
            · rw [if_neg h6] at h
              simp only [Except.ok.injEq, Prod.mk.injEq] at h
              rw [← h.1]
              exact ForeignUntouched.rfl uid db hwf

/-- One executor step — skipped, failed, or dispatched — touches no
foreign rows. -/
theorem execStep_preserves (db : DB) (uid i : Nat) (a : PlannedAction)
    (hwf : db.ExecWF) :
    ForeignUntouched uid db (execStep db uid i a).1 := by
  unfold execStep
  by_cases hal : (!a.allowTruthy) = true
  · rw [if_pos hal]
    exact ForeignUntouched.rfl uid db hwf
  · rw [if_neg hal]
    rcases hd : execDispatch db uid i a with e | r
    · exact ForeignUntouched.rfl uid db hwf
    · obtain ⟨db1, res, es⟩ := r
      exact execDispatch_preserves db uid i a db1 res es hwf hd

/-- The whole executor batch touches no foreign rows. -/
theorem execute_core_preserves (uid : Nat) (actions : List PlannedAction)
    (db : DB) (hwf : db.ExecWF) (i : Nat) :
    ForeignUntouched uid db (execute_core uid db actions i).1 := by
  induction actions generalizing db i with
  | nil => exact ForeignUntouched.rfl uid db hwf
  | cons a rest ih =>
      simp only [execute_core]
      rcases hstep : execStep db uid i a with ⟨db1, r, es⟩
      have h1 : ForeignUntouched uid db db1 := by
        have := execStep_preserves db uid i a hwf
        rw [hstep] at this
        exact this
      rcases hcore : execute_core uid db1 rest (i + 1) with ⟨db2, rs, es2⟩
      have h2 : ForeignUntouched uid db1 db2 := by
        have := ih db1 h1.1 (i + 1)
        rw [hcore] at this
        exact this
      exact ForeignUntouched.trans uid db db1 db2 h1 h2

theorem requireKey_ok (kwargs : List (String × Value)) (k : String) (v : Value)
    (h : requireKey kwargs k = .ok v) : dictGet kwargs k = v := by
  unfold requireKey at h
  by_cases hc : (!dictHas kwargs k) = true
  · rw [if_pos hc] at h
    exact Except.noConfusion h
  · rw [if_neg hc] at h
    simp only [pure, Except.pure, Except.ok.injEq] at h
    exact h

/-- The executor's `update_materia` dispatch cannot succeed on another
user's subject: `update_subject` authorizes before writing. -/
theorem execDispatch_update_materia_foreign (db : DB) (uid i : Nat)
    (a : PlannedAction) (d : List (String × Value)) (m1 : Materia)
    (hk : a.kind = Value.vstr "update_materia")
    (hargs : a.args = Value.vdict d)
    (hm : db.getMateriaV (dictGet d "materia_id") = some m1)
    (hfor : m1.materia_usuario_id ≠ uid) :
    ∀ r, execDispatch db uid i a = .ok r → False := by
  intro r h
  unfold execDispatch at h
  rw [if_neg (by rw [hk]; decide), if_pos (by rw [hk]; decide)] at h
  obtain ⟨kwargs, hkw, h⟩ := except_bind_ok h
  rw [hargs] at hkw
  have hkd : kwargs = d := by
    simp only [asKwargs, Except.ok.injEq] at hkw
    exact hkw.symm
  subst hkd
  obtain ⟨mid, hmid, h⟩ := except_bind_ok h
  have hmidv := requireKey_ok kwargs "materia_id" mid hmid
  obtain ⟨payload, hp, h⟩ := except_bind_ok h
  obtain ⟨r2, hup, h⟩ := except_bind_ok h
  obtain ⟨db2, m2⟩ := r2
  obtain ⟨m0, hget, howner, -⟩ := update_subject_ok db uid mid payload db2 m2 hup
  rw [hmidv] at hm
  rw [hm] at hget
  injection hget with hget
  rw [← hget] at howner
  exact hfor howner

/-- The executor's `delete_materia` dispatch cannot succeed on another
user's subject. -/
theorem execDispatch_delete_materia_foreign (db : DB) (uid i : Nat)
    (a : PlannedAction) (d : List (String × Value)) (m1 : Materia)
    (hk : a.kind = Value.vstr "delete_materia")
    (hargs : a.args = Value.vdict d)
    (hm : db.getMateriaV (dictGet d "materia_id") = some m1)
    (hfor : m1.materia_usuario_id ≠ uid) :
    ∀ r, execDispatch db uid i a = .ok r → False := by
  intro r h
  unfold execDispatch at h
  rw [if_neg (by rw [hk]; decide), if_neg (by rw [hk]; decide),
    if_pos (by rw [hk]; decide)] at h
  obtain ⟨mid, hmid, h⟩ := except_bind_ok h
  rw [hargs] at hmid
  have hmidv := subscript_ok_dictGet d "materia_id" mid hmid
  obtain ⟨db1, hds, h⟩ := except_bind_ok h
  obtain ⟨m0, hget, howner, -⟩ := delete_subject_ok db uid mid db1 hds
  rw [hmidv] at hm
  rw [hm] at hget
  injection hget with hget
  rw [← hget] at howner
  exact hfor howner

/-- The executor's `update_evento` dispatch cannot succeed on an event all
of whose subjects belong to another user: `update_event` authorizes through
the subject. -/
theorem execDispatch_update_evento_foreign (db : DB) (uid i : Nat)
    (a : PlannedAction) (d : List (String × Value)) (e1 : Evento)
    (hk : a.kind = Value.vstr "update_evento")
    (hargs : a.args = Value.vdict d)
    (he : db.getEventoV (dictGet d "evento_id") = some e1)
    (hfor : ∀ mp ∈ db.materias, mp.materia_id = e1.evento_materia_id →
      mp.materia_usuario_id ≠ uid) :
    ∀ r, execDispatch db uid i a = .ok r → False := by
  intro r h
  unfold execDispatch at h
  rw [if_neg (by rw [hk]; decide), if_neg (by rw [hk]; decide),
    if_neg (by rw [hk]; decide), if_neg (by rw [hk]; decide),
    if_pos (by rw [hk]; decide)] at h
  obtain ⟨kwargs, hkw, h⟩ := except_bind_ok h
  rw [hargs] at hkw
  have hkd : kwargs = d := by
    simp only [asKwargs, Except.ok.injEq] at hkw
    exact hkw.symm
  subst hkd
  obtain ⟨evid, hevid, h⟩ := except_bind_ok h
  have hevv := requireKey_ok kwargs "evento_id" evid hevid
  obtain ⟨payload, hp, h⟩ := except_bind_ok h
  obtain ⟨r2, hue, h⟩ := except_bind_ok h
  obtain ⟨db2, ev2⟩ := r2
  obtain ⟨e0, hget, ⟨mp, hmp, howner⟩, -⟩ :=
    update_event_ok db uid evid payload db2 ev2 hue
  rw [hevv] at he
  rw [he] at hget
  injection hget with hget
  obtain ⟨hmpmem, hmpid⟩ := getMateria_some db _ mp hmp
  exact hfor mp hmpmem (by rw [hmpid, ← hget]) howner

/-- The executor's `delete_evento` dispatch cannot succeed on an event all
of whose subjects belong to another user. -/
theorem execDispatch_delete_evento_foreign (db : DB) (uid i : Nat)
    (a : PlannedAction) (d : List (String × Value)) (e1 : Evento)
    (hk : a.kind = Value.vstr "delete_evento")
    (hargs : a.args = Value.vdict d)
    (he : db.getEventoV (dictGet d "evento_id") = some e1)
    (hfor : ∀ mp ∈ db.materias, mp.materia_id = e1.evento_materia_id →
      mp.materia_usuario_id ≠ uid) :
    ∀ r, execDispatch db uid i a = .ok r → False := by
  intro r h
  unfold execDispatch at h
  rw [if_neg (by rw [hk]; decide), if_neg (by rw [hk]; decide),
    if_neg (by rw [hk]; decide), if_neg (by rw [hk]; decide),
    if_neg (by rw [hk]; decide), if_pos (by rw [hk]; decide)] at h
  obtain ⟨evid, hevid, h⟩ := except_bind_ok h
  rw [hargs] at hevid
  have hevv := subscript_ok_dictGet d "evento_id" evid hevid
  obtain ⟨db1, hde, h⟩ := except_bind_ok h
  obtain ⟨e0, hget, ⟨mp, hmp, howner⟩, -⟩ := delete_event_ok db uid evid db1 hde
  rw [hevv] at he
  rw [he] at hget
  injection hget with hget
  obtain ⟨hmpmem, hmpid⟩ := getMateria_some db _ mp hmp
  exact hfor mp hmpmem (by rw [hmpid, ← hget]) howner

/-- A step whose dispatch cannot succeed leaves the database unchanged,
and — when the action was allowed — records an error result. -/
theorem execStep_of_dispatch_fails (db : DB) (uid i : Nat) (a : PlannedAction)
    (hfail : ∀ r, execDispatch db uid i a = .ok r → False) :
    (execStep db uid i a).1 = db ∧
    (a.allowTruthy = true →
      resultStatus (execStep db uid i a).2.1 = Value.vstr "error") := by
  by_cases hal : a.allowTruthy = true
  · rcases hd : execDispatch db uid i a with e | r
    · rw [execStep_error db uid i a e hal hd]
      exact ⟨rfl, fun _ => by rfl⟩
    · exact (hfail r hd).elim
  · have hal' : a.allowTruthy = false := by
      revert hal
      cases a.allowTruthy <;> simp
    rw [execStep_skipped db uid i a hal']
    exact ⟨rfl, fun hc => absurd hc (by rw [hal']; simp)⟩

/-! ## The serialization round trip. -/

/-- The action `deserialize_actions` reconstructs from `serializeAction a`:
the `getattr` defaults were materialized at serialization time, so the
three optional attributes come back set. -/
def rtAction (a : PlannedAction) : PlannedAction :=
  { kind := a.kind, args := a.args, description := a.description,
    allow := some (a.allow.getD (Value.vbool true)),
    resolved := some (a.resolved.getD (Value.vdict [])),
    conflict := some (a.conflict.getD Value.vnull) }

/-- Deserializing a serialized plan succeeds and yields exactly the
round-tripped actions. -/
theorem deserialize_serialize (actions : List PlannedAction) (i : Nat) :
    deserialize_actions (actions.map serializeAction) i =
      .ok (actions.map rtAction) := by
  induction actions generalizing i with
  | nil => rfl
  | cons a rest ih =>
      have h1 : deserialize_actions (serializeAction a :: rest.map serializeAction) i =
          (do
            let rest' ← deserialize_actions (rest.map serializeAction) (i + 1)
            pure (rtAction a :: rest')) := rfl
      rw [List.map_cons, h1, ih (i + 1), List.map_cons]
      rfl

/-- The executor step only reads kind, args, description and the `allow`
gate, all of which round-trip; on an allowed action the step is therefore
identical. -/
theorem execStep_rtAction (db : DB) (uid i : Nat) (a : PlannedAction)
    (hal : a.allowTruthy = true) :
    execStep db uid i (rtAction a) = execStep db uid i a := by
  have hal' : (rtAction a).allowTruthy = true := hal
  unfold execStep
  rw [if_neg (by rw [hal']; simp), if_neg (by rw [hal]; simp)]
  rfl

/-- Executing the round-tripped batch is executing the original batch, when
every action was allowed. -/
theorem execute_core_rt (uid : Nat) (actions : List PlannedAction)
    (db : DB) (i : Nat) (hall : ∀ a ∈ actions, a.allowTruthy = true) :
    execute_core uid db (actions.map rtAction) i =
      execute_core uid db actions i := by
  induction actions generalizing db i with
  | nil => rfl
  | cons a rest ih =>
      rw [List.map_cons]
      simp only [execute_core]
      rw [execStep_rtAction db uid i a (hall a (List.mem_cons_self a rest))]
      rcases hstep : execStep db uid i a with ⟨db1, r, es⟩
      rw [ih db1 (i + 1) (fun x hx => hall x (List.mem_cons_of_mem _ hx))]

/-- Same at the `execute_actions` level (the summary counts agree since the
result lists agree and the lengths agree). -/
theorem execute_actions_rt (db : DB) (uid : Nat) (actions : List PlannedAction)
    (hall : ∀ a ∈ actions, a.allowTruthy = true) :
    execute_actions db uid (actions.map rtAction) =
      execute_actions db uid actions := by
  unfold execute_actions
  rw [execute_core_rt uid actions db 0 hall, List.length_map]

/-- Inversion of a successful single-item deserialization: the action is
the field-by-field read of the dict, with the three optional attributes set
only when their keys are present. -/
theorem deserialize_one_inv (d : List (String × Value)) (i : Nat)
    (a : PlannedAction)
    (h : deserialize_actions [Value.vdict d] i = .ok [a]) :
    a.kind = dictGet d "kind" ∧ a.args = dictGet d "args" ∧
    a.allow = (if dictHas d "allow" then some (dictGet d "allow") else none) := by
  unfold deserialize_actions at h
  simp only [bind, Except.bind, pure, Except.pure] at h
  by_cases h1 : (!dictHas d "kind") = true
  · rw [if_pos h1] at h
    exact Except.noConfusion h
  · rw [if_neg h1] at h
    by_cases h2 : (!dictHas d "args") = true
    · rw [if_pos h2] at h
      exact Except.noConfusion h
    · rw [if_neg h2] at h
      have h' : (Except.ok [deserializeItem d] :
          Except PyErr (List PlannedAction)) = .ok [a] := h
      injection h' with h''
      simp only [List.cons.injEq, and_true] at h''
      rw [← h'']
      exact ⟨rfl, rfl, rfl⟩

/-! ## Witness fixtures: concrete rows and states used only by the
witnesses and counterexamples below. -/

def wMat1 : Materia :=
  { materia_id := 1, materia_usuario_id := 1, materia_nombre := "Historia",
    materia_descripcion := none, materia_created_at := none }

def wMat2 : Materia :=
  { materia_id := 2, materia_usuario_id := 2, materia_nombre := "Quimica",
    materia_descripcion := none, materia_created_at := none }

def wEv1 : Evento :=
  { evento_id := 1, evento_materia_id := 1, evento_nombre := "Parcial",
    evento_descripcion := none, evento_fecha := "2025-06-01",
    evento_estado := "pendiente", evento_created_at := none }

def wEv2 : Evento :=
  { evento_id := 2, evento_materia_id := 1, evento_nombre := "Final",
    evento_descripcion := none, evento_fecha := "2025-07-01",
    evento_estado := "pendiente", evento_created_at := none }

/-- Subject "Historia" of user 1 with exactly one event; subject "Quimica"
belongs to user 2. -/
def wDB : DB :=
  { materias := [wMat1, wMat2], eventos := [wEv1], next_materia_id := 3, next_evento_id := 3 }

/-- Same, but "Historia" has two events. -/
def wDB2 : DB :=
  { materias := [wMat1, wMat2], eventos := [wEv1, wEv2], next_materia_id := 3, next_evento_id := 3 }

theorem wDB_wf : wDB.WF := by
  refine ⟨⟨?_, ?_, ?_, ?_, ?_, ?_, ?_, ?_, ?_⟩, ?_, ?_⟩ <;> decide

theorem wDB2_wf : wDB2.WF := by
  refine ⟨⟨?_, ?_, ?_, ?_, ?_, ?_, ?_, ?_, ?_⟩, ?_, ?_⟩ <;> decide

/-! ## C3 -/

/-- The decision rule when only a subject reference was given and it
resolved: with every candidate already under the resolved subject, the rule
returns the single candidate or `None`. -/
theorem decideEvento_subject_only (evs : List Evento) (mref : Value) (m : Materia)
    (htruthy : mref.truthy = true)
    (hall : evs.filter (fun e => e.evento_materia_id == m.materia_id) = evs) :
    decideEvento evs Value.vnull mref (some m) =
      .ok (if evs.length == 1 then evs.head? else none) := by
  unfold decideEvento
  by_cases h1 : (evs.length == 1) = true
  · simp [h1, pure, Except.pure]
  · rw [Bool.not_eq_true] at h1
    simp only [h1, Bool.false_eq_true, if_false]
    by_cases h2 : 1 < evs.length
    · rw [if_pos (by rw [htruthy, show Value.vnull.truthy = false from rfl]; simp [h2])]
      simp only [hall]
      simp [h1, pure, Except.pure]
    · rw [if_neg (by simp [h2])]
      rfl

/-- C3: resolving an event by subject reference alone (`materia_ref` given
and resolving to subject `m`, no `evento_ref`) returns the subject's unique
event exactly when the subject has exactly one event, and `None` when it has
zero or two or more — never guessing among multiple candidates. -/
theorem C3_event_resolution_by_subject_ref (db : DB) (hWF : db.WF) (uid : Nat)
    (mref : Value) (m : Materia)
    (htruthy : mref.truthy = true)
    (hfound : _get_materia_by_name db uid mref = .ok (some m)) :
    _find_evento_by_references db uid Value.vnull mref =
      .ok (if (db.eventos.filter (fun e => e.evento_materia_id == m.materia_id)).length == 1
           then (db.eventos.filter (fun e => e.evento_materia_id == m.materia_id)).head?
           else none) := by
  have hmem : m ∈ db.materias ∧ m.materia_usuario_id = uid := by
    unfold _get_materia_by_name at hfound
    obtain ⟨s, hs, hscalar⟩ := except_bind_ok hfound
    have hfil := scalar_one_or_none_ok_some hscalar
    have hm : m ∈ db.materias.filter (fun mm =>
        mm.materia_usuario_id == uid && mm.materia_nombre == s) := by
      rw [hfil]; simp
    have hp := List.of_mem_filter hm
    simp only [Bool.and_eq_true, beq_iff_eq] at hp
    exact ⟨List.mem_of_mem_filter hm, hp.1⟩
  have hq : (((eventosJoinMateria db).filter (fun em =>
        em.2.materia_usuario_id == uid)).filter
        (fun em => em.1.evento_materia_id == m.materia_id)).map (fun em => em.1) =
      db.eventos.filter (fun e => e.evento_materia_id == m.materia_id) := by
    rw [join_filter_eq db uid m hWF.materia_nodup hmem.1 hmem.2, List.map_map]
    exact List.map_id _
  have hself : (db.eventos.filter (fun e => e.evento_materia_id == m.materia_id)).filter
      (fun e => e.evento_materia_id == m.materia_id) =
      db.eventos.filter (fun e => e.evento_materia_id == m.materia_id) := by
    apply List.filter_eq_self.mpr
    intro e he
    have hpe := List.of_mem_filter he
    exact hpe
  unfold _find_evento_by_references
  rw [if_pos htruthy, hfound]
  show findEventoWith db uid Value.vnull mref (some m) = _
  unfold findEventoWith
  dsimp only [bind, Except.bind, pure, Except.pure]
  rw [show Value.vnull.truthy = false from rfl]
  simp only [Bool.false_eq_true, if_false]
  simp only [hq]
  exact decideEvento_subject_only _ mref m htruthy hself

/-- C3 witness: on `wDB` "Historia" has exactly one event, resolved to it;
on `wDB2` it has two, and resolution is `None`. -/
theorem C3_event_resolution_by_subject_ref_witness :
    _find_evento_by_references wDB 1 Value.vnull (Value.vstr "Historia") = .ok (some wEv1) ∧
    _find_evento_by_references wDB2 1 Value.vnull (Value.vstr "Historia") = .ok none := by
  constructor
  · exact (C3_event_resolution_by_subject_ref wDB wDB_wf 1 (Value.vstr "Historia") wMat1
      rfl rfl).trans (by rfl)
  · exact (C3_event_resolution_by_subject_ref wDB2 wDB2_wf 1 (Value.vstr "Historia") wMat1
      rfl rfl).trans (by rfl)

/-! ## C2 -/

/-- Under subject-natural-key uniqueness, the (owner, name) filter has at
most one row. -/
theorem materia_natkey_filter_len (db : DB) (hWF : db.WF) (uid : Nat) (s : String) :
    (db.materias.filter (fun m =>
      m.materia_usuario_id == uid && m.materia_nombre == s)).length ≤ 1 := by
  apply len_le_one_of_nodup_allEq _ Materia.materia_id
  · exact List.Nodup.sublist ((List.filter_sublist _).map Materia.materia_id)
      hWF.materia_nodup
  · intro x hx y hy
    have hpx := List.of_mem_filter hx
    have hpy := List.of_mem_filter hy
    simp only [Bool.and_eq_true, beq_iff_eq] at hpx hpy
    exact hWF.materia_natkey x (List.mem_of_mem_filter hx) y (List.mem_of_mem_filter hy)
      (hpx.1.trans hpy.1.symm) (hpx.2.trans hpy.2.symm)

/-- Under well-formedness the subject-by-name lookup is the head of the
(owner, stripped name) filter. -/
theorem get_materia_by_name_eq (db : DB) (hWF : db.WF) (uid : Nat) (n : String) :
    _get_materia_by_name db uid (Value.vstr n) =
      .ok (db.materias.filter (fun m =>
        m.materia_usuario_id == uid && m.materia_nombre == pyStrip n)).head? := by
  unfold _get_materia_by_name
  dsimp only [Value.strip, bind, Except.bind]
  exact scalar_one_or_none_eq_head _ (materia_natkey_filter_len db hWF uid (pyStrip n))

/-- C2: the Idempotency Checker's `create_materia` rule sets `allow=True`
exactly when no subject with natural key (owner, stripped name) exists, and
`allow=False` with the "already exists — only update/delete permitted"
conflict when one does. -/
theorem C2_create_subject_idempotency_gate (db : DB) (hWF : db.WF) (uid : Nat)
    (a : PlannedAction) (d : List (String × Value)) (n : String)
    (hkind : a.kind = Value.vstr "create_materia")
    (hargs : a.args = Value.vdict d)
    (hname : dictGetD d "materia_nombre" (Value.vstr "") = Value.vstr n)
    (hne : n ≠ "") :
    ∃ a' lines, checkAction db uid a = .ok (a', lines) ∧
      (a'.allow = some (Value.vbool true) ↔
        db.materias.filter (fun m =>
          m.materia_usuario_id == uid && m.materia_nombre == pyStrip n) = []) ∧
      (db.materias.filter (fun m =>
          m.materia_usuario_id == uid && m.materia_nombre == pyStrip n) ≠ [] →
        a'.allow = some (Value.vbool false) ∧
        a'.conflict =
          some (Value.vstr "Materia ya existe; solo se permite update/delete.")) := by
  have htr : (Value.vstr n).truthy = true := by
    simp [Value.truthy, hne]
  have hlen := materia_natkey_filter_len db hWF uid (pyStrip n)
  simp only [checkAction, checkCreateMateriaLookup, hkind, hargs, Value.getD, hname,
    beq_self_eq_true, if_true, htr, get_materia_by_name_eq db hWF uid n, bind,
    Except.bind, pure, Except.pure]
  rcases hfl : (db.materias.filter (fun m =>
      m.materia_usuario_id == uid && m.materia_nombre == pyStrip n)) with _ | ⟨m0, _ | ⟨m1, t⟩⟩
  · simp only [hfl, List.head?_nil]
    exact ⟨_, _, rfl, by simp, by simp⟩
  · simp only [hfl, List.head?_cons]
    exact ⟨_, _, rfl, by simp, fun _ => ⟨rfl, rfl⟩⟩
  · rw [hfl] at hlen
    simp at hlen

/-- C2 witness: on `wDB`, a `create_materia` action for the existing
"Historia" is blocked with the conflict message. -/
theorem C2_create_subject_idempotency_gate_witness :
    ∃ a' lines,
      checkAction wDB 1 (PlannedAction.build "create_materia"
        [("materia_usuario_id", Value.vint 1), ("materia_nombre", Value.vstr "Historia"),
         ("materia_descripcion", Value.vnull)] "Crear materia 'Historia'") = .ok (a', lines) ∧
      a'.allow = some (Value.vbool false) ∧
      a'.conflict = some (Value.vstr "Materia ya existe; solo se permite update/delete.") := by
  obtain ⟨a', lines, hok, _, hblocked⟩ :=
    C2_create_subject_idempotency_gate wDB wDB_wf 1
      (PlannedAction.build "create_materia"
        [("materia_usuario_id", Value.vint 1), ("materia_nombre", Value.vstr "Historia"),
         ("materia_descripcion", Value.vnull)] "Crear materia 'Historia'")
      [("materia_usuario_id", Value.vint 1), ("materia_nombre", Value.vstr "Historia"),
       ("materia_descripcion", Value.vnull)]
      "Historia" rfl rfl (by decide) (by decide)
  exact ⟨a', lines, hok, (hblocked (by decide)).1, (hblocked (by decide)).2⟩

/-! ## C5 -/

/-- C5 counterexample: the claim says the Normalizer's subject Ownership
Guard raises a NotFound error for an absent id and a distinct Unauthorized
error for a foreign-owned id.  On `wDB` for requesting user 1, subject 2
exists but belongs to user 2, and subject 99 does not exist — yet
`_ensure_ownership_materia` produces the very same
`ValueError("Materia no encontrada")` in both cases: the two failure modes
are not distinguished. -/
theorem C5_counterexample :
    _ensure_ownership_materia wDB 1 (Value.vint 2) =
      _ensure_ownership_materia wDB 1 (Value.vint 99) ∧
    _ensure_ownership_materia wDB 1 (Value.vint 2) =
      .error (.valueError "Materia no encontrada") := by
  exact ⟨rfl, rfl⟩

/-- C5 amended: the Normalizer's own subject guard
(`nl_service._ensure_ownership_materia`) conflates its two failure modes,
raising the identical `ValueError("Materia no encontrada")` whether the
subject is absent or owned by another user; the distinction the claim
describes exists only in the domain-service guard
(`subject_service._get_materia_autorizada`), which raises
`MateriaNoEncontrada` when absent and the distinct `AccesoNoAutorizado`
when foreign-owned. -/
theorem C5_guard_error_modes (db : DB) (uid : Nat) (key : Value) :
    (db.getMateriaV key = none →
      _ensure_ownership_materia db uid key = .error (.valueError "Materia no encontrada") ∧
      _get_materia_autorizada db key uid = .error .materiaNoEncontrada) ∧
    (∀ m, db.getMateriaV key = some m → m.materia_usuario_id ≠ uid →
      _ensure_ownership_materia db uid key = .error (.valueError "Materia no encontrada") ∧
      _get_materia_autorizada db key uid = .error .accesoNoAutorizado) := by
  constructor
  · intro h
    constructor
    · simp [_ensure_ownership_materia, h]
    · simp [_get_materia_autorizada, h]
  · intro m h hne
    have hbne : (m.materia_usuario_id != uid) = true := by
      simpa using hne
    constructor
    · simp [_ensure_ownership_materia, h, hbne]
    · simp [_get_materia_autorizada, h, hbne]

/-- C5 witness: the amended theorem applied on `wDB` — the absent id 99 and
the foreign-owned id 2 produce the same error in the Normalizer's guard,
while the domain-service guard distinguishes them. -/
theorem C5_guard_error_modes_witness :
    (_ensure_ownership_materia wDB 1 (Value.vint 99) =
        .error (.valueError "Materia no encontrada") ∧
      _get_materia_autorizada wDB (Value.vint 99) 1 = .error .materiaNoEncontrada) ∧
    (_ensure_ownership_materia wDB 1 (Value.vint 2) =
        .error (.valueError "Materia no encontrada") ∧
      _get_materia_autorizada wDB (Value.vint 2) 1 = .error .accesoNoAutorizado) :=
  ⟨(C5_guard_error_modes wDB 1 (Value.vint 99)).1 (by decide),
   (C5_guard_error_modes wDB 1 (Value.vint 2)).2 wMat2 (by decide) (by decide)⟩

/-! ## C6 -/

/-- A three-call batch whose second call bears an unknown tool name. -/
def wCalls : List Value :=
  [Value.vdict [("name", Value.vstr "create_materia"),
                ("args", Value.vdict [("materia_nombre", Value.vstr "Fisica")])],
   Value.vdict [("name", Value.vstr "fly_to_moon"), ("args", Value.vdict [])],
   Value.vdict [("name", Value.vstr "delete_materia"),
                ("args", Value.vdict [("materia_id", Value.vint 1)])]]

theorem wCalls_dict : ∀ c ∈ wCalls, ∃ d, c = Value.vdict d := by
  intro c hc
  simp only [wCalls, List.mem_cons, List.not_mem_nil, or_false] at hc
  rcases hc with rfl | rfl | rfl
  · exact ⟨_, rfl⟩
  · exact ⟨_, rfl⟩
  · exact ⟨_, rfl⟩

/-- C6: on a batch of dict tool calls the Planner's normalization loop
never raises — every call normalizes to an `.ok` pair — and the batch
result is the concatenation of the independent per-call results, so a
malformed call contributes only its own error entries while every other
call's actions are exactly what it would produce alone. -/
theorem C6_normalizer_isolation (db : DB) (uid : Nat) (calls : List Value) (i : Nat)
    (hdict : ∀ c ∈ calls, ∃ d, c = Value.vdict d) :
    (∀ c ∈ calls, ∃ r, _normalize_tool_call c db uid = .ok r) ∧
    planNormalize db uid calls i =
      .ok ((calls.map (fun c => (normalizeCall db uid c).1)).flatten,
           (calls.map (fun c => (normalizeCall db uid c).2)).flatten) := by
  refine ⟨?_, planNormalize_join db uid calls i hdict⟩
  intro c hc
  obtain ⟨d, rfl⟩ := hdict c hc
  exact normalize_tool_call_total db uid d

/-- C6 witness: on `wCalls` the loop returns the per-call concatenation,
and the only error entry is the unknown-name one of call 2. -/
theorem C6_normalizer_isolation_witness :
    planNormalize wDB 1 wCalls 0 =
      .ok ((wCalls.map (fun c => (normalizeCall wDB 1 c).1)).flatten,
           (wCalls.map (fun c => (normalizeCall wDB 1 c).2)).flatten) ∧
    (wCalls.map (fun c => (normalizeCall wDB 1 c).2)).flatten =
      ["Acción desconocida: fly_to_moon"] :=
  ⟨(C6_normalizer_isolation wDB 1 wCalls 0 wCalls_dict).2, by decide⟩

/-! ## C9 -/

/-- C9: in a successful planning run over a batch of dict tool calls, every
call leaves a trace in the plan output: either one of its normalized
actions reappears — kind and arguments intact — among the checked actions,
or one of its error strings is a processing error and a bullet line of the
summary. -/
theorem C9_every_call_traced (db : DB) (uid : Nat) (calls : List Value)
    (hwf : db.ExecWF)
    (hdict : ∀ c ∈ calls, ∃ d, c = Value.vdict d)
    (checked : List PlannedAction) (perrs lines : List String)
    (h : plan_actions_core db uid calls = .ok (checked, perrs, lines)) :
    ∀ c ∈ calls,
      (∃ a ∈ (normalizeCall db uid c).1, ∃ a' ∈ checked,
        a'.kind = a.kind ∧ a'.args = a.args) ∨
      (∃ e ∈ (normalizeCall db uid c).2, e ∈ perrs ∧ ("   • " ++ e) ∈ lines) := by
  obtain ⟨actions, hpn, hck, hbul⟩ := plan_actions_core_ok db uid calls checked perrs lines h
  have hj := planNormalize_join db uid calls 0 hdict
  rw [hpn] at hj
  simp only [Except.ok.injEq, Prod.mk.injEq] at hj
  intro c hc
  obtain ⟨d, hcd⟩ := hdict c hc
  have htot : ∃ r, _normalize_tool_call c db uid = .ok r := by
    rw [hcd]; exact normalize_tool_call_total db uid d
  obtain ⟨r, hr⟩ := htot
  have hnc := normalizeCall_eq db uid c r hr
  obtain ⟨racts, rerrs⟩ := r
  have hspec := normalize_tool_call_spec db uid c hwf.evento_id_pos racts rerrs hr
  rcases hspec.1 with hra | hre
  · obtain ⟨a, ha⟩ := List.exists_mem_of_ne_nil racts hra
    left
    refine ⟨a, by rw [hnc]; exact ha, ?_⟩
    have hmemact : a ∈ actions := by
      rw [hj.1]
      apply List.mem_flatten.mpr
      exact ⟨(normalizeCall db uid c).1, List.mem_map_of_mem _ hc, by rw [hnc]; exact ha⟩
    rcases hck with ⟨hae, _⟩ | ⟨ls, hca⟩
    · rw [hae] at hmemact; simp at hmemact
    · obtain ⟨a', ls', hcka, hmem'⟩ :=
        checkActions_mem_fwd db uid actions checked ls hca a hmemact
      have hpres := checkAction_preserves db uid a a' ls' hcka
      exact ⟨a', hmem', hpres.1, hpres.2.1⟩
  · obtain ⟨e, he⟩ := List.exists_mem_of_ne_nil rerrs hre
    right
    have hmemE : e ∈ perrs := by
      rw [hj.2]
      apply List.mem_flatten.mpr
      exact ⟨(normalizeCall db uid c).2, List.mem_map_of_mem _ hc, by rw [hnc]; exact he⟩
    exact ⟨e, by rw [hnc]; exact he, hmemE, hbul e hmemE⟩

/-- The concrete plan over `wCalls`, split into its components (used only
to instantiate witnesses). -/
def wPlanTriple : List PlannedAction × List String × List String :=
  match plan_actions_core wDB 1 wCalls with
  | .ok t => t
  | .error _ => ([], [], [])

def wPlanChecked : List PlannedAction := wPlanTriple.1

def wPlanPerrs : List String := wPlanTriple.2.1

def wPlanLines : List String := wPlanTriple.2.2

/-- C9 witness: on the `wCalls` batch every call is traced, and the batch
really does produce two checked actions plus one error. -/
theorem C9_every_call_traced_witness :
    (∀ c ∈ wCalls,
      (∃ a ∈ (normalizeCall wDB 1 c).1, ∃ a' ∈ wPlanChecked,
        a'.kind = a.kind ∧ a'.args = a.args) ∨
      (∃ e ∈ (normalizeCall wDB 1 c).2, e ∈ wPlanPerrs ∧ ("   • " ++ e) ∈ wPlanLines)) ∧
    wPlanChecked.length = 2 ∧ wPlanPerrs = ["Acción desconocida: fly_to_moon"] :=
  ⟨C9_every_call_traced wDB 1 wCalls wDB_wf.toExecWF wCalls_dict
      wPlanChecked wPlanPerrs wPlanLines rfl,
   by decide, by decide⟩

/-! ## C4 -/

/-- C4: in a successful planning run over dict tool calls on a well-formed
database, every checked `update_materia`/`delete_materia` action is allowed
with its resolved subject id referencing an existing subject owned by the
requesting user: `allow=True` can only arise together with existence and
ownership (the Normalizer already dropped every other target, so the
checker's blocking arm is never reached on its input). -/
theorem C4_update_delete_materia_gate (db : DB) (uid : Nat) (calls : List Value)
    (hwf : db.ExecWF)
    (hdict : ∀ c ∈ calls, ∃ d, c = Value.vdict d)
    (checked : List PlannedAction) (perrs lines : List String)
    (h : plan_actions_core db uid calls = .ok (checked, perrs, lines)) :
    ∀ a' ∈ checked,
      a'.kind = Value.vstr "update_materia" ∨ a'.kind = Value.vstr "delete_materia" →
      a'.allow = some (Value.vbool true) ∧
      ∃ d m, a'.resolved = some (Value.vdict d) ∧
        db.getMateriaV (dictGet d "materia_id") = some m ∧
        m.materia_usuario_id = uid := by
  obtain ⟨actions, hpn, hck, _⟩ := plan_actions_core_ok db uid calls checked perrs lines h
  have hj := planNormalize_join db uid calls 0 hdict
  rw [hpn] at hj
  simp only [Except.ok.injEq, Prod.mk.injEq] at hj
  intro a' ha' hkind
  rcases hck with ⟨_, hce⟩ | ⟨ls, hca⟩
  · rw [hce] at ha'; simp at ha'
  · obtain ⟨a, hal, ls', hcka⟩ := checkActions_mem_rev db uid actions checked ls hca a' ha'
    have hmem : a ∈ (calls.map (fun c => (normalizeCall db uid c).1)).flatten := by
      rw [← hj.1]; exact hal
    obtain ⟨s, hs, has⟩ := List.mem_flatten.mp hmem
    obtain ⟨c, hc, hceq⟩ := List.mem_map.mp hs
    obtain ⟨d0, hcd⟩ := hdict c hc
    have htot : ∃ r, _normalize_tool_call c db uid = .ok r := by
      rw [hcd]; exact normalize_tool_call_total db uid d0
    obtain ⟨r, hr⟩ := htot
    have hnc := normalizeCall_eq db uid c r hr
    obtain ⟨racts, rerrs⟩ := r
    have hspec := normalize_tool_call_spec db uid c hwf.evento_id_pos racts rerrs hr
    have hpres := checkAction_preserves db uid a a' ls' hcka
    have hk : a.kind = Value.vstr "update_materia" ∨
        a.kind = Value.vstr "delete_materia" := by
      rw [← hpres.1]
      exact hkind
    have hainv : NormActionInv db uid a := by
      apply hspec.2
      have hseq : s = racts := by rw [← hceq, hnc]
      rw [hseq] at has
      exact has
    have hgate := checkAction_materia_gate db uid a a' ls'
      hwf.materia_id_pos hk (hainv hk) hcka
    exact ⟨hgate.1, hgate.2.2⟩

/-- C4 witness: on the `wCalls` plan the `delete_materia #1` action is
present, allowed, and its resolved id references user 1's own subject. -/
theorem C4_update_delete_materia_gate_witness :
    (∀ a' ∈ wPlanChecked,
      a'.kind = Value.vstr "update_materia" ∨ a'.kind = Value.vstr "delete_materia" →
      a'.allow = some (Value.vbool true) ∧
      ∃ d m, a'.resolved = some (Value.vdict d) ∧
        wDB.getMateriaV (dictGet d "materia_id") = some m ∧
        m.materia_usuario_id = 1) ∧
    ∃ a' ∈ wPlanChecked, a'.kind = Value.vstr "delete_materia" :=
  ⟨C4_update_delete_materia_gate wDB 1 wCalls wDB_wf.toExecWF wCalls_dict
      wPlanChecked wPlanPerrs wPlanLines rfl,
   by decide⟩

/-! ## C7 -/

/-- C7: the Executor processes every action in order and yields one result
per action (plus one summary record when more than one was submitted): a
non-allowed action is skipped with its stored conflict reason and no
database change; an allowed action whose dispatch raises yields an error
result carrying the exception message and the action's description, with no
database change; and a batch splits as its first part followed by the
second on the state the first left behind — processing continues past
failures and nothing is rolled back. -/
theorem C7_executor_per_action_results (usuario_id : Nat) :
    (∀ db actions i,
      (execute_core usuario_id db actions i).2.1.length = actions.length) ∧
    (∀ db l1 l2 i db1 rs1 es1 db2 rs2 es2,
      execute_core usuario_id db l1 i = (db1, rs1, es1) →
      execute_core usuario_id db1 l2 (i + l1.length) = (db2, rs2, es2) →
      execute_core usuario_id db (l1 ++ l2) i = (db2, rs1 ++ rs2, es1 ++ es2)) ∧
    (∀ db i a, a.allowTruthy = false →
      (execStep db usuario_id i a).1 = db ∧
      (execStep db usuario_id i a).2.1 =
        Value.vdict [("kind", a.kind), ("status", Value.vstr "skipped"),
                     ("reason", a.conflict.getD (Value.vstr "no permitida")),
                     ("description", a.description)]) ∧
    (∀ db i a e, a.allowTruthy = true → execDispatch db usuario_id i a = .error e →
      (execStep db usuario_id i a).1 = db ∧
      (execStep db usuario_id i a).2.1 =
        Value.vdict [("kind", a.kind), ("status", Value.vstr "error"),
                     ("error", Value.vstr e.pyStr), ("description", a.description)]) ∧
    (∀ db actions, actions.length ≤ 1 →
      (execute_actions db usuario_id actions).2 =
        (execute_core usuario_id db actions 0).2.1) ∧
    (∀ db actions, actions.length > 1 →
      ∃ s, (execute_actions db usuario_id actions).2 =
          (execute_core usuario_id db actions 0).2.1 ++ [s] ∧
        resultStatus s = Value.vstr "summary") := by
  refine ⟨fun db actions i => execute_core_length usuario_id actions db i,
    fun db l1 l2 i db1 rs1 es1 db2 rs2 es2 h1 h2 =>
      execute_core_append usuario_id l1 l2 db db1 db2 i rs1 rs2 es1 es2 h1 h2,
    fun db i a h => ?_, fun db i a e h hd => ?_,
    fun db actions => (execute_actions_results db usuario_id actions).1,
    fun db actions => (execute_actions_results db usuario_id actions).2⟩
  · rw [execStep_skipped db usuario_id i a h]
    exact ⟨rfl, rfl⟩
  · rw [execStep_error db usuario_id i a e h hd]
    exact ⟨rfl, rfl⟩

/-- A blocked plan action as the checker leaves it. -/
def wSkipAction : PlannedAction :=
  { kind := Value.vstr "create_materia",
    args := Value.vdict [("materia_usuario_id", Value.vint 1),
                         ("materia_nombre", Value.vstr "Historia")],
    description := Value.vstr "Crear materia 'Historia'",
    allow := some (Value.vbool false),
    resolved := some (Value.vdict [("materia_id", Value.vint 1)]),
    conflict := some (Value.vstr "Materia ya existe; solo se permite update/delete.") }

/-- A replayed delete of another user's subject (no `allow` attribute). -/
def wForeignDelete : PlannedAction :=
  { kind := Value.vstr "delete_materia",
    args := Value.vdict [("materia_id", Value.vint 2)],
    description := Value.vstr "Eliminar materia #2" }

/-- C7 witness: a two-action batch — one blocked, one raising from the
domain service — yields two results, the first skipped with the stored
conflict, the second an error, and neither step changes the database. -/
theorem C7_executor_per_action_results_witness :
    (execute_core 1 wDB [wSkipAction, wForeignDelete] 0).2.1.length = 2 ∧
    (execStep wDB 1 0 wSkipAction).1 = wDB ∧
    (execStep wDB 1 0 wSkipAction).2.1 =
      Value.vdict [("kind", wSkipAction.kind), ("status", Value.vstr "skipped"),
                   ("reason", wSkipAction.conflict.getD (Value.vstr "no permitida")),
                   ("description", wSkipAction.description)] ∧
    (execStep wDB 1 1 wForeignDelete).1 = wDB ∧
    (execStep wDB 1 1 wForeignDelete).2.1 =
      Value.vdict [("kind", wForeignDelete.kind), ("status", Value.vstr "error"),
                   ("error", Value.vstr PyErr.accesoNoAutorizado.pyStr),
                   ("description", wForeignDelete.description)] :=
  have hC := C7_executor_per_action_results 1
  ⟨hC.1 wDB [wSkipAction, wForeignDelete] 0,
   (hC.2.2.1 wDB 0 wSkipAction (by decide)).1,
   (hC.2.2.1 wDB 0 wSkipAction (by decide)).2,
   (hC.2.2.2.1 wDB 1 wForeignDelete PyErr.accesoNoAutorizado (by decide) (by rfl)).1,
   (hC.2.2.2.1 wDB 1 wForeignDelete PyErr.accesoNoAutorizado (by decide) (by rfl)).2⟩

/-! ## C1 -/

/-- C1: ownership isolation in the Executor.  Over any action batch a user
executes, every subject row of another user and every event row all of
whose subjects belong to another user survive untouched (well-formed ids
assumed, as the autoincrement schema guarantees).  Moreover a single
`update_materia`/`delete_materia` (resp. `update_evento`/`delete_evento`)
action whose target id resolves to another user's subject (resp. to an
event of another user's subjects) never dispatches successfully: its step
leaves the database exactly as it was, and when the action was allowed the
recorded result has status `error` (otherwise it was blocked as skipped). -/
theorem C1_ownership_isolation (db : DB) (uid : Nat) (hwf : db.ExecWF) :
    (∀ actions i, ∀ m ∈ db.materias, m.materia_usuario_id ≠ uid →
      m ∈ (execute_core uid db actions i).1.materias) ∧
    (∀ actions i, ∀ e ∈ db.eventos,
      (∀ mp ∈ db.materias, mp.materia_id = e.evento_materia_id →
        mp.materia_usuario_id ≠ uid) →
      e ∈ (execute_core uid db actions i).1.eventos) ∧
    (∀ a i d m1, a.args = Value.vdict d →
      (a.kind = Value.vstr "update_materia" ∨
       a.kind = Value.vstr "delete_materia") →
      db.getMateriaV (dictGet d "materia_id") = some m1 →
      m1.materia_usuario_id ≠ uid →
      (execStep db uid i a).1 = db ∧
      (a.allowTruthy = true →
        resultStatus (execStep db uid i a).2.1 = Value.vstr "error")) ∧
    (∀ a i d e1, a.args = Value.vdict d →
      (a.kind = Value.vstr "update_evento" ∨
       a.kind = Value.vstr "delete_evento") →
      db.getEventoV (dictGet d "evento_id") = some e1 →
      (∀ mp ∈ db.materias, mp.materia_id = e1.evento_materia_id →
        mp.materia_usuario_id ≠ uid) →
      (execStep db uid i a).1 = db ∧
      (a.allowTruthy = true →
        resultStatus (execStep db uid i a).2.1 = Value.vstr "error")) := by
  refine ⟨?_, ?_, ?_, ?_⟩
  · intro actions i m hm hf
    exact (execute_core_preserves uid actions db hwf i).2.1 m hm hf
  · intro actions i e he hpar
    exact ((execute_core_preserves uid actions db hwf i).2.2 e he hpar).1
  · intro a i d m1 hargs hk hm hf
    refine execStep_of_dispatch_fails db uid i a ?_
    rcases hk with hk | hk
    · exact execDispatch_update_materia_foreign db uid i a d m1 hk hargs hm hf
    · exact execDispatch_delete_materia_foreign db uid i a d m1 hk hargs hm hf
  · intro a i d e1 hargs hk he hpar
    refine execStep_of_dispatch_fails db uid i a ?_
    rcases hk with hk | hk
    · exact execDispatch_update_evento_foreign db uid i a d e1 hk hargs he hpar
    · exact execDispatch_delete_evento_foreign db uid i a d e1 hk hargs he hpar

/-- C1 witness: on `wDB` user 1 replays a delete of user 2's subject #2 —
the subject row survives the batch, the step leaves the state unchanged and
its result is an error. -/
theorem C1_ownership_isolation_witness :
    wMat2 ∈ (execute_core 1 wDB [wForeignDelete] 0).1.materias ∧
    (execStep wDB 1 0 wForeignDelete).1 = wDB ∧
    resultStatus (execStep wDB 1 0 wForeignDelete).2.1 = Value.vstr "error" :=
  have hC := C1_ownership_isolation wDB 1 wDB_wf.toExecWF
  ⟨hC.1 [wForeignDelete] 0 wMat2 (by decide) (by decide),
   (hC.2.2.1 wForeignDelete 0 [("materia_id", Value.vint 2)] wMat2 rfl
     (Or.inr rfl) (by decide) (by decide)).1,
   (hC.2.2.1 wForeignDelete 0 [("materia_id", Value.vint 2)] wMat2 rfl
     (Or.inr rfl) (by decide) (by decide)).2 (by decide)⟩

/-! ## C8 -/

/-- C8: a plan whose actions all carry `allow=True`, serialized and
replayed through `deserialize_actions` and the execute path, produces
exactly the same outcome — the same resulting database state and the same
result list, hence the same kinds, arguments and successful mutations — as
executing the freshly planned actions directly on the same starting
state. -/
theorem C8_serialize_roundtrip (db : DB) (uid : Nat) (plan : PlanResult)
    (hall : ∀ a ∈ plan.actions, a.allowTruthy = true) :
    deserialize_actions (plan.actions.map serializeAction) 0 =
      .ok (plan.actions.map rtAction) ∧
    nl_command_execute db uid (plan.actions.map serializeAction) =
      .ok (nl_command_execute_plan db uid plan) := by
  refine ⟨deserialize_serialize plan.actions 0, ?_⟩
  unfold nl_command_execute nl_command_execute_plan
  simp only [deserialize_serialize plan.actions 0, bind, Except.bind]
  have hfilter_rt : (plan.actions.map rtAction).filter PlannedAction.allowTruthy =
      plan.actions.map rtAction := by
    apply List.filter_eq_self.mpr
    intro b hb
    obtain ⟨a, ha, hba⟩ := List.mem_map.mp hb
    rw [← hba]
    show (rtAction a).allowTruthy = true
    exact hall a ha
  have hfilter : plan.actions.filter PlannedAction.allowTruthy = plan.actions :=
    List.filter_eq_self.mpr hall
  rw [hfilter_rt, hfilter]
  rcases hacts : plan.actions with _ | ⟨a, rest⟩
  · rfl
  · rw [if_neg (show ¬(((a :: rest).map rtAction).isEmpty = true) by simp)]
    rw [if_neg (show ¬(((a :: rest) : List PlannedAction).isEmpty = true) by simp)]
    rw [hacts] at hall
    rw [execute_actions_rt db uid (a :: rest) hall]
    rfl

/-- The allowed single-action plan replayed in the C8 witness. -/
def wAllowedDelete : PlannedAction :=
  { kind := Value.vstr "delete_materia",
    args := Value.vdict [("materia_id", Value.vint 1)],
    description := Value.vstr "Eliminar materia #1",
    allow := some (Value.vbool true),
    resolved := some (Value.vdict [("materia_id", Value.vint 1)]),
    conflict := some Value.vnull }

def wPlan : PlanResult :=
  { actions := [wAllowedDelete], summary := "plan" }

/-- C8 witness: replaying the serialized one-action plan on `wDB` equals
executing it directly — and it really mutates: subject #1 is deleted. -/
theorem C8_serialize_roundtrip_witness :
    nl_command_execute wDB 1 (wPlan.actions.map serializeAction) =
      .ok (nl_command_execute_plan wDB 1 wPlan) ∧
    (nl_command_execute_plan wDB 1 wPlan).1.materias = [wMat2] :=
  ⟨(C8_serialize_roundtrip wDB 1 wPlan (by decide)).2, by decide⟩

/-! ## C10 -/

/-- C10: a replayed action dict that has `kind` and `args` but no `allow`
key deserializes with the attribute unset, and every `allow` reader — the
filter the router applies and the executor's gate — defaults it to allowed:
the action passes the filter and its step is exactly the dispatch to the
domain service (error-wrapped if that raises, never skipped).  Only an
explicit `allow=false` is filtered out, and would be skipped if executed
anyway. -/
theorem C10_missing_allow_defaults (db : DB) (uid : Nat)
    (d dAF : List (String × Value)) (i : Nat) (a b : PlannedAction)
    (hdes : deserialize_actions [Value.vdict d] i = .ok [a])
    (hnoallow : dictHas d "allow" = false)
    (hdes2 : deserialize_actions [Value.vdict dAF] i = .ok [b])
    (hhasallow : dictHas dAF "allow" = true)
    (hfalse : dictGet dAF "allow" = Value.vbool false) :
    (a.allow = none ∧ a.allowTruthy = true ∧
     [a].filter PlannedAction.allowTruthy = [a] ∧
     (∀ j db1 res es, execDispatch db uid j a = .ok (db1, res, es) →
       execStep db uid j a = (db1, res, es)) ∧
     (∀ j e, execDispatch db uid j a = .error e →
       execStep db uid j a =
         (db, Value.vdict [("kind", a.kind), ("status", Value.vstr "error"),
                           ("error", Value.vstr e.pyStr),
                           ("description", a.description)],
          ["Acción " ++ toString (j + 1) ++ " (" ++ a.kind.pyStr ++ "): " ++
           e.pyStr]))) ∧
    (b.allow = some (Value.vbool false) ∧ b.allowTruthy = false ∧
     [b].filter PlannedAction.allowTruthy = [] ∧
     ∀ j, (execStep db uid j b).1 = db ∧
       resultStatus (execStep db uid j b).2.1 = Value.vstr "skipped") := by
  obtain ⟨-, -, hal⟩ := deserialize_one_inv d i a hdes
  rw [hnoallow] at hal
  simp only [Bool.false_eq_true, if_false] at hal
  have ht : a.allowTruthy = true := by
    unfold PlannedAction.allowTruthy
    rw [hal]
    rfl
  obtain ⟨-, -, hbl⟩ := deserialize_one_inv dAF i b hdes2
  rw [hhasallow, hfalse] at hbl
  simp only [if_true] at hbl
  have hbt : b.allowTruthy = false := by
    unfold PlannedAction.allowTruthy
    rw [hbl]
    rfl
  refine ⟨⟨hal, ht, ?_, ?_, ?_⟩, hbl, hbt, ?_, ?_⟩
  · rw [List.filter_cons]
    simp [ht]
  · intro j db1 res es hd
    unfold execStep
    rw [if_neg (by rw [ht]; simp), hd]
  · intro j e hd
    exact execStep_error db uid j a e ht hd
  · rw [List.filter_cons]
    simp [hbt]
  · intro j
    rw [execStep_skipped db uid j b hbt]
    exact ⟨rfl, rfl⟩

/-- The replayed dicts and actions of the C10 witness. -/
def wC10d : List (String × Value) :=
  [("kind", Value.vstr "delete_materia"),
   ("args", Value.vdict [("materia_id", Value.vint 1)])]

def wC10dF : List (String × Value) :=
  wC10d ++ [("allow", Value.vbool false)]

def wC10a : PlannedAction :=
  { kind := Value.vstr "delete_materia",
    args := Value.vdict [("materia_id", Value.vint 1)],
    description := Value.vstr "" }

def wC10b : PlannedAction :=
  { wC10a with allow := some (Value.vbool false) }

/-- The state after user 1's subject #1 (and its event) were deleted. -/
def wDBafter : DB :=
  { materias := [wMat2], eventos := [], next_materia_id := 3, next_evento_id := 3 }

/-- C10 witness: the allow-less replayed delete deserializes with the
attribute unset, passes the filter, and its step is the successful
dispatch (subject #1 really deleted); the same dict with `allow=false` is
filtered out and skipped. -/
theorem C10_missing_allow_defaults_witness :
    wC10a.allow = none ∧ wC10a.allowTruthy = true ∧
    [wC10a].filter PlannedAction.allowTruthy = [wC10a] ∧
    execStep wDB 1 0 wC10a =
      (wDBafter,
       Value.vdict [("kind", Value.vstr "delete_materia"),
                    ("status", Value.vstr "success"),
                    ("deleted", Value.vdict [("materia_id", Value.vint 1)])],
       []) ∧
    wC10b.allowTruthy = false ∧
    [wC10b].filter PlannedAction.allowTruthy = [] ∧
    resultStatus (execStep wDB 1 0 wC10b).2.1 = Value.vstr "skipped" :=
  have hC := C10_missing_allow_defaults wDB 1 wC10d wC10dF 0 wC10a wC10b
    (by decide) (by decide) (by decide) (by decide) (by decide)
  ⟨hC.1.1, hC.1.2.1, hC.1.2.2.1,
   hC.1.2.2.2.1 0 wDBafter
     (Value.vdict [("kind", Value.vstr "delete_materia"),
                   ("status", Value.vstr "success"),
                   ("deleted", Value.vdict [("materia_id", Value.vint 1)])])
     [] (by decide),
   hC.2.2.1, hC.2.2.2.1, (hC.2.2.2.2 0).2⟩

end SmartFocus
